import Mathlib

/-!
# Node client adapters of nostr-wallet-connect: a shallow embedding

The three Lightning backends (`lnclient/lnd`, `lnclient/phoenixd`, `lnclient/cashu`) are
embedded as Lean functions.

Conventions of the embedding:

* A Go result pair `(T, error)` is a Lean pair `T × Option Error`; `none` is the nil error.
  A nil pointer result is `none`, a nil slice is `[]` (Go cannot tell a nil slice from an empty
  one by `len`, `range` or indexing).
* `int64` values are `Int`, `uint64` values are `Nat`; where Go arithmetic can wrap, the wrap is
  written out with `wrapInt64` and `wrapUint64`.
* A backend is a record of oracles, one per remote method. Every adapter operation calls each
  remote method at most once with a reply that is used, so quantifying over the oracle covers
  backends whose replies depend on their state. Each operation also reports the list of remote
  calls it issued, in order (`Run.calls`).
* Logging is dropped: it has no effect on results or on the remote calls.
* Byte slices are lists of naturals below 256.
-/

set_option linter.unusedVariables false

/-! ## Go runtime and standard library -/

/-- Byte slices (`[]byte`). -/
abbrev Bytes := List Nat

/-- Go `error` values that the adapters create or pass on. -/
inductive Error where
  /-- Value `hex.InvalidByteError(c)` of `encoding/hex`. -/
  | InvalidByteError (c : Char)
  /-- Value `hex.ErrLength` of `encoding/hex`. -/
  | ErrLength
  /-- Value `errors.New(msg)`. -/
  | New (msg : String)
  /-- An error value handed over by a collaborator (transport, decoder, entropy source). -/
  | External (msg : String)
  deriving DecidableEq, Repr

/-- Result of an adapter operation together with the remote calls it issued, in order. -/
structure Run (κ α : Type) where
  ret : α
  calls : List κ
  deriving DecidableEq, Repr

/-- Conversion to `int64`: two's complement wrap-around. -/
def wrapInt64 (x : Int) : Int := (x + 2 ^ 63) % 2 ^ 64 - 2 ^ 63

/-- Conversion to `uint64`: reduction modulo `2^64`. -/
def wrapUint64 (x : Int) : Nat := (x % 2 ^ 64).toNat

/-- String to byte slice conversion `[]byte(s)`: the UTF-8 bytes of the text. -/
def stringBytes (s : String) : Bytes :=
  (s.data.flatMap String.utf8EncodeChar).map UInt8.toNat

namespace hex

/-- The `hextable` of `encoding/hex`. -/
def hextable : List Char := "0123456789abcdef".data

/-- Value of one hex digit (`reverseHexTable`), `none` for any other character. Go strings are
byte strings; every byte of a non-ASCII character is rejected, as the character is here. -/
def fromHexChar (c : Char) : Option Nat :=
  if 48 ≤ c.toNat ∧ c.toNat ≤ 57 then some (c.toNat - 48)
  else if 97 ≤ c.toNat ∧ c.toNat ≤ 102 then some (c.toNat - 87)
  else if 65 ≤ c.toNat ∧ c.toNat ≤ 70 then some (c.toNat - 55)
  else none

/-- Loop of `hex.Decode`: the bytes decoded before the first fault, and the fault if any. -/
def Decode : List Char → Bytes × Option Error
  | [] => ([], none)
  | [p] =>
    match fromHexChar p with
    | none => ([], some (Error.InvalidByteError p))
    | some _ => ([], some Error.ErrLength)
  | p :: q :: rest =>
    match fromHexChar p with
    | none => ([], some (Error.InvalidByteError p))
    | some a =>
      match fromHexChar q with
      | none => ([], some (Error.InvalidByteError q))
      | some b => ((a * 16 + b) :: (Decode rest).1, (Decode rest).2)

/-- Function `hex.DecodeString`. -/
def DecodeString (s : String) : Bytes × Option Error := Decode s.data

/-- Function `hex.EncodeToString`: two digits of `hextable` per byte. -/
def EncodeToString (src : Bytes) : String :=
  String.mk (src.flatMap fun v => [hextable.getD (v / 16 % 16) '0', hextable.getD (v % 16) '0'])

end hex

/-- Go `map[uint64][]byte`, kept as an association list with one entry per key. -/
abbrev GoMap := List (Nat × Bytes)

/-- Assignment `m[k] = v`. -/
def GoMap.set (m : GoMap) (k : Nat) (v : Bytes) : GoMap :=
  (k, v) :: m.filter fun e => e.1 ≠ k

/-- Lookup `m[k]` with presence flag. -/
def GoMap.get (m : GoMap) (k : Nat) : Option Bytes :=
  (m.find? fun e => e.1 = k).map Prod.snd

/-- The parts of `crypto/sha256` and `crypto/rand` the adapters use. -/
structure Crypto where
  /-- Digest of a byte string (`sha256.New`, `Write`, `Sum(nil)`). -/
  sha256 : Bytes → Bytes
  /-- Entropy source behind `rand.Read`: it fails, or supplies a stream of bytes. -/
  randRead : Except Error (Nat → Nat)

/-! ## Shared types of `lnclient` and `nip47` -/

namespace nip47

/-- Canonical transaction (`nip47.Transaction`). -/
structure Transaction where
  Type_ : String := ""
  Invoice : String := ""
  Description : String := ""
  DescriptionHash : String := ""
  Preimage : String := ""
  PaymentHash : String := ""
  Amount : Int := 0
  FeesPaid : Int := 0
  CreatedAt : Int := 0
  ExpiresAt : Option Int := none
  SettledAt : Option Int := none
  Metadata : Option String := none
  deriving DecidableEq, Repr

end nip47

namespace lnclient

/-- Custom record of a keysend payment (`lnclient.TLVRecord`). -/
structure TLVRecord where
  Type_ : Nat
  Value : String
  deriving DecidableEq, Repr

/-- Reply to a payment (`lnclient.PayInvoiceResponse`). -/
structure PayInvoiceResponse where
  Preimage : String := ""
  Fee : Option Nat := none
  deriving DecidableEq, Repr

/-- On-chain part of the balances view. -/
structure OnchainBalanceResponse where
  Spendable : Int := 0
  Total : Int := 0
  deriving DecidableEq, Repr

/-- Lightning part of the balances view. -/
structure LightningBalanceResponse where
  TotalSpendable : Int := 0
  TotalReceivable : Int := 0
  NextMaxSpendable : Int := 0
  NextMaxReceivable : Int := 0
  NextMaxSpendableMPP : Int := 0
  NextMaxReceivableMPP : Int := 0
  deriving DecidableEq, Repr

/-- Balances view (`lnclient.BalancesResponse`). -/
structure BalancesResponse where
  Onchain : OnchainBalanceResponse := {}
  Lightning : LightningBalanceResponse := {}
  deriving DecidableEq, Repr

end lnclient

/-! ## Types of the LND RPC interface (`lnrpc`) -/

namespace lnrpc

/-- States of an invoice (`lnrpc.Invoice_InvoiceState`). -/
inductive InvoiceState where
  | OPEN | SETTLED | CANCELED | ACCEPTED
  deriving DecidableEq, Repr

/-- States of a payment (`lnrpc.Payment_PaymentStatus`). -/
inductive PaymentStatus where
  | UNKNOWN | IN_FLIGHT | SUCCEEDED | FAILED
  deriving DecidableEq, Repr

/-- Invoice record of the full node. -/
structure Invoice where
  Memo : String := ""
  RPreimage : Bytes := []
  RHash : Bytes := []
  ValueMsat : Int := 0
  CreationDate : Int := 0
  SettleDate : Int := 0
  PaymentRequest : String := ""
  DescriptionHash : Bytes := []
  Expiry : Int := 0
  AmtPaidMsat : Int := 0
  State : InvoiceState := InvoiceState.OPEN
  deriving DecidableEq, Repr

/-- Outgoing payment record of the full node. -/
structure Payment where
  PaymentHash : String := ""
  PaymentPreimage : String := ""
  PaymentRequest : String := ""
  Status : PaymentStatus := PaymentStatus.UNKNOWN
  ValueMsat : Int := 0
  FeeMsat : Int := 0
  CreationTimeNs : Int := 0
  deriving DecidableEq, Repr

/-- Request of `ListInvoices`. -/
structure ListInvoiceRequest where
  Reversed : Bool := false
  NumMaxInvoices : Nat := 0
  IndexOffset : Nat := 0
  deriving DecidableEq, Repr

/-- Request of `ListPayments`. -/
structure ListPaymentsRequest where
  Reversed : Bool := false
  MaxPayments : Nat := 0
  IndexOffset : Nat := 0
  IncludeIncomplete : Bool := false
  deriving DecidableEq, Repr

/-- Request of `SendPaymentSync`. -/
structure SendRequest where
  Dest : Bytes := []
  AmtMsat : Int := 0
  PaymentHash : Bytes := []
  PaymentRequest : String := ""
  DestFeatures : List Nat := []
  DestCustomRecords : GoMap := []
  deriving DecidableEq, Repr

/-- Reply of `SendPaymentSync`. -/
structure SendResponse where
  PaymentError : String := ""
  PaymentPreimage : Bytes := []
  PaymentHash : Bytes := []
  deriving DecidableEq, Repr

/-- Feature bit `lnrpc.FeatureBit_TLV_ONION_REQ`. -/
def FeatureBit_TLV_ONION_REQ : Nat := 8

end lnrpc

/-! ## Go `time`, `sort`, and the BOLT11 decoder -/

namespace time

/-- An instant: Unix seconds and the nanoseconds within the second. The adapters only build
instants from 64-bit milli- or nanosecond counts and shift them by one `Duration`, which stays
far inside the range where Go saturates, so seconds are unbounded integers here. -/
structure Time where
  sec : Int
  nsec : Int
  deriving DecidableEq, Repr

/-- Constant `time.Second`, in nanoseconds. -/
def Second : Int := 1000000000

/-- Constant `time.Hour`, in nanoseconds. -/
def Hour : Int := 3600 * Second

/-- Function `time.Unix(sec, nsec)`: nanoseconds outside `[0, 1e9)` are carried into seconds. -/
def Unix (sec nsec : Int) : Time :=
  if nsec < 0 ∨ nsec ≥ 1000000000 then
    let n := Int.tdiv nsec 1000000000
    let sec1 := sec + n
    let nsec1 := nsec - n * 1000000000
    if nsec1 < 0 then ⟨sec1 - 1, nsec1 + 1000000000⟩ else ⟨sec1, nsec1⟩
  else ⟨sec, nsec⟩

/-- Function `time.UnixMilli(msec)`. -/
def UnixMilli (msec : Int) : Time :=
  Unix (Int.tdiv msec 1000) (Int.tmod msec 1000 * 1000000)

/-- Method `Time.Add(d)` for a duration in nanoseconds. -/
def Time.Add (t : Time) (d : Int) : Time :=
  let dsec := Int.tdiv d 1000000000
  let nsec := t.nsec + Int.tmod d 1000000000
  if nsec ≥ 1000000000 then ⟨t.sec + (dsec + 1), nsec - 1000000000⟩
  else if nsec < 0 then ⟨t.sec + (dsec - 1), nsec + 1000000000⟩
  else ⟨t.sec + dsec, nsec⟩

/-- Method `Time.Unix()`. -/
def Time.Unix (t : Time) : Int := t.sec

/-- Function `time.Since(t)` read against the clock value `now`: the difference in nanoseconds,
clamped to the range of `Duration`. -/
def Since (now t : Time) : Int :=
  let d := (now.sec - t.sec) * 1000000000 + (now.nsec - t.nsec)
  if d > 2 ^ 63 - 1 then 2 ^ 63 - 1 else if d < -(2 ^ 63) then -(2 ^ 63) else d

end time

namespace sort

/-- Inner loop of `insertionSort_func`: the new element `x` moves left while it is `less` than
its left neighbour. The argument is the sorted prefix read from right to left, and so is the
result. -/
def insertLeft {α : Type} (less : α → α → Bool) (x : α) : List α → List α
  | [] => [x]
  | y :: ys => if less x y then y :: insertLeft less x ys else x :: y :: ys

/-- Function `sort.SliceStable`, as the insertion sort that Go runs on a block (a whole slice of
up to 20 elements is one block). `less` here compares values where Go compares positions. Longer
slices are finished in Go by merging blocks; for the comparison of `CreatedAt` used below the
sorted stable order of a list is unique (`SliceStable_unique`), so the result is the same. -/
def SliceStable {α : Type} (x : List α) (less : α → α → Bool) : List α :=
  (x.foldl (fun acc a => insertLeft less a acc) []).reverse

end sort

namespace decodepay

/-- Decoded invoice (`decodepay.Bolt11`), the fields the adapters read. -/
structure Bolt11 where
  MSatoshi : Int := 0
  PaymentHash : String := ""
  Description : String := ""
  DescriptionHash : String := ""
  CreatedAt : Int := 0
  Expiry : Int := 0
  deriving DecidableEq, Repr

end decodepay

/-- Text functions of collaborators: the BOLT11 decoder and the case mapping of `strings`. -/
structure TextLib where
  /-- Function `decodepay.Decodepay`. -/
  Decodepay : String → Except Error decodepay.Bolt11
  /-- Function `strings.ToLower`. -/
  ToLower : String → String

/-- Expression
`time.UnixMilli(int64(b.CreatedAt) * 1000).Add(time.Duration(b.Expiry) * time.Second).Unix()`
shared by the LND and Cashu normalizers. -/
def bolt11ExpiresAtUnix (b : decodepay.Bolt11) : Int :=
  ((time.UnixMilli (wrapInt64 (b.CreatedAt * 1000))).Add (wrapInt64 (b.Expiry * time.Second))).Unix

/-- Comparison handed to `sort.SliceStable` by every `ListTransactions`:
`transactions[i].CreatedAt > transactions[j].CreatedAt`. -/
def createdAtLess (a b : nip47.Transaction) : Bool := decide (a.CreatedAt > b.CreatedAt)

/-! ## Full-node adapter (`lnclient/lnd`) -/

namespace wrapper

/-- Reply of `ChannelBalance`; `LocalBalance.Msat` is the only field read. The node always
fills `LocalBalance`. -/
structure ChannelBalanceResponse where
  LocalBalanceMsat : Nat := 0
  deriving DecidableEq, Repr

/-- Reply of `GetInfo`. -/
structure GetInfoResponse where
  Alias : String := ""
  Color : String := ""
  IdentityPubkey : String := ""
  Chains : List String := []
  BlockHeight : Nat := 0
  BlockHash : String := ""
  deriving DecidableEq, Repr

/-- The RPC client (`wrapper.LNDWrapper`): one oracle per remote method. -/
structure LNDWrapper where
  ChannelBalance : Except Error ChannelBalanceResponse
  ListInvoices : lnrpc.ListInvoiceRequest → Except Error (List lnrpc.Invoice)
  ListPayments : lnrpc.ListPaymentsRequest → Except Error (List lnrpc.Payment)
  GetInfo : Except Error GetInfoResponse
  AddInvoice : lnrpc.Invoice → Except Error Bytes
  LookupInvoice : Bytes → Except Error lnrpc.Invoice
  SendPaymentSync : lnrpc.SendRequest → Except Error lnrpc.SendResponse
  SignMessage : Bytes → Except Error String

/-- A remote call issued through the RPC client. -/
inductive Call where
  | ChannelBalance
  | ListInvoices (req : lnrpc.ListInvoiceRequest)
  | ListPayments (req : lnrpc.ListPaymentsRequest)
  | GetInfo
  | AddInvoice (inv : lnrpc.Invoice)
  | LookupInvoice (rHash : Bytes)
  | SendPaymentSync (req : lnrpc.SendRequest)
  | SignMessage (msg : Bytes)
  deriving DecidableEq, Repr

end wrapper

namespace lnd

/-- The adapter object (`LNDService`). -/
structure LNDService where
  client : wrapper.LNDWrapper

/-- Constant `KEYSEND_CUSTOM_RECORD` of `SendKeysend`. -/
def KEYSEND_CUSTOM_RECORD : Nat := 5482373484

/-- Method `LNDService.GetBalance`. -/
def GetBalance (svc : LNDService) : Run wrapper.Call (Int × Option Error) :=
  match svc.client.ChannelBalance with
  | .error err => ⟨(0, some err), [wrapper.Call.ChannelBalance]⟩
  | .ok resp => ⟨(wrapInt64 resp.LocalBalanceMsat, none), [wrapper.Call.ChannelBalance]⟩

/-- Method `LNDService.GetBalances`. -/
def GetBalances (svc : LNDService) :
    Run wrapper.Call (Option lnclient.BalancesResponse × Option Error) :=
  let r := GetBalance svc
  match r.ret.2 with
  | some err => ⟨(none, some err), r.calls⟩
  | none =>
    let balance := r.ret.1
    ⟨(some {
        Onchain := { Spendable := 0, Total := 0 },
        Lightning := {
          TotalSpendable := balance,
          TotalReceivable := 0,
          NextMaxSpendable := balance,
          NextMaxReceivable := 0,
          NextMaxSpendableMPP := balance,
          NextMaxReceivableMPP := 0 } }, none), r.calls⟩

/-- Function `lndInvoiceToTransaction`. -/
def lndInvoiceToTransaction (invoice : lnrpc.Invoice) : nip47.Transaction :=
  let settled := decide (invoice.State = lnrpc.InvoiceState.SETTLED)
  let settledAt : Option Int := if settled then some invoice.SettleDate else none
  let preimage : String := if settled then hex.EncodeToString invoice.RPreimage else ""
  let expiresAt : Option Int :=
    if invoice.Expiry > 0 then some (wrapInt64 (invoice.CreationDate + invoice.Expiry)) else none
  { Type_ := "incoming",
    Invoice := invoice.PaymentRequest,
    Description := invoice.Memo,
    DescriptionHash := hex.EncodeToString invoice.DescriptionHash,
    Preimage := preimage,
    PaymentHash := hex.EncodeToString invoice.RHash,
    Amount := invoice.ValueMsat,
    FeesPaid := invoice.AmtPaidMsat,
    CreatedAt := invoice.CreationDate,
    SettledAt := settledAt,
    ExpiresAt := expiresAt }

/-- First loop of `ListTransactions`: invoices that are not settled are skipped unless `unpaid`
is set; the others are normalized and appended. -/
def invoicesLoop (unpaid : Bool) :
    List lnrpc.Invoice → List nip47.Transaction → List nip47.Transaction
  | [], transactions => transactions
  | invoice :: rest, transactions =>
    if !unpaid && decide (invoice.State ≠ lnrpc.InvoiceState.SETTLED) then
      invoicesLoop unpaid rest transactions
    else
      invoicesLoop unpaid rest (transactions ++ [lndInvoiceToTransaction invoice])

/-- Body of the second loop of `ListTransactions` for a payment that is not failed: the
outgoing transaction, or the decoder fault that ends the whole call. -/
def paymentToTransaction (lib : TextLib) (payment : lnrpc.Payment) :
    Except Error nip47.Transaction :=
  let decoded : Except Error (Option Int × String × String) :=
    if payment.PaymentRequest ≠ "" then
      match lib.Decodepay (lib.ToLower payment.PaymentRequest) with
      | .error err => .error err
      | .ok paymentRequest =>
        .ok (some (bolt11ExpiresAtUnix paymentRequest), paymentRequest.Description,
          paymentRequest.DescriptionHash)
    else .ok (none, "", "")
  match decoded with
  | .error err => .error err
  | .ok (expiresAt, description, descriptionHash) =>
    let createdAt := (time.Unix 0 payment.CreationTimeNs).Unix
    let settledAt : Option Int :=
      if payment.Status = lnrpc.PaymentStatus.SUCCEEDED then some createdAt else none
    .ok {
      Type_ := "outgoing",
      Invoice := payment.PaymentRequest,
      Preimage := payment.PaymentPreimage,
      PaymentHash := payment.PaymentHash,
      Amount := payment.ValueMsat,
      FeesPaid := payment.FeeMsat,
      CreatedAt := createdAt,
      Description := description,
      DescriptionHash := descriptionHash,
      ExpiresAt := expiresAt,
      SettledAt := settledAt }

/-- Second loop of `ListTransactions`: failed payments are skipped, the others are normalized
and appended; a decoder fault returns from the call. -/
def paymentsLoop (lib : TextLib) :
    List lnrpc.Payment → List nip47.Transaction → Except Error (List nip47.Transaction)
  | [], transactions => .ok transactions
  | payment :: rest, transactions =>
    if payment.Status = lnrpc.PaymentStatus.FAILED then
      paymentsLoop lib rest transactions
    else
      match paymentToTransaction lib payment with
      | .error err => .error err
      | .ok transaction => paymentsLoop lib rest (transactions ++ [transaction])

/-- Incoming leg of `ListTransactions`: the invoice query, issued when the type filter is empty
or `incoming`; otherwise no invoices and no call. -/
def incomingLeg (svc : LNDService) (limit offset : Nat) (invoiceType : String) :
    Run wrapper.Call (Except Error (List lnrpc.Invoice)) :=
  if invoiceType = "" ∨ invoiceType = "incoming" then
    let req : lnrpc.ListInvoiceRequest :=
      { Reversed := true, NumMaxInvoices := limit, IndexOffset := offset }
    ⟨svc.client.ListInvoices req, [wrapper.Call.ListInvoices req]⟩
  else ⟨.ok [], []⟩

/-- Outgoing leg of `ListTransactions`: the payment query, issued when the type filter is empty
or `outgoing`; otherwise no payments and no call. -/
def outgoingLeg (svc : LNDService) (limit offset : Nat) (unpaid : Bool) (invoiceType : String) :
    Run wrapper.Call (Except Error (List lnrpc.Payment)) :=
  if invoiceType = "" ∨ invoiceType = "outgoing" then
    let req : lnrpc.ListPaymentsRequest :=
      { Reversed := true, MaxPayments := limit, IndexOffset := offset,
        IncludeIncomplete := unpaid }
    ⟨svc.client.ListPayments req, [wrapper.Call.ListPayments req]⟩
  else ⟨.ok [], []⟩

/-- Method `LNDService.ListTransactions`. -/
def ListTransactions (svc : LNDService) (lib : TextLib) (from_ until_ limit offset : Nat)
    (unpaid : Bool) (invoiceType : String) :
    Run wrapper.Call (List nip47.Transaction × Option Error) :=
  let r1 := incomingLeg svc limit offset invoiceType
  match r1.ret with
  | .error err => ⟨([], some err), r1.calls⟩
  | .ok invoices =>
    let transactions := invoicesLoop unpaid invoices []
    let r2 := outgoingLeg svc limit offset unpaid invoiceType
    match r2.ret with
    | .error err => ⟨([], some err), r1.calls ++ r2.calls⟩
    | .ok payments =>
      match paymentsLoop lib payments transactions with
      | .error err => ⟨([], some err), r1.calls ++ r2.calls⟩
      | .ok transactions =>
        ⟨(sort.SliceStable transactions createdAtLess, none), r1.calls ++ r2.calls⟩

/-- Method `LNDService.SendPaymentSync`. -/
def SendPaymentSync (svc : LNDService) (payReq : String) :
    Run wrapper.Call (Option lnclient.PayInvoiceResponse × Option Error) :=
  let req : lnrpc.SendRequest := { PaymentRequest := payReq }
  match svc.client.SendPaymentSync req with
  | .error err => ⟨(none, some err), [wrapper.Call.SendPaymentSync req]⟩
  | .ok resp =>
    ⟨(some { Preimage := hex.EncodeToString resp.PaymentPreimage }, none),
      [wrapper.Call.SendPaymentSync req]⟩

/-- Function `makePreimageHex`: a zeroed buffer of 32 bytes, filled by `rand.Read`. -/
def makePreimageHex (crypto : Crypto) : Bytes × Option Error :=
  match crypto.randRead with
  | .error err => ([], some err)
  | .ok stream => ((List.range 32).map fun i => stream i % 256, none)

/-- Loop of `SendKeysend` that copies the caller records into the custom-record map. -/
def customRecordsLoop : List lnclient.TLVRecord → GoMap → GoMap
  | [], destCustomRecords => destCustomRecords
  | record :: rest, destCustomRecords =>
    customRecordsLoop rest (destCustomRecords.set record.Type_ (stringBytes record.Value))

/-- The send request that `SendKeysend` assembles from the preimage bytes. -/
def keysendRequest (crypto : Crypto) (amount : Int) (destBytes preImageBytes : Bytes)
    (custom_records : List lnclient.TLVRecord) : lnrpc.SendRequest :=
  let paymentHashBytes := crypto.sha256 preImageBytes
  let destCustomRecords :=
    (customRecordsLoop custom_records []).set KEYSEND_CUSTOM_RECORD preImageBytes
  { Dest := destBytes,
    AmtMsat := amount,
    PaymentHash := paymentHashBytes,
    DestFeatures := [lnrpc.FeatureBit_TLV_ONION_REQ],
    DestCustomRecords := destCustomRecords }

/-- The preimage bytes of `SendKeysend` and the fault of producing them: fresh random bytes when
the caller passes no preimage, the decoded caller preimage otherwise. -/
def keysendPreimage (crypto : Crypto) (preimage : String) : Bytes × Option Error :=
  if preimage = "" then makePreimageHex crypto else hex.DecodeString preimage

/-- Tail of `SendKeysend` after the backend call: transport fault, payment error, missing
preimage, or the hex text of the preimage in the reply. -/
def keysendOutcome (reply : Except Error lnrpc.SendResponse) : String × Option Error :=
  match reply with
  | .error err => ("", some err)
  | .ok resp =>
    if resp.PaymentError ≠ "" then ("", some (Error.New resp.PaymentError))
    else
      let respPreimage := hex.EncodeToString resp.PaymentPreimage
      if respPreimage = "" then ("", some (Error.New "no preimage in keysend response"))
      else (respPreimage, none)

/-- Method `LNDService.SendKeysend`. -/
def SendKeysend (svc : LNDService) (crypto : Crypto) (amount : Int)
    (destination preimage : String) (custom_records : List lnclient.TLVRecord) :
    Run wrapper.Call (String × Option Error) :=
  let dest := hex.DecodeString destination
  match dest.2 with
  | some err => ⟨("", some err), []⟩
  | none =>
    let pre := keysendPreimage crypto preimage
    if pre.2 ≠ none ∨ pre.1.length ≠ 32 then ⟨("", pre.2), []⟩
    else
      let sendPaymentRequest := keysendRequest crypto amount dest.1 pre.1 custom_records
      ⟨keysendOutcome (svc.client.SendPaymentSync sendPaymentRequest),
        [wrapper.Call.SendPaymentSync sendPaymentRequest]⟩

end lnd

/-! ## Remote-HTTP adapter (`lnclient/phoenixd`) -/

namespace url

/-- Form or query values (`url.Values`) in the order of the `Add` calls. -/
abbrev Values := List (String × String)

/-- Method `Values.Add`. -/
def Values.Add (v : Values) (key value : String) : Values := v ++ [(key, value)]

end url

namespace strconv

/-- Function `strconv.FormatUint(n, 10)`. -/
def FormatUint (n : Nat) : String := toString n

/-- Function `strconv.FormatBool`. -/
def FormatBool (b : Bool) : String := if b then "true" else "false"

end strconv

namespace http

/-- An HTTP request as the adapter builds it. -/
structure Request where
  Method : String
  URL : String
  Body : String := ""
  Header : List (String × String) := []
  deriving DecidableEq, Repr

/-- An HTTP reply. -/
structure Response where
  StatusCode : Nat := 200
  Body : String := ""
  deriving DecidableEq, Repr

/-- A request handed to `client.Do`, with the timeout of the client in seconds. -/
structure Call where
  Timeout : Nat
  Request : Request
  deriving DecidableEq, Repr

end http

namespace phoenixd

/-- Record of `/payments/incoming` (`InvoiceResponse`). -/
structure InvoiceResponse where
  PaymentHash : String := ""
  Preimage : String := ""
  ExternalId : String := ""
  Description : String := ""
  Invoice : String := ""
  IsPaid : Bool := false
  ReceivedSat : Int := 0
  Fees : Int := 0
  CompletedAt : Int := 0
  CreatedAt : Int := 0
  deriving DecidableEq, Repr

/-- Record of `/payments/outgoing` (`OutgoingPaymentResponse`). -/
structure OutgoingPaymentResponse where
  PaymentHash : String := ""
  Preimage : String := ""
  Invoice : String := ""
  IsPaid : Bool := false
  Sent : Int := 0
  Fees : Int := 0
  CompletedAt : Int := 0
  CreatedAt : Int := 0
  deriving DecidableEq, Repr

/-- Reply of `/payinvoice` (`PayResponse`). -/
structure PayResponse where
  PaymentHash : String := ""
  PaymentId : String := ""
  PaymentPreimage : String := ""
  RoutingFeeSat : Int := 0
  deriving DecidableEq, Repr

/-- Reply of `/createinvoice` (`MakeInvoiceResponse`). -/
structure MakeInvoiceResponse where
  AmountSat : Int := 0
  PaymentHash : String := ""
  Serialized : String := ""
  deriving DecidableEq, Repr

/-- Reply of `/getinfo` (`InfoResponse`). -/
structure InfoResponse where
  NodeId : String := ""
  deriving DecidableEq, Repr

/-- Reply of `/getbalance` (`BalanceResponse`). -/
structure BalanceResponse where
  BalanceSat : Int := 0
  FeeCreditSat : Int := 0
  deriving DecidableEq, Repr

/-- The collaborators of the adapter: `net/http`, `net/url` and `encoding/json`. -/
structure Remote where
  /-- Fault of `http.NewRequest(method, url, body)`, if any. -/
  NewRequest : String → String → String → Option Error
  /-- Method `client.Do`. -/
  Do : http.Request → Except Error http.Response
  /-- Method `url.Values.Encode`. -/
  Encode : url.Values → String
  /-- Decoding of a reply body with `json.NewDecoder(body).Decode`, one oracle per target. -/
  decodeBalance : String → Except Error BalanceResponse
  decodeIncoming : String → Except Error (List InvoiceResponse)
  decodeOutgoing : String → Except Error (List OutgoingPaymentResponse)
  decodeMakeInvoice : String → Except Error MakeInvoiceResponse
  decodeInvoice : String → Except Error InvoiceResponse
  decodePay : String → Except Error PayResponse
  decodeInfo : String → Except Error InfoResponse

/-- The adapter object (`PhoenixService`) with its collaborators. -/
structure PhoenixService where
  Address : String
  Authorization : String
  remote : Remote

/-- Method `PhoenixService.GetBalance`. -/
def GetBalance (svc : PhoenixService) : Run http.Call (Int × Option Error) :=
  match svc.remote.NewRequest "GET" (svc.Address ++ "/getbalance") "" with
  | some err => ⟨(0, some err), []⟩
  | none =>
    let req : http.Request :=
      { Method := "GET", URL := svc.Address ++ "/getbalance",
        Header := [("Authorization", "Basic " ++ svc.Authorization)] }
    let calls := [{ Timeout := 5, Request := req : http.Call }]
    match svc.remote.Do req with
    | .error err => ⟨(0, some err), calls⟩
    | .ok resp =>
      match svc.remote.decodeBalance resp.Body with
      | .error err => ⟨(0, some err), calls⟩
      | .ok balanceRes =>
        let balance := wrapInt64 (balanceRes.BalanceSat + balanceRes.FeeCreditSat)
        ⟨(wrapInt64 (balance * 1000), none), calls⟩

/-- Method `PhoenixService.GetBalances`. -/
def GetBalances (svc : PhoenixService) :
    Run http.Call (Option lnclient.BalancesResponse × Option Error) :=
  let r := GetBalance svc
  match r.ret.2 with
  | some err => ⟨(none, some err), r.calls⟩
  | none =>
    let balance := r.ret.1
    ⟨(some {
        Onchain := { Spendable := 0, Total := 0 },
        Lightning := {
          TotalSpendable := balance,
          TotalReceivable := 0,
          NextMaxSpendable := balance,
          NextMaxReceivable := 0,
          NextMaxSpendableMPP := balance,
          NextMaxReceivableMPP := 0 } }, none), r.calls⟩

/-- Query of both legs of `ListTransactions`. -/
def listQuery (from_ until_ limit offset : Nat) (unpaid : Bool) : url.Values :=
  let q0 : url.Values := []
  let q1 := if from_ ≠ 0 then q0.Add "from" (strconv.FormatUint (from_ * 1000 % 2 ^ 64)) else q0
  let q2 := if until_ ≠ 0 then q1.Add "to" (strconv.FormatUint (until_ * 1000 % 2 ^ 64)) else q1
  let q3 := if limit ≠ 0 then q2.Add "limit" (strconv.FormatUint limit) else q2
  let q4 := if offset ≠ 0 then q3.Add "offset" (strconv.FormatUint offset) else q3
  q4.Add "all" (strconv.FormatBool unpaid)

/-- Settlement time of a record: set when `CompletedAt` is not zero. -/
def settledAtOf (completedAt : Int) : Option Int :=
  if completedAt ≠ 0 then some (time.UnixMilli completedAt).Unix else none

/-- Body of the first loop of `ListTransactions`. -/
def incomingToTransaction (invoice : InvoiceResponse) : nip47.Transaction :=
  { Type_ := "incoming",
    Invoice := invoice.Invoice,
    Preimage := invoice.Preimage,
    PaymentHash := invoice.PaymentHash,
    Amount := wrapInt64 (invoice.ReceivedSat * 1000),
    FeesPaid := wrapInt64 (invoice.Fees * 1000),
    CreatedAt := (time.UnixMilli invoice.CreatedAt).Unix,
    Description := invoice.Description,
    SettledAt := settledAtOf invoice.CompletedAt }

/-- Body of the second loop of `ListTransactions`. -/
def outgoingToTransaction (invoice : OutgoingPaymentResponse) : nip47.Transaction :=
  { Type_ := "outgoing",
    Invoice := invoice.Invoice,
    Preimage := invoice.Preimage,
    PaymentHash := invoice.PaymentHash,
    Amount := wrapInt64 (invoice.Sent * 1000),
    FeesPaid := wrapInt64 (invoice.Fees * 1000),
    CreatedAt := (time.UnixMilli invoice.CreatedAt).Unix,
    SettledAt := settledAtOf invoice.CompletedAt }

/-- First loop of `ListTransactions`: every incoming record is appended. -/
def incomingLoop : List InvoiceResponse → List nip47.Transaction → List nip47.Transaction
  | [], transactions => transactions
  | invoice :: rest, transactions =>
    incomingLoop rest (transactions ++ [incomingToTransaction invoice])

/-- Second loop of `ListTransactions`: every outgoing record is appended. -/
def outgoingLoop : List OutgoingPaymentResponse → List nip47.Transaction → List nip47.Transaction
  | [], transactions => transactions
  | invoice :: rest, transactions =>
    outgoingLoop rest (transactions ++ [outgoingToTransaction invoice])

/-- One leg of `ListTransactions` up to the reply body: request, transport, and the calls
issued. -/
def fetch (svc : PhoenixService) (requestUrl : String) : Run http.Call (Except Error String) :=
  match svc.remote.NewRequest "GET" requestUrl "" with
  | some err => ⟨.error err, []⟩
  | none =>
    let req : http.Request :=
      { Method := "GET", URL := requestUrl,
        Header := [("Authorization", "Basic " ++ svc.Authorization)] }
    match svc.remote.Do req with
    | .error err => ⟨.error err, [{ Timeout := 5, Request := req }]⟩
    | .ok resp => ⟨.ok resp.Body, [{ Timeout := 5, Request := req }]⟩

/-- Incoming leg of `ListTransactions`: query, transport and decoding of the reply. -/
def incomingLeg (svc : PhoenixService) (from_ until_ limit offset : Nat) (unpaid : Bool) :
    Run http.Call (Except Error (List InvoiceResponse)) :=
  let incomingUrl := svc.Address ++ "/payments/incoming?" ++
    svc.remote.Encode (listQuery from_ until_ limit offset unpaid)
  let r := fetch svc incomingUrl
  match r.ret with
  | .error err => ⟨.error err, r.calls⟩
  | .ok body => ⟨svc.remote.decodeIncoming body, r.calls⟩

/-- Outgoing leg of `ListTransactions`: query, transport and decoding of the reply. -/
def outgoingLeg (svc : PhoenixService) (from_ until_ limit offset : Nat) (unpaid : Bool) :
    Run http.Call (Except Error (List OutgoingPaymentResponse)) :=
  let outgoingUrl := svc.Address ++ "/payments/outgoing?" ++
    svc.remote.Encode (listQuery from_ until_ limit offset unpaid)
  let r := fetch svc outgoingUrl
  match r.ret with
  | .error err => ⟨.error err, r.calls⟩
  | .ok body => ⟨svc.remote.decodeOutgoing body, r.calls⟩

/-- Method `PhoenixService.ListTransactions`. -/
def ListTransactions (svc : PhoenixService) (from_ until_ limit offset : Nat) (unpaid : Bool)
    (invoiceType : String) : Run http.Call (List nip47.Transaction × Option Error) :=
  let r1 := incomingLeg svc from_ until_ limit offset unpaid
  match r1.ret with
  | .error err => ⟨([], some err), r1.calls⟩
  | .ok incomingPayments =>
    let transactions := incomingLoop incomingPayments []
    let r2 := outgoingLeg svc from_ until_ limit offset unpaid
    match r2.ret with
    | .error err => ⟨([], some err), r1.calls ++ r2.calls⟩
    | .ok outgoingPayments =>
      let transactions := outgoingLoop outgoingPayments transactions
      ⟨(sort.SliceStable transactions createdAtLess, none), r1.calls ++ r2.calls⟩

end phoenixd

/-! ## Ecash adapter (`lnclient/cashu`) -/

namespace storage

/-- Kind of a stored quote (`storage.InvoiceType`). -/
inductive InvoiceType where
  | Mint | Melt
  deriving DecidableEq, Repr

/-- Stored quote (`storage.Invoice`). -/
structure Invoice where
  TransactionType : InvoiceType := InvoiceType.Mint
  Id : String := ""
  QuoteAmount : Nat := 0
  InvoiceAmount : Nat := 0
  PaymentRequest : String := ""
  PaymentHash : String := ""
  Preimage : String := ""
  CreatedAt : Int := 0
  Paid : Bool := false
  SettledAt : Int := 0
  QuoteExpiry : Nat := 0
  deriving DecidableEq, Repr

end storage

namespace wallet

/-- Reply of `Melt`, the field the adapter reads. -/
structure MeltResponse where
  Preimage : String := ""
  deriving DecidableEq, Repr

/-- Reply of `RequestMint`, the field the adapter reads. -/
structure MintResponse where
  Request : String := ""
  deriving DecidableEq, Repr

/-- The embedded wallet (`wallet.Wallet`): one oracle per method. -/
structure Wallet where
  /-- Balance per mint, a Go map. Its iteration order is not fixed. -/
  GetBalanceByMints : List (String × Nat)
  CurrentMint : String
  Melt : String → String → Except Error (Option MeltResponse)
  GetInvoiceByPaymentRequest : String → Except Error (Option storage.Invoice)
  GetInvoiceByPaymentHash : String → Option storage.Invoice
  GetAllInvoices : List storage.Invoice
  /-- Minted proofs (their amounts, `none` for a nil slice) and the fault, if any. -/
  MintTokens : String → Option (List Nat) × Option Error
  RequestMint : Nat → Except Error MintResponse

/-- A call into the wallet. -/
inductive Call where
  | GetBalanceByMints
  | Melt (invoice mint : String)
  | GetInvoiceByPaymentRequest (invoice : String)
  | GetInvoiceByPaymentHash (paymentHash : String)
  | GetAllInvoices
  | MintTokens (id : String)
  | RequestMint (amount : Nat)
  deriving DecidableEq, Repr

end wallet

namespace cashu

/-- The adapter object (`CashuService`). -/
structure CashuService where
  wallet : wallet.Wallet

/-- Method `CashuService.GetBalance`. -/
def GetBalance (cs : CashuService) : Run wallet.Call (Int × Option Error) :=
  let balanceByMints := cs.wallet.GetBalanceByMints
  let totalBalance := balanceByMints.foldl (fun total e => (total + e.2) % 2 ^ 64) 0
  ⟨(wrapInt64 (totalBalance * 1000 % 2 ^ 64 : Nat), none), [wallet.Call.GetBalanceByMints]⟩

/-- Method `CashuService.GetBalances`. -/
def GetBalances (cs : CashuService) :
    Run wallet.Call (Option lnclient.BalancesResponse × Option Error) :=
  let r := GetBalance cs
  match r.ret.2 with
  | some err => ⟨(none, some err), r.calls⟩
  | none =>
    let balance := r.ret.1
    ⟨(some {
        Onchain := { Spendable := 0, Total := 0 },
        Lightning := {
          TotalSpendable := balance,
          TotalReceivable := 0,
          NextMaxSpendable := balance,
          NextMaxReceivable := 0,
          NextMaxSpendableMPP := balance,
          NextMaxReceivableMPP := 0 } }, none), r.calls⟩

/-- Method `CashuService.cashuInvoiceToTransaction`. -/
def cashuInvoiceToTransaction (lib : TextLib) (cashuInvoice : storage.Invoice) :
    Option nip47.Transaction × Option Error :=
  match lib.Decodepay cashuInvoice.PaymentRequest with
  | .error err => (none, some err)
  | .ok paymentRequest =>
    let settledAt : Option Int :=
      if cashuInvoice.SettledAt > 0 then some cashuInvoice.SettledAt else none
    let expiresAt : Option Int := some (bolt11ExpiresAtUnix paymentRequest)
    let invoiceType :=
      if cashuInvoice.TransactionType = storage.InvoiceType.Mint then "incoming" else "outgoing"
    (some {
      Type_ := invoiceType,
      Invoice := cashuInvoice.PaymentRequest,
      PaymentHash := paymentRequest.PaymentHash,
      Amount := paymentRequest.MSatoshi,
      CreatedAt := paymentRequest.CreatedAt,
      ExpiresAt := expiresAt,
      Description := paymentRequest.Description,
      DescriptionHash := paymentRequest.DescriptionHash,
      Preimage := cashuInvoice.Preimage,
      SettledAt := settledAt,
      FeesPaid :=
        wrapInt64 (wrapInt64 (cashuInvoice.QuoteAmount * 1000 % 2 ^ 64 : Nat)
          - paymentRequest.MSatoshi) }, none)

/-- Method `CashuService.checkInvoice`: the wallet calls it issues. The minted proofs and the
fault are only logged. -/
def checkInvoice (cs : CashuService) (cashuInvoice : storage.Invoice) : List wallet.Call :=
  if cashuInvoice.TransactionType = storage.InvoiceType.Mint ∧ cashuInvoice.Paid = false then
    [wallet.Call.MintTokens cashuInvoice.Id]
  else []

/-- Loop of `ListTransactions`. `clock k` is the value of the `k`-th reading of `time.Now`
during the call; each iteration reads the clock once. The result is the list of kept
transactions and the wallet calls issued. -/
def listLoop (cs : CashuService) (lib : TextLib) (clock : Nat → time.Time) :
    List storage.Invoice → Nat → List nip47.Transaction → List wallet.Call →
    List nip47.Transaction × List wallet.Call
  | [], _, transactions, calls => (transactions, calls)
  | invoice :: rest, k, transactions, calls =>
    let invoiceCreated := time.UnixMilli (wrapInt64 (invoice.CreatedAt * 1000))
    let calls1 :=
      if time.Since (clock k) invoiceCreated < 24 * time.Hour then
        calls ++ checkInvoice cs invoice
      else calls
    match cashuInvoiceToTransaction lib invoice with
    | (_, some _) => listLoop cs lib clock rest (k + 1) transactions calls1
    | (none, none) => listLoop cs lib clock rest (k + 1) transactions calls1
    | (some transaction, none) =>
      if transaction.SettledAt = none then listLoop cs lib clock rest (k + 1) transactions calls1
      else listLoop cs lib clock rest (k + 1) (transactions ++ [transaction]) calls1

/-- Method `CashuService.ListTransactions`. -/
def ListTransactions (cs : CashuService) (lib : TextLib) (clock : Nat → time.Time)
    (from_ until_ limit offset : Nat) (unpaid : Bool) (invoiceType : String) :
    Run wallet.Call (List nip47.Transaction × Option Error) :=
  let invoices := cs.wallet.GetAllInvoices
  let r := listLoop cs lib clock invoices 0 [] [wallet.Call.GetAllInvoices]
  ⟨(sort.SliceStable r.1 createdAtLess, none), r.2⟩

end cashu

/-! ## Calendar dates of Go `time` -/

namespace time

/-- Civil date `(year, month, day)` in UTC of the day that lies `days` days after 1970-01-01,
in the proleptic Gregorian calendar that `Time.Date` uses. -/
def civil (days : Int) : Int × Int × Int :=
  let z := days + 719468
  let era := z / 146097
  let doe := z - era * 146097
  let yoe := (doe - doe / 1460 + doe / 36524 - doe / 146096) / 365
  let doy := doe - (365 * yoe + yoe / 4 - yoe / 100)
  let mp := (5 * doy + 2) / 153
  let d := doy - (153 * mp + 2) / 5 + 1
  let m := if mp < 10 then mp + 3 else mp - 9
  let y := yoe + era * 400 + (if m ≤ 2 then 1 else 0)
  (y, m, d)

/-- Method `Time.UTC().Date()`: the civil date of the instant in UTC. -/
def Time.Date (t : Time) : Int × Int × Int := civil (t.sec / 86400)

/-- One decimal digit. -/
def digit (n : Int) : Char := "0123456789".data.getD (n % 10).toNat '0'

/-- Zero-padded decimal of width two (`stdZeroDay`, `stdZeroMonth`). -/
def pad2 (n : Int) : List Char := [digit (n / 10), digit n]

/-- Zero-padded decimal of width four (`stdLongYear`) for the years 0 to 9999. -/
def pad4 (n : Int) : List Char := [digit (n / 1000), digit (n / 100), digit (n / 10), digit n]

/-- Layout scan of `Time.Format`, for layouts built from the reference year `2006`, the
reference month `01`, the reference day `02` and separators that are not digits: each reference
element is replaced by the matching part of the date, other characters are copied. -/
def formatChars (year month day : Int) : List Char → List Char
  | '2' :: '0' :: '0' :: '6' :: rest => pad4 year ++ formatChars year month day rest
  | '0' :: '1' :: rest => pad2 month ++ formatChars year month day rest
  | '0' :: '2' :: rest => pad2 day ++ formatChars year month day rest
  | c :: rest => c :: formatChars year month day rest
  | [] => []

/-- Method `Time.UTC().Format(layout)` on the layouts described at `formatChars`. -/
def Time.Format (t : Time) (layout : String) : String :=
  String.mk (formatChars t.Date.1 t.Date.2.1 t.Date.2.2 layout.data)

end time

namespace strconv

/-- Function `strconv.FormatInt(n, 10)`. -/
def FormatInt (n : Int) : String := toString n

end strconv

/-! ## Full-node adapter: invoices -/

namespace lnd

/-- Description hash bytes of `MakeInvoice` and the fault of decoding them: nothing is decoded
when the text is empty. -/
def descriptionHashBytes (descriptionHash : String) : Bytes × Option Error :=
  if descriptionHash ≠ "" then hex.DecodeString descriptionHash else ([], none)

/-- Method `LNDService.MakeInvoice`. -/
def MakeInvoice (svc : LNDService) (amount : Int) (description descriptionHash : String)
    (expiry : Int) : Run wrapper.Call (Option nip47.Transaction × Option Error) :=
  let dh := descriptionHashBytes descriptionHash
  if descriptionHash ≠ "" ∧ (dh.2 ≠ none ∨ dh.1.length ≠ 32) then
    ⟨(none, some (Error.New "description hash must be 32 bytes hex")), []⟩
  else
    let invoice : lnrpc.Invoice :=
      { ValueMsat := amount, Memo := description, DescriptionHash := dh.1, Expiry := expiry }
    match svc.client.AddInvoice invoice with
    | .error err => ⟨(none, some err), [wrapper.Call.AddInvoice invoice]⟩
    | .ok rHash =>
      let calls := [wrapper.Call.AddInvoice invoice, wrapper.Call.LookupInvoice rHash]
      match svc.client.LookupInvoice rHash with
      | .error err => ⟨(none, some err), calls⟩
      | .ok inv => ⟨(some (lndInvoiceToTransaction inv), none), calls⟩

/-- Method `LNDService.LookupInvoice`. -/
def LookupInvoice (svc : LNDService) (paymentHash : String) :
    Run wrapper.Call (Option nip47.Transaction × Option Error) :=
  let ph := hex.DecodeString paymentHash
  if ph.2 ≠ none ∨ ph.1.length ≠ 32 then
    ⟨(none, some (Error.New "Payment hash must be 32 bytes hex")), []⟩
  else
    match svc.client.LookupInvoice ph.1 with
    | .error err => ⟨(none, some err), [wrapper.Call.LookupInvoice ph.1]⟩
    | .ok lndInvoice =>
      ⟨(some (lndInvoiceToTransaction lndInvoice), none), [wrapper.Call.LookupInvoice ph.1]⟩

end lnd

/-! ## Remote-HTTP adapter: invoices and keysend -/

namespace phoenixd

/-- Form of `MakeInvoice` for the date text `today`. -/
def makeInvoiceForm (today : String) (amount : Int) (description descriptionHash : String) :
    url.Values :=
  let form : url.Values := []
  let amountSat := strconv.FormatInt (Int.tdiv amount 1000)
  let form := form.Add "amountSat" amountSat
  let form :=
    if descriptionHash ≠ "" then form.Add "descriptionHash" descriptionHash
    else if description ≠ "" then form.Add "description" description
    else form.Add "description" "invoice"
  form.Add "externalId" today

/-- Method `PhoenixService.MakeInvoice`. `clock k` is the value of the `k`-th reading of
`time.Now` during the call. -/
def MakeInvoice (svc : PhoenixService) (clock : Nat → time.Time) (amount : Int)
    (description descriptionHash : String) (expiry : Int) :
    Run http.Call (Option nip47.Transaction × Option Error) :=
  let today := (clock 0).Format "2006-02-01"
  let form := makeInvoiceForm today amount description descriptionHash
  let body := svc.remote.Encode form
  match svc.remote.NewRequest "POST" (svc.Address ++ "/createinvoice") body with
  | some err => ⟨(none, some err), []⟩
  | none =>
    let req : http.Request :=
      { Method := "POST", URL := svc.Address ++ "/createinvoice", Body := body,
        Header := [("Authorization", "Basic " ++ svc.Authorization),
          ("Content-Type", "application/x-www-form-urlencoded")] }
    let calls := [{ Timeout := 10, Request := req : http.Call }]
    match svc.remote.Do req with
    | .error err => ⟨(none, some err), calls⟩
    | .ok resp =>
      match svc.remote.decodeMakeInvoice resp.Body with
      | .error err => ⟨(none, some err), calls⟩
      | .ok invoiceRes =>
        let expiresAt := ((clock 1).Add (1 * time.Hour)).Unix
        ⟨(some {
            Type_ := "incoming",
            Invoice := invoiceRes.Serialized,
            Preimage := "",
            PaymentHash := invoiceRes.PaymentHash,
            FeesPaid := 0,
            CreatedAt := (clock 2).Unix,
            ExpiresAt := some expiresAt,
            SettledAt := none,
            Metadata := none }, none), calls⟩

/-- Method `PhoenixService.LookupInvoice`. -/
def LookupInvoice (svc : PhoenixService) (paymentHash : String) :
    Run http.Call (Option nip47.Transaction × Option Error) :=
  let r := fetch svc (svc.Address ++ "/payments/incoming/" ++ paymentHash)
  match r.ret with
  | .error err => ⟨(none, some err), r.calls⟩
  | .ok body =>
    match svc.remote.decodeInvoice body with
    | .error err => ⟨(none, some err), r.calls⟩
    | .ok invoiceRes =>
      let settledAt : Option Int :=
        if invoiceRes.CompletedAt ≠ 0 then some (time.UnixMilli invoiceRes.CompletedAt).Unix
        else none
      ⟨(some {
          Type_ := "incoming",
          Invoice := invoiceRes.Invoice,
          Preimage := invoiceRes.Preimage,
          PaymentHash := invoiceRes.PaymentHash,
          Amount := wrapInt64 (invoiceRes.ReceivedSat * 1000),
          FeesPaid := wrapInt64 (invoiceRes.Fees * 1000),
          CreatedAt := (time.UnixMilli invoiceRes.CreatedAt).Unix,
          Description := invoiceRes.Description,
          SettledAt := settledAt }, none), r.calls⟩

/-- Method `PhoenixService.SendKeysend`. -/
def SendKeysend (svc : PhoenixService) (amount : Int) (destination preimage : String)
    (custom_records : List lnclient.TLVRecord) : Run http.Call (String × Option Error) :=
  ⟨("", some (Error.New "not implemented")), []⟩

end phoenixd

/-! ## Ecash adapter: lookup and keysend -/

namespace cashu

/-- Method `CashuService.SendKeysend`. -/
def SendKeysend (cs : CashuService) (amount : Int) (destination preimage : String)
    (custom_records : List lnclient.TLVRecord) : Run wallet.Call (String × Option Error) :=
  ⟨("", some (Error.New "Keysend not supported")), []⟩

/-- Method `CashuService.LookupInvoice`. The quote is checked whatever its age, the clock is
not read; the fault of the normalizer is dropped by the final `return transaction, nil`. -/
def LookupInvoice (cs : CashuService) (lib : TextLib) (paymentHash : String) :
    Run wallet.Call (Option nip47.Transaction × Option Error) :=
  match cs.wallet.GetInvoiceByPaymentHash paymentHash with
  | none =>
    ⟨(none, some (Error.New "failed to lookup payment request by payment hash")),
      [wallet.Call.GetInvoiceByPaymentHash paymentHash]⟩
  | some cashuInvoice =>
    let calls := [wallet.Call.GetInvoiceByPaymentHash paymentHash] ++
      checkInvoice cs cashuInvoice
    let r := cashuInvoiceToTransaction lib cashuInvoice
    ⟨(r.1, none), calls⟩

end cashu

/-! ## Payments on the remote node and on the ecash wallet, and operations without backend -/

/-- How a Go call ends: it returns a value, or it panics (here: on a nil pointer). -/
inductive Outcome (α : Type) where
  | returned (value : α)
  | panicked
  deriving DecidableEq, Repr

namespace lnclient

/-- Request of `OpenChannel`; the adapters below do not read it. -/
structure OpenChannelRequest where
  Pubkey : String := ""
  Amount : Int := 0
  Public : Bool := false
  deriving DecidableEq, Repr

/-- Reply of `OpenChannel`. -/
structure OpenChannelResponse where
  FundingTxId : String := ""
  deriving DecidableEq, Repr

/-- Request of `CloseChannel`; the adapters below do not read it. -/
structure CloseChannelRequest where
  ChannelId : String := ""
  NodeId : String := ""
  deriving DecidableEq, Repr

/-- Reply of `CloseChannel`. -/
structure CloseChannelResponse where
  deriving DecidableEq, Repr

/-- Request of `ConnectPeer`; the adapters below do not read it. -/
structure ConnectPeerRequest where
  Pubkey : String := ""
  Address : String := ""
  Port : Nat := 0
  deriving DecidableEq, Repr

/-- A channel of the node (`lnclient.Channel`); no adapter below builds one. -/
structure Channel where
  Id : String := ""
  RemotePubkey : String := ""
  LocalBalance : Int := 0
  RemoteBalance : Int := 0
  Active : Bool := false
  deriving DecidableEq, Repr

end lnclient

namespace phoenixd

/-- Method `PhoenixService.SendPaymentSync`. The status code of the reply is not read. -/
def SendPaymentSync (svc : PhoenixService) (payReq : String) :
    Run http.Call (Option lnclient.PayInvoiceResponse × Option Error) :=
  let form : url.Values := []
  let form := form.Add "invoice" payReq
  let body := svc.remote.Encode form
  match svc.remote.NewRequest "POST" (svc.Address ++ "/payinvoice") body with
  | some err => ⟨(none, some err), []⟩
  | none =>
    let req : http.Request :=
      { Method := "POST", URL := svc.Address ++ "/payinvoice", Body := body,
        Header := [("Authorization", "Basic " ++ svc.Authorization),
          ("Content-Type", "application/x-www-form-urlencoded")] }
    let calls := [{ Timeout := 90, Request := req : http.Call }]
    match svc.remote.Do req with
    | .error err => ⟨(none, some err), calls⟩
    | .ok resp =>
      match svc.remote.decodePay resp.Body with
      | .error err => ⟨(none, some err), calls⟩
      | .ok payRes =>
        let fee := wrapUint64 payRes.RoutingFeeSat * 1000 % 2 ^ 64
        ⟨(some { Preimage := payRes.PaymentPreimage, Fee := some fee }, none), calls⟩

end phoenixd

namespace cashu

/-- Method `CashuService.SendPaymentSync`. A nil invoice from `GetInvoiceByPaymentRequest` is
dereferenced by the normalizer, which panics. -/
def SendPaymentSync (cs : CashuService) (lib : TextLib) (invoice : String) :
    Run wallet.Call (Outcome (Option lnclient.PayInvoiceResponse × Option Error)) :=
  let calls1 := [wallet.Call.Melt invoice cs.wallet.CurrentMint]
  match cs.wallet.Melt invoice cs.wallet.CurrentMint with
  | .error err => ⟨.returned (none, some err), calls1⟩
  | .ok none => ⟨.returned (none, some (Error.New "no preimage in melt response")), calls1⟩
  | .ok (some meltResponse) =>
    if meltResponse.Preimage = "" then
      ⟨.returned (none, some (Error.New "no preimage in melt response")), calls1⟩
    else
      let calls2 := calls1 ++ [wallet.Call.GetInvoiceByPaymentRequest invoice]
      match cs.wallet.GetInvoiceByPaymentRequest invoice with
      | .error err => ⟨.returned (none, some err), calls2⟩
      | .ok none => ⟨.panicked, calls2⟩
      | .ok (some cashuInvoice) =>
        match cashuInvoiceToTransaction lib cashuInvoice with
        | (_, some err) => ⟨.returned (none, some err), calls2⟩
        | (none, none) => ⟨.panicked, calls2⟩
        | (some transaction, none) =>
          let fee := wrapUint64 transaction.FeesPaid
          ⟨.returned (some { Preimage := meltResponse.Preimage, Fee := some fee }, none),
            calls2⟩

/-- Method `CashuService.ListChannels`. -/
def ListChannels (cs : CashuService) : Run wallet.Call (List lnclient.Channel × Option Error) :=
  ⟨([], none), []⟩

/-- Method `CashuService.ConnectPeer`. -/
def ConnectPeer (cs : CashuService) (connectPeerRequest : Option lnclient.ConnectPeerRequest) :
    Run wallet.Call (Option Error) :=
  ⟨none, []⟩

/-- Method `CashuService.OpenChannel`. -/
def OpenChannel (cs : CashuService) (openChannelRequest : Option lnclient.OpenChannelRequest) :
    Run wallet.Call (Option lnclient.OpenChannelResponse × Option Error) :=
  ⟨(none, none), []⟩

/-- Method `CashuService.CloseChannel`. -/
def CloseChannel (cs : CashuService)
    (closeChannelRequest : Option lnclient.CloseChannelRequest) :
    Run wallet.Call (Option lnclient.CloseChannelResponse × Option Error) :=
  ⟨(none, none), []⟩

/-- Method `CashuService.GetNewOnchainAddress`. -/
def GetNewOnchainAddress (cs : CashuService) : Run wallet.Call (String × Option Error) :=
  ⟨("", none), []⟩

/-- Method `CashuService.RedeemOnchainFunds`. -/
def RedeemOnchainFunds (cs : CashuService) (toAddress : String) :
    Run wallet.Call (String × Option Error) :=
  ⟨("", none), []⟩

/-- Method `CashuService.SignMessage`. -/
def SignMessage (cs : CashuService) (message : String) :
    Run wallet.Call (String × Option Error) :=
  ⟨("", none), []⟩

end cashu

/-! ## Sample backends

Concrete collaborators on which the theorems below are instantiated. -/

/-- A stand-in for the digest and a counting entropy stream. -/
def toyCrypto : Crypto :=
  { sha256 := fun b => b.reverse, randRead := .ok fun i => i }

/-- A decoder that accepts every text but `"garbage"`, with a fixed creation time and expiry. -/
def toyLib : TextLib :=
  { Decodepay := fun s =>
      if s = "garbage" then .error (Error.External "bolt11")
      else .ok { MSatoshi := 21000, PaymentHash := "aa", CreatedAt := 1700000000, Expiry := 3600 },
    ToLower := fun s => String.mk (s.data.map Char.toLower) }

/-- Node-side invoices of the samples: one settled, one open. -/
def sampleInvoices : List lnrpc.Invoice :=
  [ { RHash := [1], ValueMsat := 21000, CreationDate := 100, SettleDate := 130, Expiry := 3600,
      AmtPaidMsat := 21000, RPreimage := [7], State := lnrpc.InvoiceState.SETTLED },
    { RHash := [2], ValueMsat := 5000, CreationDate := 300, Expiry := 3600 } ]

/-- Node-side payments of the samples: one succeeded, one failed, one in flight with a
payment request; the first is created in the same second as the settled sample invoice. -/
def samplePayments : List lnrpc.Payment :=
  [ { PaymentHash := "p1", PaymentPreimage := "0a", Status := lnrpc.PaymentStatus.SUCCEEDED,
      ValueMsat := 1000, FeeMsat := 1, CreationTimeNs := 100000000000 },
    { PaymentHash := "p2", Status := lnrpc.PaymentStatus.FAILED, ValueMsat := 2000,
      CreationTimeNs := 200000000000 },
    { PaymentHash := "p3", PaymentRequest := "LNBC3", Status := lnrpc.PaymentStatus.IN_FLIGHT,
      ValueMsat := 3000, CreationTimeNs := 400000000000 } ]

/-- A node that answers every list query with the samples and rejects every payment with a
payment error although the transport succeeds. -/
def rejectingNode : wrapper.LNDWrapper :=
  { ChannelBalance := .ok { LocalBalanceMsat := 21000 },
    ListInvoices := fun _ => .ok sampleInvoices,
    ListPayments := fun _ => .ok samplePayments,
    GetInfo := .ok {},
    AddInvoice := fun _ => .ok [],
    LookupInvoice := fun _ => .ok {},
    SendPaymentSync := fun _ => .ok { PaymentError := "no_route" },
    SignMessage := fun _ => .ok "" }

/-- A node that pays every request and reveals the preimage `0a ff`. -/
def payingNode : wrapper.LNDWrapper :=
  { rejectingNode with SendPaymentSync := fun _ => .ok { PaymentPreimage := [10, 255] } }

/-- A node whose channel balance query fails. -/
def offlineNode : wrapper.LNDWrapper :=
  { rejectingNode with ChannelBalance := .error (Error.External "unavailable") }

/-- A node that honours the page size 1 on each list query. -/
def pagingNode : wrapper.LNDWrapper :=
  { rejectingNode with
    ListInvoices := fun req => .ok (sampleInvoices.take req.NumMaxInvoices),
    ListPayments := fun req => .ok (samplePayments.take req.MaxPayments) }

/-- A node whose only payment succeeded but carries a payment request that does not decode. -/
def garbageNode : wrapper.LNDWrapper :=
  { rejectingNode with
    ListPayments := fun _ =>
      .ok [ { PaymentHash := "p4", PaymentRequest := "garbage",
              Status := lnrpc.PaymentStatus.SUCCEEDED } ] }

/-- A public key in hex, 33 bytes. -/
def sampleDestination : String :=
  "02aaaaaaaaaaaaaaaaaaaaaaaaaaaaaaaaaaaaaaaaaaaaaaaaaaaaaaaaaaaaaaaaaa"

/-- A well-formed hex preimage of 31 bytes. -/
def preimage31 : String :=
  "00000000000000000000000000000000000000000000000000000000000000"

/-- A well-formed hex preimage of 32 bytes. -/
def preimage32 : String :=
  "0000000000000000000000000000000000000000000000000000000000000001"

/-- Caller records: one on the reserved keysend key, two on key 7. -/
def sampleRecords : List lnclient.TLVRecord :=
  [⟨5482373484, "ab"⟩, ⟨7, "x"⟩, ⟨7, "y"⟩]

/-- Collaborators of the remote-HTTP adapter that answer with one incoming and two outgoing
records, and with the balance 20 sat plus 1 sat of fee credit. -/
def sampleRemote : phoenixd.Remote :=
  { NewRequest := fun _ _ _ => none,
    Do := fun req => .ok { Body := req.URL },
    Encode := fun _ => "",
    decodeBalance := fun _ => .ok { BalanceSat := 20, FeeCreditSat := 1 },
    decodeIncoming := fun _ =>
      .ok [ { PaymentHash := "i1", ReceivedSat := 21, CreatedAt := 5000, CompletedAt := 6000 } ],
    decodeOutgoing := fun _ =>
      .ok [ { PaymentHash := "o1", Sent := 3, CreatedAt := 5999 },
            { PaymentHash := "o2", Sent := 4, CreatedAt := 9000, CompletedAt := 9500 } ],
    decodeMakeInvoice := fun _ => .ok {},
    decodeInvoice := fun _ => .ok {},
    decodePay := fun _ => .ok {},
    decodeInfo := fun _ => .ok {} }

/-- The remote-HTTP adapter over `sampleRemote`. -/
def samplePhoenix : phoenixd.PhoenixService :=
  { Address := "http://localhost:9740", Authorization := "OnBhc3M=", remote := sampleRemote }

/-- The remote-HTTP adapter over a transport that refuses every request. -/
def offlinePhoenix : phoenixd.PhoenixService :=
  { samplePhoenix with
    remote := { sampleRemote with Do := fun _ => .error (Error.External "refused") } }

/-- A wallet with two mints and two settled quotes and one open quote. -/
def sampleWallet : wallet.Wallet :=
  { GetBalanceByMints := [("https://mint.a", 20), ("https://mint.b", 1)],
    CurrentMint := "https://mint.a",
    Melt := fun _ _ => .ok (some { Preimage := "0b" }),
    GetInvoiceByPaymentRequest := fun _ => .ok none,
    GetInvoiceByPaymentHash := fun _ => none,
    GetAllInvoices :=
      [ { Id := "q1", QuoteAmount := 21, PaymentRequest := "lnbc1", Paid := true,
          CreatedAt := 1700000000, SettledAt := 1700000100 },
        { Id := "q2", QuoteAmount := 5, PaymentRequest := "lnbc2", CreatedAt := 1700000200 },
        { Id := "q3", TransactionType := storage.InvoiceType.Melt, QuoteAmount := 22,
          PaymentRequest := "lnbc3", Paid := true, CreatedAt := 1700000300,
          SettledAt := 1700000400 } ],
    MintTokens := fun _ => (none, some (Error.External "quote not paid")),
    RequestMint := fun _ => .ok {} }

/-- A clock that stands at one hour after the first sample quote. -/
def sampleClock : Nat → time.Time := fun _ => ⟨1700003600, 0⟩

/-- A payment hash of 32 bytes. -/
def sampleRHash : Bytes := (List.range 32).map fun i => 8 * i + 3

/-- A node that stores every new invoice under `sampleRHash` and answers a lookup with the
invoice of 21000 msat kept under the hash asked for. -/
def invoicingNode : wrapper.LNDWrapper :=
  { rejectingNode with
    AddInvoice := fun _ => .ok sampleRHash,
    LookupInvoice := fun h =>
      .ok { RHash := h, ValueMsat := 21000, CreationDate := 1709640000, Expiry := 3600,
            PaymentRequest := "lnbc210n1sample" } }

/-- A clock that stands at 2024-03-05 12:00:00 UTC. -/
def noonClock : Nat → time.Time := fun _ => ⟨1709640000, 0⟩

/-- A plain rendering of form values, `key=value` joined by `&`, in place of
`url.Values.Encode`. -/
def plainEncode (v : url.Values) : String :=
  String.intercalate "&" (v.map fun e => e.1 ++ "=" ++ e.2)

/-- The remote-HTTP adapter over a service that answers `createinvoice` with the payment hash
`h1` and 21 sat, and reports the unpaid invoice `h1` on lookup. -/
def invoicingPhoenix : phoenixd.PhoenixService :=
  { samplePhoenix with
    remote := { sampleRemote with
      Encode := plainEncode,
      decodeMakeInvoice := fun _ =>
        .ok { AmountSat := 21, PaymentHash := "h1", Serialized := "lnbc210n1sample" },
      decodeInvoice := fun _ =>
        .ok { PaymentHash := "h1", Invoice := "lnbc210n1sample", CreatedAt := 1709640000000 } } }

/-- A wallet that finds, under every payment hash, one unpaid mint quote created at the Unix
second `createdAt`. -/
def agedWallet (createdAt : Int) : wallet.Wallet :=
  { sampleWallet with
    GetInvoiceByPaymentHash := fun _ =>
      some { Id := "q9", QuoteAmount := 21, PaymentRequest := "lnbc1", PaymentHash := "aa",
             CreatedAt := createdAt } }

/-- A stored melt quote of 20 sat whose invoice, by `toyLib`, asks for 21000 msat. -/
def underQuoted : storage.Invoice :=
  { TransactionType := storage.InvoiceType.Melt, Id := "q7", QuoteAmount := 20,
    PaymentRequest := "lnbc1", Paid := true, SettledAt := 1700000400 }

/-- The balances view of 21000 msat that the three sample backends produce. -/
def sampleBalances : lnclient.BalancesResponse :=
  { Lightning :=
      { TotalSpendable := 21000, NextMaxSpendable := 21000, NextMaxSpendableMPP := 21000 } }

/-- A decoder that reads an expiry of 0 seconds out of every text. -/
def zeroExpiryLib : TextLib :=
  { toyLib with
    Decodepay := fun _ =>
      .ok { MSatoshi := 21000, PaymentHash := "aa", CreatedAt := 1700000000, Expiry := 0 } }

/-- A stored mint quote, not settled, that carries a preimage. -/
def openQuoteWithPreimage : storage.Invoice :=
  { Id := "q5", QuoteAmount := 21, PaymentRequest := "lnbc1", PaymentHash := "aa",
    Preimage := "0c", CreatedAt := 1700000000 }

/-- The remote-HTTP adapter over a service that reports an unpaid incoming invoice together
with its preimage, on lookup and in the incoming list. -/
def revealingPhoenix : phoenixd.PhoenixService :=
  { samplePhoenix with
    remote := { sampleRemote with
      decodeInvoice := fun _ =>
        .ok { PaymentHash := "h2", Preimage := "0d", Invoice := "lnbc210n1sample",
              CreatedAt := 1709640000000 },
      decodeIncoming := fun _ =>
        .ok [ { PaymentHash := "h2", Preimage := "0d", Invoice := "lnbc210n1sample",
                CreatedAt := 1709640000000 } ],
      decodeOutgoing := fun _ => .ok [] } }

/-- The remote-HTTP adapter over a service that answers every request with status 500 and the
body of an empty JSON object, which decodes to a `PayResponse` of zero values. -/
def failingPhoenix : phoenixd.PhoenixService :=
  { samplePhoenix with
    remote := { sampleRemote with
      Do := fun _ => .ok { StatusCode := 500, Body := "\x7b\x7d" } } }

/-- The remote-HTTP adapter over a service whose reply bodies do not decode as a payment. -/
def plainTextPhoenix : phoenixd.PhoenixService :=
  { samplePhoenix with
    remote := { sampleRemote with
      Do := fun _ => .ok { StatusCode := 500, Body := "payment failed" },
      decodePay := fun _ => .error (Error.External "json") } }

/-- A wallet that finds, under every payment hash, a quote whose invoice text the decoder
`toyLib` rejects. -/
def garbageWallet : wallet.Wallet :=
  { sampleWallet with
    GetInvoiceByPaymentHash := fun _ =>
      some { Id := "q6", QuoteAmount := 21, PaymentRequest := "garbage", PaymentHash := "bb",
             Paid := true, CreatedAt := 1700000000, SettledAt := 1700000100 },
    GetAllInvoices :=
      [ { Id := "q6", QuoteAmount := 21, PaymentRequest := "garbage", PaymentHash := "bb",
          Paid := true, CreatedAt := 1700000000, SettledAt := 1700000100 },
        { Id := "q1", QuoteAmount := 21, PaymentRequest := "lnbc1", Paid := true,
          CreatedAt := 1700000000, SettledAt := 1700000100 } ] }

/-- A wallet whose melt succeeds and which then finds the melt quote `underQuoted`, 20 sat
quoted for an invoice of 21000 msat. -/
def meltingWallet : wallet.Wallet :=
  { sampleWallet with GetInvoiceByPaymentRequest := fun _ => .ok (some underQuoted) }

/-- A wallet whose melt fails. -/
def brokeWallet : wallet.Wallet :=
  { sampleWallet with Melt := fun _ _ => .error (Error.External "insufficient funds") }

/-- A node whose invoice query fails. -/
def deafNode : wrapper.LNDWrapper :=
  { rejectingNode with ListInvoices := fun _ => .error (Error.External "unavailable") }

/-- The first sample payment. -/
def succeededPayment : lnrpc.Payment :=
  { PaymentHash := "p1", PaymentPreimage := "0a", Status := lnrpc.PaymentStatus.SUCCEEDED,
    ValueMsat := 1000, FeeMsat := 1, CreationTimeNs := 100000000000 }

/-- The normalization of `succeededPayment`. -/
def succeededTransaction : nip47.Transaction :=
  { Type_ := "outgoing", Preimage := "0a", PaymentHash := "p1", Amount := 1000, FeesPaid := 1,
    CreatedAt := 100, SettledAt := some 100 }

/-- The first stored quote of `sampleWallet`, settled. -/
def settledQuote : storage.Invoice :=
  { Id := "q1", QuoteAmount := 21, PaymentRequest := "lnbc1", Paid := true,
    CreatedAt := 1700000000, SettledAt := 1700000100 }

/-- The normalization of `settledQuote` under `toyLib`. -/
def settledQuoteTransaction : nip47.Transaction :=
  { Type_ := "incoming", Invoice := "lnbc1", PaymentHash := "aa", Amount := 21000,
    CreatedAt := 1700000000, ExpiresAt := some 1700003600, SettledAt := some 1700000100 }

/-- The settled sample invoice of the full node. -/
def settledInvoice : lnrpc.Invoice :=
  { RHash := [1], ValueMsat := 21000, CreationDate := 100, SettleDate := 130, Expiry := 3600,
    AmtPaidMsat := 21000, RPreimage := [7], State := lnrpc.InvoiceState.SETTLED }

/-- The incoming sample record of the remote node, completed at millisecond 6000. -/
def completedRecord : phoenixd.InvoiceResponse :=
  { PaymentHash := "i1", ReceivedSat := 21, CreatedAt := 5000, CompletedAt := 6000 }

/-- The remote-HTTP adapter over a service that answers a payment with status 200, the preimage
`0e` and a routing fee of 2 sat. -/
def payingPhoenix : phoenixd.PhoenixService :=
  { samplePhoenix with
    remote := { sampleRemote with
      decodePay := fun _ =>
        .ok { PaymentHash := "h3", PaymentPreimage := "0e", RoutingFeeSat := 2 } } }

/-- A node that answers `AddInvoice` with `sampleRHash` and whose lookup is a function of the
hash, but returns, for every hash, an invoice record of 21000 msat whose `RHash` is empty. -/
def forgetfulNode : wrapper.LNDWrapper :=
  { rejectingNode with
    AddInvoice := fun _ => .ok sampleRHash,
    LookupInvoice := fun _ =>
      .ok { ValueMsat := 21000, CreationDate := 1709640000, Expiry := 3600,
            PaymentRequest := "lnbc210n1sample" } }

theorem insertLeft_perm {α : Type} (less : α → α → Bool) (x : α) (acc : List α) :
    (sort.insertLeft less x acc).Perm (x :: acc) := by
  induction acc with
  | nil => simp [sort.insertLeft]
  | cons y ys ih =>
    simp only [sort.insertLeft]
    split
    · exact ((List.Perm.cons y ih).trans (List.Perm.swap x y ys))
    · exact List.Perm.refl _

theorem foldl_insertLeft_perm {α : Type} (less : α → α → Bool) (xs acc : List α) :
    (xs.foldl (fun acc a => sort.insertLeft less a acc) acc).Perm (xs.reverse ++ acc) := by
  induction xs generalizing acc with
  | nil => simp
  | cons x xs ih =>
    simp only [List.foldl_cons, List.reverse_cons, List.append_assoc, List.singleton_append]
    exact (ih _).trans (List.Perm.append_left _ (insertLeft_perm less x acc))

theorem SliceStable_perm {α : Type} (less : α → α → Bool) (xs : List α) :
    (sort.SliceStable xs less).Perm xs := by
  unfold sort.SliceStable
  refine (List.reverse_perm _).trans ?_
  have h := foldl_insertLeft_perm less xs []
  simp only [List.append_nil] at h
  exact h.trans (List.reverse_perm xs)

theorem insertLeft_ascending (x : nip47.Transaction) (acc : List nip47.Transaction)
    (h : acc.Pairwise fun a b => a.CreatedAt ≤ b.CreatedAt) :
    (sort.insertLeft createdAtLess x acc).Pairwise fun a b => a.CreatedAt ≤ b.CreatedAt := by
  induction acc with
  | nil => simp [sort.insertLeft]
  | cons y ys ih =>
    simp only [sort.insertLeft]
    rw [List.pairwise_cons] at h
    by_cases hlt : createdAtLess x y = true
    · simp only [hlt, if_true]
      rw [List.pairwise_cons]
      refine ⟨?_, ih h.2⟩
      intro b hb
      have hb2 : b ∈ x :: ys := (insertLeft_perm createdAtLess x ys).subset hb
      rcases List.mem_cons.mp hb2 with hbx | hby
      · subst hbx
        simp only [createdAtLess, decide_eq_true_eq] at hlt
        omega
      · exact h.1 b hby
    · simp only [hlt, Bool.false_eq_true, if_false]
      simp only [createdAtLess, decide_eq_true_eq, not_lt] at hlt
      rw [List.pairwise_cons]
      refine ⟨?_, List.pairwise_cons.mpr h⟩
      intro b hb
      rcases List.mem_cons.mp hb with hby | hbys
      · subst hby; exact hlt
      · exact le_trans hlt (h.1 b hbys)

theorem foldl_insertLeft_ascending (xs acc : List nip47.Transaction)
    (h : acc.Pairwise fun a b => a.CreatedAt ≤ b.CreatedAt) :
    (xs.foldl (fun acc a => sort.insertLeft createdAtLess a acc) acc).Pairwise
      fun a b => a.CreatedAt ≤ b.CreatedAt := by
  induction xs generalizing acc with
  | nil => simpa using h
  | cons x xs ih => exact ih _ (insertLeft_ascending x acc h)

theorem SliceStable_sorted (xs : List nip47.Transaction) :
    (sort.SliceStable xs createdAtLess).Pairwise fun a b => a.CreatedAt ≥ b.CreatedAt := by
  unfold sort.SliceStable
  rw [List.pairwise_reverse]
  exact foldl_insertLeft_ascending xs [] List.Pairwise.nil

theorem insertLeft_filter (t : Int) (x : nip47.Transaction) (acc : List nip47.Transaction) :
    (sort.insertLeft createdAtLess x acc).filter (fun a => decide (a.CreatedAt = t)) =
      (x :: acc).filter (fun a => decide (a.CreatedAt = t)) := by
  induction acc with
  | nil => simp [sort.insertLeft]
  | cons y ys ih =>
    simp only [sort.insertLeft]
    by_cases hlt : createdAtLess x y = true
    · simp only [hlt, if_true]
      simp only [createdAtLess, decide_eq_true_eq] at hlt
      rw [List.filter_cons, ih]
      by_cases hx : x.CreatedAt = t
      · have hy : ¬ y.CreatedAt = t := by omega
        simp [List.filter_cons, hx, hy]
      · simp [List.filter_cons, hx]
    · simp only [hlt, Bool.false_eq_true, if_false]

theorem foldl_insertLeft_filter (t : Int) (xs acc : List nip47.Transaction) :
    (xs.foldl (fun acc a => sort.insertLeft createdAtLess a acc) acc).filter
        (fun a => decide (a.CreatedAt = t)) =
      (xs.reverse ++ acc).filter (fun a => decide (a.CreatedAt = t)) := by
  induction xs generalizing acc with
  | nil => simp
  | cons x xs ih =>
    simp only [List.foldl_cons, List.reverse_cons, List.append_assoc, List.singleton_append]
    rw [ih, List.filter_append, List.filter_append, insertLeft_filter]

theorem SliceStable_stable (t : Int) (xs : List nip47.Transaction) :
    (sort.SliceStable xs createdAtLess).filter (fun a => decide (a.CreatedAt = t)) =
      xs.filter (fun a => decide (a.CreatedAt = t)) := by
  unfold sort.SliceStable
  rw [List.filter_reverse, foldl_insertLeft_filter]
  simp [List.filter_reverse]

theorem sorted_stable_unique (r s : List nip47.Transaction)
    (hr : r.Pairwise fun a b => a.CreatedAt ≥ b.CreatedAt)
    (hs : s.Pairwise fun a b => a.CreatedAt ≥ b.CreatedAt)
    (h : ∀ t : Int, r.filter (fun a => decide (a.CreatedAt = t)) =
      s.filter (fun a => decide (a.CreatedAt = t))) : r = s := by
  induction r generalizing s with
  | nil =>
    cases s with
    | nil => rfl
    | cons b s' =>
      have hb := h b.CreatedAt
      simp [List.filter_cons] at hb
  | cons a r' ih =>
    cases s with
    | nil =>
      have ha := h a.CreatedAt
      simp [List.filter_cons] at ha
    | cons b s' =>
      rw [List.pairwise_cons] at hr hs
      have hab : a.CreatedAt = b.CreatedAt := by
        have ha : a ∈ (b :: s').filter (fun x => decide (x.CreatedAt = a.CreatedAt)) := by
          rw [← h a.CreatedAt]; simp [List.filter_cons]
        have hb : b ∈ (a :: r').filter (fun x => decide (x.CreatedAt = b.CreatedAt)) := by
          rw [h b.CreatedAt]; simp [List.filter_cons]
        have ha2 := (List.mem_filter.mp ha).1
        have hb2 := (List.mem_filter.mp hb).1
        have h1 : b.CreatedAt ≥ a.CreatedAt := by
          rcases List.mem_cons.mp ha2 with e | e
          · rw [e]
          · exact hs.1 a e
        have h2 : a.CreatedAt ≥ b.CreatedAt := by
          rcases List.mem_cons.mp hb2 with e | e
          · rw [e]
          · exact hr.1 b e
        omega
      have hhead := h a.CreatedAt
      simp only [List.filter_cons, hab, decide_True, if_true, List.cons.injEq] at hhead
      have htail : ∀ t : Int, r'.filter (fun x => decide (x.CreatedAt = t)) =
          s'.filter (fun x => decide (x.CreatedAt = t)) := by
        intro t
        by_cases ht : b.CreatedAt = t
        · rw [← ht]; exact hhead.2
        · have := h t
          have hta : ¬ a.CreatedAt = t := by rw [hab]; exact ht
          simpa [List.filter_cons, ht, hta] using this
      rw [hhead.1, ih s' hr.2 hs.2 htail]

theorem SliceStable_unique (l r : List nip47.Transaction)
    (hr : r.Pairwise fun a b => a.CreatedAt ≥ b.CreatedAt)
    (h : ∀ t : Int, r.filter (fun a => decide (a.CreatedAt = t)) =
      l.filter (fun a => decide (a.CreatedAt = t))) :
    r = sort.SliceStable l createdAtLess :=
  sorted_stable_unique r _ hr (SliceStable_sorted l)
    (fun t => by rw [h t, SliceStable_stable])

theorem GoMap_get_set_same (m : GoMap) (k : Nat) (v : Bytes) : (m.set k v).get k = some v := by
  simp [GoMap.set, GoMap.get]

theorem find_filter_other (m : GoMap) (k t : Nat) (h : t ≠ k) :
    (m.filter fun e => decide (e.1 ≠ k)).find? (fun e => decide (e.1 = t)) =
      m.find? (fun e => decide (e.1 = t)) := by
  induction m with
  | nil => rfl
  | cons e es ih =>
    rw [List.filter_cons]
    by_cases he : e.1 = k
    · have het : ¬ e.1 = t := by rw [he]; exact fun e => h e.symm
      have hd : decide (e.1 ≠ k) = false := by simp [he]
      have hd2 : decide (e.1 = t) = false := by simp [het]
      rw [hd]
      simp only [Bool.false_eq_true, if_false]
      rw [ih, List.find?_cons, hd2]
    · have hd : decide (e.1 ≠ k) = true := by simp [he]
      rw [hd]
      simp only [if_true]
      rw [List.find?_cons, List.find?_cons, ih]

theorem GoMap_get_set_other (m : GoMap) (k t : Nat) (v : Bytes) (h : t ≠ k) :
    (m.set k v).get t = m.get t := by
  have hk : decide (k = t) = false := by simp; exact fun e => h e.symm
  unfold GoMap.set GoMap.get
  rw [List.find?_cons]
  simp only [hk]
  rw [find_filter_other m k t h]

theorem customRecordsLoop_get (records : List lnclient.TLVRecord) (m : GoMap) (t : Nat) :
    (lnd.customRecordsLoop records m).get t =
      (((records.filter fun r => decide (r.Type_ = t)).getLast?).map
        fun r => stringBytes r.Value).or (m.get t) := by
  induction records generalizing m with
  | nil => simp [lnd.customRecordsLoop]
  | cons r rs ih =>
    simp only [lnd.customRecordsLoop]
    rw [ih, List.filter_cons]
    by_cases hr : r.Type_ = t
    · have hd : decide (r.Type_ = t) = true := by simp [hr]
      rw [hd]
      simp only [if_true]
      rw [List.getLast?_cons]
      cases hrs : (rs.filter fun r => decide (r.Type_ = t)).getLast? with
      | none => simp [hr, GoMap_get_set_same]
      | some a => simp
    · have hd : decide (r.Type_ = t) = false := by simp [hr]
      rw [hd]
      simp only [Bool.false_eq_true, if_false]
      rw [GoMap_get_set_other _ _ _ _ (fun e => hr e.symm)]

theorem SendKeysend_calls (svc : lnd.LNDService) (crypto : Crypto) (amount : Int)
    (destination preimage : String) (custom_records : List lnclient.TLVRecord)
    (c : wrapper.Call)
    (h : c ∈ (lnd.SendKeysend svc crypto amount destination preimage custom_records).calls) :
    (hex.DecodeString destination).2 = none ∧
    (lnd.keysendPreimage crypto preimage).2 = none ∧
    (lnd.keysendPreimage crypto preimage).1.length = 32 ∧
    c = wrapper.Call.SendPaymentSync
      (lnd.keysendRequest crypto amount (hex.DecodeString destination).1
        (lnd.keysendPreimage crypto preimage).1 custom_records) ∧
    (lnd.SendKeysend svc crypto amount destination preimage custom_records).ret =
      lnd.keysendOutcome (svc.client.SendPaymentSync
        (lnd.keysendRequest crypto amount (hex.DecodeString destination).1
          (lnd.keysendPreimage crypto preimage).1 custom_records)) := by
  unfold lnd.SendKeysend at h ⊢
  cases hd : (hex.DecodeString destination).2 with
  | some e => simp [hd] at h
  | none =>
    simp only [hd] at h ⊢
    by_cases hbad : (lnd.keysendPreimage crypto preimage).2 ≠ none ∨
        (lnd.keysendPreimage crypto preimage).1.length ≠ 32
    · simp [hbad] at h
    · rw [if_neg hbad] at h ⊢
      have hperr : (lnd.keysendPreimage crypto preimage).2 = none := by
        by_contra hne; exact hbad (Or.inl hne)
      have hlen : (lnd.keysendPreimage crypto preimage).1.length = 32 := by
        by_contra hne; exact hbad (Or.inr hne)
      simp only [List.mem_singleton] at h
      exact ⟨trivial, hperr, hlen, h, rfl⟩

theorem SendKeysend_no_call (svc : lnd.LNDService) (crypto : Crypto) (amount : Int)
    (destination preimage : String) (custom_records : List lnclient.TLVRecord)
    (h : (lnd.SendKeysend svc crypto amount destination preimage custom_records).calls = []) :
    (lnd.SendKeysend svc crypto amount destination preimage custom_records).ret.1 = "" := by
  unfold lnd.SendKeysend at h ⊢
  cases hd : (hex.DecodeString destination).2 with
  | some e => simp [hd]
  | none =>
    simp only [hd] at h ⊢
    by_cases hbad : (lnd.keysendPreimage crypto preimage).2 ≠ none ∨
        (lnd.keysendPreimage crypto preimage).1.length ≠ 32
    · simp [hbad]
    · rw [if_neg hbad] at h; simp at h

theorem SendKeysend_single_call (svc : lnd.LNDService) (crypto : Crypto) (amount : Int)
    (destination preimage : String) (custom_records : List lnclient.TLVRecord)
    (c : wrapper.Call)
    (h : c ∈ (lnd.SendKeysend svc crypto amount destination preimage custom_records).calls) :
    (lnd.SendKeysend svc crypto amount destination preimage custom_records).calls = [c] := by
  unfold lnd.SendKeysend at h ⊢
  cases hd : (hex.DecodeString destination).2 with
  | some e => simp [hd] at h
  | none =>
    simp only [hd] at h ⊢
    by_cases hbad : (lnd.keysendPreimage crypto preimage).2 ≠ none ∨
        (lnd.keysendPreimage crypto preimage).1.length ≠ 32
    · simp [hbad] at h
    · rw [if_neg hbad] at h ⊢
      simp only [List.mem_singleton] at h
      rw [h]

theorem hextable_getD_mem (i : Nat) (h : i < 16) : hex.hextable.getD i '0' ∈ hex.hextable := by
  have hl : hex.hextable.length = 16 := by decide
  rw [List.getD_eq_getElem hex.hextable '0' (by omega)]
  exact List.getElem_mem _

theorem EncodeToString_lowercase (src : Bytes) :
    ∀ c ∈ (hex.EncodeToString src).data, c ∈ hex.hextable := by
  intro c hc
  simp only [hex.EncodeToString, List.mem_flatMap] at hc
  obtain ⟨v, _, hv⟩ := hc
  simp only [List.mem_cons, List.mem_singleton, List.not_mem_nil, or_false] at hv
  rcases hv with h | h
  · rw [h]; exact hextable_getD_mem _ (Nat.mod_lt _ (by decide))
  · rw [h]; exact hextable_getD_mem _ (Nat.mod_lt _ (by decide))

theorem EncodeToString_eq_empty (src : Bytes) (h : hex.EncodeToString src = "") : src = [] := by
  cases src with
  | nil => rfl
  | cons v vs =>
    have hd := congrArg String.data h
    simp [hex.EncodeToString] at hd

/-! ## Lemmas on the adapters -/

theorem invoicesLoop_eq (unpaid : Bool) (invoices : List lnrpc.Invoice)
    (acc : List nip47.Transaction) :
    lnd.invoicesLoop unpaid invoices acc =
      acc ++ (invoices.filter fun i =>
        unpaid || decide (i.State = lnrpc.InvoiceState.SETTLED)).map
          lnd.lndInvoiceToTransaction := by
  induction invoices generalizing acc with
  | nil => simp [lnd.invoicesLoop]
  | cons i is ih =>
    simp only [lnd.invoicesLoop]
    cases unpaid <;> by_cases hs : i.State = lnrpc.InvoiceState.SETTLED <;>
      simp [hs, ih, List.filter_cons]

theorem paymentsLoop_ok (lib : TextLib) (payments : List lnrpc.Payment)
    (acc txs : List nip47.Transaction) (h : lnd.paymentsLoop lib payments acc = .ok txs) :
    ∃ outs, txs = acc ++ outs ∧
      List.Forall₂ (fun p tx => lnd.paymentToTransaction lib p = .ok tx)
        (payments.filter fun p => decide (p.Status ≠ lnrpc.PaymentStatus.FAILED)) outs := by
  induction payments generalizing acc with
  | nil =>
    simp only [lnd.paymentsLoop, Except.ok.injEq] at h
    exact ⟨[], by simp [h], by simp⟩
  | cons p ps ih =>
    simp only [lnd.paymentsLoop] at h
    by_cases hf : p.Status = lnrpc.PaymentStatus.FAILED
    · rw [if_pos hf] at h
      obtain ⟨outs, h1, h2⟩ := ih acc h
      exact ⟨outs, h1, by simpa [List.filter_cons, hf] using h2⟩
    · rw [if_neg hf] at h
      cases hp : lnd.paymentToTransaction lib p with
      | error e => simp [hp] at h
      | ok tx =>
        simp only [hp] at h
        obtain ⟨outs, h1, h2⟩ := ih _ h
        refine ⟨tx :: outs, by simp [h1], ?_⟩
        simp only [List.filter_cons, hf, ne_eq, not_false_eq_true, decide_True, if_true]
        exact List.Forall₂.cons hp h2

theorem lnd_ListTransactions_ok (svc : lnd.LNDService) (lib : TextLib)
    (from_ until_ limit offset : Nat) (unpaid : Bool) (invoiceType : String)
    (txs : List nip47.Transaction)
    (h : (lnd.ListTransactions svc lib from_ until_ limit offset unpaid invoiceType).ret
      = (txs, none)) :
    ∃ invoices payments outs,
      (lnd.incomingLeg svc limit offset invoiceType).ret = .ok invoices ∧
      (lnd.outgoingLeg svc limit offset unpaid invoiceType).ret = .ok payments ∧
      List.Forall₂ (fun p tx => lnd.paymentToTransaction lib p = .ok tx)
        (payments.filter fun p => decide (p.Status ≠ lnrpc.PaymentStatus.FAILED)) outs ∧
      txs = sort.SliceStable
        ((invoices.filter fun i =>
            unpaid || decide (i.State = lnrpc.InvoiceState.SETTLED)).map
            lnd.lndInvoiceToTransaction ++ outs) createdAtLess := by
  unfold lnd.ListTransactions at h
  cases hin : (lnd.incomingLeg svc limit offset invoiceType).ret with
  | error e => simp [hin] at h
  | ok invoices =>
    simp only [hin] at h
    cases hout : (lnd.outgoingLeg svc limit offset unpaid invoiceType).ret with
    | error e => simp [hout] at h
    | ok payments =>
      simp only [hout] at h
      cases hloop : lnd.paymentsLoop lib payments (lnd.invoicesLoop unpaid invoices []) with
      | error e => simp [hloop] at h
      | ok all =>
        simp only [hloop, Prod.mk.injEq, and_true] at h
        obtain ⟨outs, h1, h2⟩ := paymentsLoop_ok lib payments _ all hloop
        rw [invoicesLoop_eq, List.nil_append] at h1
        exact ⟨invoices, payments, outs, rfl, rfl, h2, by rw [← h, h1]⟩

theorem incomingLoop_eq (l : List phoenixd.InvoiceResponse) (acc : List nip47.Transaction) :
    phoenixd.incomingLoop l acc = acc ++ l.map phoenixd.incomingToTransaction := by
  induction l generalizing acc with
  | nil => simp [phoenixd.incomingLoop]
  | cons x xs ih => simp [phoenixd.incomingLoop, ih]

theorem outgoingLoop_eq (l : List phoenixd.OutgoingPaymentResponse)
    (acc : List nip47.Transaction) :
    phoenixd.outgoingLoop l acc = acc ++ l.map phoenixd.outgoingToTransaction := by
  induction l generalizing acc with
  | nil => simp [phoenixd.outgoingLoop]
  | cons x xs ih => simp [phoenixd.outgoingLoop, ih]

theorem phoenixd_ListTransactions_ok (svc : phoenixd.PhoenixService)
    (from_ until_ limit offset : Nat) (unpaid : Bool) (invoiceType : String)
    (txs : List nip47.Transaction)
    (h : (phoenixd.ListTransactions svc from_ until_ limit offset unpaid invoiceType).ret
      = (txs, none)) :
    ∃ incomingPayments outgoingPayments,
      (phoenixd.incomingLeg svc from_ until_ limit offset unpaid).ret = .ok incomingPayments ∧
      (phoenixd.outgoingLeg svc from_ until_ limit offset unpaid).ret = .ok outgoingPayments ∧
      txs = sort.SliceStable
        (incomingPayments.map phoenixd.incomingToTransaction ++
          outgoingPayments.map phoenixd.outgoingToTransaction) createdAtLess := by
  unfold phoenixd.ListTransactions at h
  cases h1 : (phoenixd.incomingLeg svc from_ until_ limit offset unpaid).ret with
  | error e => simp [h1] at h
  | ok incomingPayments =>
    simp only [h1] at h
    cases h2 : (phoenixd.outgoingLeg svc from_ until_ limit offset unpaid).ret with
    | error e => simp [h2] at h
    | ok outgoingPayments =>
      simp only [h2, Prod.mk.injEq, and_true] at h
      rw [outgoingLoop_eq, incomingLoop_eq, List.nil_append] at h
      exact ⟨incomingPayments, outgoingPayments, rfl, rfl, h.symm⟩

theorem paymentToTransaction_type (lib : TextLib) (p : lnrpc.Payment) (tx : nip47.Transaction)
    (h : lnd.paymentToTransaction lib p = .ok tx) : tx.Type_ = "outgoing" := by
  unfold lnd.paymentToTransaction at h
  by_cases hreq : p.PaymentRequest ≠ ""
  · rw [if_pos hreq] at h
    cases hd : lib.Decodepay (lib.ToLower p.PaymentRequest) with
    | error e => simp [hd] at h
    | ok b =>
      simp only [hd, Except.ok.injEq] at h
      rw [← h]
  · rw [if_neg hreq] at h
    simp only [Except.ok.injEq] at h
    rw [← h]

theorem sorted_get_of_pairwise (l : List nip47.Transaction)
    (h : l.Pairwise fun a b => a.CreatedAt ≥ b.CreatedAt) :
    ∀ i j : Fin l.length, i < j → (l.get i).CreatedAt ≥ (l.get j).CreatedAt := by
  intro i j hij
  exact List.pairwise_iff_get.mp h i j hij

theorem paymentToTransaction_total (lib : TextLib) (p : lnrpc.Payment)
    (h : p.PaymentRequest = "" ∨ ∃ b, lib.Decodepay (lib.ToLower p.PaymentRequest) = .ok b) :
    ∃ tx, lnd.paymentToTransaction lib p = .ok tx := by
  unfold lnd.paymentToTransaction
  by_cases hreq : p.PaymentRequest ≠ ""
  · rcases h with h | ⟨b, hb⟩
    · exact absurd h hreq
    · rw [if_pos hreq, hb]
      exact ⟨_, rfl⟩
  · rw [if_neg hreq]
    exact ⟨_, rfl⟩

theorem paymentsLoop_total (lib : TextLib) (payments : List lnrpc.Payment)
    (acc : List nip47.Transaction)
    (h : ∀ p ∈ payments, p.Status ≠ lnrpc.PaymentStatus.FAILED →
      p.PaymentRequest = "" ∨ ∃ b, lib.Decodepay (lib.ToLower p.PaymentRequest) = .ok b) :
    ∃ txs, lnd.paymentsLoop lib payments acc = .ok txs := by
  induction payments generalizing acc with
  | nil => exact ⟨acc, rfl⟩
  | cons p ps ih =>
    have hps : ∀ q ∈ ps, q.Status ≠ lnrpc.PaymentStatus.FAILED →
        q.PaymentRequest = "" ∨ ∃ b, lib.Decodepay (lib.ToLower q.PaymentRequest) = .ok b :=
      fun q hq => h q (List.mem_cons_of_mem _ hq)
    simp only [lnd.paymentsLoop]
    by_cases hf : p.Status = lnrpc.PaymentStatus.FAILED
    · rw [if_pos hf]
      exact ih acc hps
    · rw [if_neg hf]
      obtain ⟨tx, htx⟩ := paymentToTransaction_total lib p (h p (List.mem_cons_self _ _) hf)
      rw [htx]
      exact ih _ hps

theorem lnd_ListTransactions_total (svc : lnd.LNDService) (lib : TextLib)
    (from_ until_ limit offset : Nat) (unpaid : Bool) (invoiceType : String)
    (invoices : List lnrpc.Invoice) (payments : List lnrpc.Payment)
    (hin : (lnd.incomingLeg svc limit offset invoiceType).ret = .ok invoices)
    (hout : (lnd.outgoingLeg svc limit offset unpaid invoiceType).ret = .ok payments)
    (hdec : ∀ p ∈ payments, p.Status ≠ lnrpc.PaymentStatus.FAILED →
      p.PaymentRequest = "" ∨ ∃ b, lib.Decodepay (lib.ToLower p.PaymentRequest) = .ok b) :
    ∃ txs, (lnd.ListTransactions svc lib from_ until_ limit offset unpaid invoiceType).ret
      = (txs, none) := by
  obtain ⟨all, hall⟩ := paymentsLoop_total lib payments (lnd.invoicesLoop unpaid invoices []) hdec
  unfold lnd.ListTransactions
  simp only [hin, hout, hall]
  exact ⟨_, rfl⟩

theorem filter_outgoing_of_legs (lib : TextLib) (ins : List lnrpc.Invoice)
    (kept : List lnrpc.Payment) (outs : List nip47.Transaction)
    (h : List.Forall₂ (fun p tx => lnd.paymentToTransaction lib p = .ok tx) kept outs) :
    (ins.map lnd.lndInvoiceToTransaction ++ outs).filter
      (fun t => decide (t.Type_ = "outgoing")) = outs := by
  rw [List.filter_append]
  have h1 : (ins.map lnd.lndInvoiceToTransaction).filter
      (fun t => decide (t.Type_ = "outgoing")) = [] := by
    rw [List.filter_eq_nil_iff]
    intro t ht
    obtain ⟨i, _, hi⟩ := List.mem_map.mp ht
    rw [← hi]
    simp [lnd.lndInvoiceToTransaction]
  have h2 : outs.filter (fun t => decide (t.Type_ = "outgoing")) = outs := by
    rw [List.filter_eq_self]
    intro t ht
    have : ∃ p, lnd.paymentToTransaction lib p = .ok t := by
      clear h1
      induction h with
      | nil => simp at ht
      | cons hab _ ih =>
        rcases List.mem_cons.mp ht with e | e
        · exact ⟨_, e ▸ hab⟩
        · exact ih e
    obtain ⟨p, hp⟩ := this
    simp [paymentToTransaction_type lib p t hp]
  rw [h1, h2, List.nil_append]

/-! ## Lemmas on integers and hex text -/

theorem wrapInt64_of_range (x : Int) (hlo : -(2 ^ 63) ≤ x) (hhi : x < 2 ^ 63) :
    wrapInt64 x = x := by
  unfold wrapInt64
  norm_num at hlo hhi ⊢
  omega

theorem fromHexChar_hextable (i : Nat) (h : i < 16) :
    hex.fromHexChar (hex.hextable.getD i '0') = some i := by
  interval_cases i <;> decide

theorem Decode_encode (src : Bytes) (h : ∀ v ∈ src, v < 256) :
    hex.Decode (src.flatMap fun v =>
      [hex.hextable.getD (v / 16 % 16) '0', hex.hextable.getD (v % 16) '0']) = (src, none) := by
  induction src with
  | nil => rfl
  | cons v vs ih =>
    have hv : v < 256 := h v (List.mem_cons_self _ _)
    have hvs : ∀ w ∈ vs, w < 256 := fun w hw => h w (List.mem_cons_of_mem _ hw)
    have hrec := ih hvs
    have hsum : v / 16 % 16 * 16 + v % 16 = v := by omega
    rw [List.flatMap_cons]
    show hex.Decode (hex.hextable.getD (v / 16 % 16) '0' :: hex.hextable.getD (v % 16) '0' ::
      vs.flatMap fun v =>
        [hex.hextable.getD (v / 16 % 16) '0', hex.hextable.getD (v % 16) '0']) = (v :: vs, none)
    rw [hex.Decode, fromHexChar_hextable _ (Nat.mod_lt _ (by decide)),
      fromHexChar_hextable _ (Nat.mod_lt _ (by decide))]
    simp only [hrec, hsum]

theorem DecodeString_EncodeToString (src : Bytes) (h : ∀ v ∈ src, v < 256) :
    hex.DecodeString (hex.EncodeToString src) = (src, none) := by
  unfold hex.DecodeString hex.EncodeToString
  exact Decode_encode src h

/-! ## Lemmas on time, wrap-around and the remaining loops -/

theorem tdiv_tmod_spec (c b : Int) (hb : 0 < b) :
    c = b * Int.tdiv c b + Int.tmod c b ∧ -b < Int.tmod c b ∧ Int.tmod c b < b ∧
      (0 ≤ c → 0 ≤ Int.tmod c b) ∧ (c < 0 → Int.tmod c b ≤ 0) := by
  have hsum := Int.tmod_add_tdiv c b
  have hlt := Int.tmod_lt_of_pos c hb
  by_cases hc : 0 ≤ c
  · have hnn := Int.tmod_nonneg b hc
    refine ⟨by omega, by omega, hlt, fun _ => hnn, fun h => by omega⟩
  · have hk : 0 ≤ -c := by omega
    have hq : Int.tdiv c b = -Int.tdiv (-c) b := by
      rw [Int.neg_tdiv]; simp
    have hsum2 := Int.tmod_add_tdiv (-c) b
    have hnn2 := Int.tmod_nonneg b hk
    have hlt2 := Int.tmod_lt_of_pos (-c) hb
    have hr : Int.tmod c b = -Int.tmod (-c) b := by
      have e1 : Int.tmod c b = c - b * Int.tdiv c b := by omega
      have e2 : Int.tmod (-c) b = -c - b * Int.tdiv (-c) b := by omega
      rw [e1, e2, hq]
      ring
    refine ⟨by omega, by omega, hlt, fun h => absurd h hc, fun _ => by omega⟩

theorem UnixMilli_Unix (c : Int) : (time.UnixMilli c).Unix = c / 1000 := by
  obtain ⟨h1, h2, h3, h4, h5⟩ := tdiv_tmod_spec c 1000 (by decide)
  obtain ⟨g1, g2, g3, g4, g5⟩ :=
    tdiv_tmod_spec (Int.tmod c 1000 * 1000000) 1000000000 (by decide)
  have hq0 : Int.tdiv (Int.tmod c 1000 * 1000000) 1000000000 = 0 := by omega
  unfold time.UnixMilli time.Unix time.Time.Unix
  by_cases hneg : Int.tmod c 1000 * 1000000 < 0 ∨ Int.tmod c 1000 * 1000000 ≥ 1000000000
  · rw [if_pos hneg]
    simp only [hq0]
    have hn : Int.tmod c 1000 * 1000000 < 0 := by omega
    have hn2 : Int.tmod c 1000 * 1000000 - 0 * 1000000000 < 0 := by omega
    rw [if_pos hn2]
    show Int.tdiv c 1000 + 0 - 1 = c / 1000
    omega
  · rw [if_neg hneg]
    show Int.tdiv c 1000 = c / 1000
    omega

theorem wrapInt64_range (x : Int) : -(2 ^ 63) ≤ wrapInt64 x ∧ wrapInt64 x < 2 ^ 63 := by
  unfold wrapInt64
  norm_num
  omega

theorem wrapUint64_cast (x : Int) : ((wrapUint64 x : Nat) : Int) = x % 2 ^ 64 := by
  unfold wrapUint64
  apply Int.toNat_of_nonneg
  apply Int.emod_nonneg
  norm_num

theorem lnd_ListTransactions_error_nil (svc : lnd.LNDService) (lib : TextLib)
    (from_ until_ limit offset : Nat) (unpaid : Bool) (invoiceType : String)
    (h : (lnd.ListTransactions svc lib from_ until_ limit offset unpaid invoiceType).ret.2
      ≠ none) :
    (lnd.ListTransactions svc lib from_ until_ limit offset unpaid invoiceType).ret.1 = [] := by
  unfold lnd.ListTransactions at h ⊢
  dsimp only at h ⊢
  cases h1 : (lnd.incomingLeg svc limit offset invoiceType).ret with
  | error e => rfl
  | ok invoices =>
    simp only [h1] at h ⊢
    cases h2 : (lnd.outgoingLeg svc limit offset unpaid invoiceType).ret with
    | error e => rfl
    | ok payments =>
      simp only [h2] at h ⊢
      cases h3 : lnd.paymentsLoop lib payments (lnd.invoicesLoop unpaid invoices []) with
      | error e => rfl
      | ok all => simp [h3] at h

theorem lnd_ListTransactions_calls (svc : lnd.LNDService) (lib : TextLib)
    (from_ until_ limit offset : Nat) (unpaid : Bool) (invoiceType : String) :
    (lnd.ListTransactions svc lib from_ until_ limit offset unpaid invoiceType).calls =
      match (lnd.incomingLeg svc limit offset invoiceType).ret with
      | .error _ => (lnd.incomingLeg svc limit offset invoiceType).calls
      | .ok _ => (lnd.incomingLeg svc limit offset invoiceType).calls ++
          (lnd.outgoingLeg svc limit offset unpaid invoiceType).calls := by
  unfold lnd.ListTransactions
  dsimp only
  cases h1 : (lnd.incomingLeg svc limit offset invoiceType).ret with
  | error e => rfl
  | ok invoices =>
    simp only [h1]
    cases h2 : (lnd.outgoingLeg svc limit offset unpaid invoiceType).ret with
    | error e => rfl
    | ok payments =>
      simp only [h2]
      cases h3 : lnd.paymentsLoop lib payments (lnd.invoicesLoop unpaid invoices []) <;> rfl

theorem cashu_listLoop_transactions (cs : cashu.CashuService) (lib : TextLib)
    (clock : Nat → time.Time) (invoices : List storage.Invoice) (k : Nat)
    (acc : List nip47.Transaction) (calls : List wallet.Call) :
    (cashu.listLoop cs lib clock invoices k acc calls).1 =
      acc ++ (invoices.filterMap fun inv => (cashu.cashuInvoiceToTransaction lib inv).1).filter
        (fun tx => decide (tx.SettledAt ≠ none)) := by
  induction invoices generalizing k acc calls with
  | nil => simp [cashu.listLoop]
  | cons inv rest ih =>
    unfold cashu.listLoop
    dsimp only
    cases hd : lib.Decodepay inv.PaymentRequest with
    | error e =>
      have hc : cashu.cashuInvoiceToTransaction lib inv = (none, some e) := by
        simp [cashu.cashuInvoiceToTransaction, hd]
      simp only [hc, ih, List.filterMap_cons]
    | ok b =>
      obtain ⟨tx, htx⟩ : ∃ tx, cashu.cashuInvoiceToTransaction lib inv = (some tx, none) := by
        simp [cashu.cashuInvoiceToTransaction, hd]
      simp only [htx, List.filterMap_cons]
      by_cases hs : tx.SettledAt = none
      · rw [if_pos hs, ih]
        simp [List.filter_cons, hs]
      · rw [if_neg hs, ih]
        simp [List.filter_cons, hs]

theorem Forall₂_mem_right {α β : Type} {R : α → β → Prop} {l₁ : List α} {l₂ : List β}
    (h : List.Forall₂ R l₁ l₂) {b : β} (hb : b ∈ l₂) : ∃ a ∈ l₁, R a b := by
  induction h with
  | nil => simp at hb
  | cons hab _ ih =>
    rcases List.mem_cons.mp hb with e | e
    · exact ⟨_, List.mem_cons_self _ _, e ▸ hab⟩
    · obtain ⟨a, ha, hr⟩ := ih e
      exact ⟨a, List.mem_cons_of_mem _ ha, hr⟩

theorem lnd_ListTransactions_mem (svc : lnd.LNDService) (lib : TextLib)
    (from_ until_ limit offset : Nat) (unpaid : Bool) (invoiceType : String)
    (tx : nip47.Transaction)
    (h : tx ∈ (lnd.ListTransactions svc lib from_ until_ limit offset unpaid
      invoiceType).ret.1) :
    (∃ invoices i, (lnd.incomingLeg svc limit offset invoiceType).ret = .ok invoices ∧
      i ∈ invoices ∧ tx = lnd.lndInvoiceToTransaction i) ∨
    (∃ payments p, (lnd.outgoingLeg svc limit offset unpaid invoiceType).ret = .ok payments ∧
      p ∈ payments ∧ lnd.paymentToTransaction lib p = .ok tx) := by
  cases he : (lnd.ListTransactions svc lib from_ until_ limit offset unpaid
      invoiceType).ret.2 with
  | some e =>
    have hnil := lnd_ListTransactions_error_nil svc lib from_ until_ limit offset unpaid
      invoiceType (by rw [he]; simp)
    rw [hnil] at h
    simp at h
  | none =>
    have hret : (lnd.ListTransactions svc lib from_ until_ limit offset unpaid
        invoiceType).ret = ((lnd.ListTransactions svc lib from_ until_ limit offset unpaid
        invoiceType).ret.1, none) := by
      rw [← he]
    obtain ⟨invoices, payments, outs, h1, h2, h3, htxs⟩ :=
      lnd_ListTransactions_ok _ _ _ _ _ _ _ _ _ hret
    rw [htxs] at h
    have hmem := (SliceStable_perm createdAtLess _).subset h
    rcases List.mem_append.mp hmem with hin | hout
    · obtain ⟨i, hi, hitx⟩ := List.mem_map.mp hin
      exact Or.inl ⟨invoices, i, h1, (List.mem_filter.mp hi).1, hitx.symm⟩
    · obtain ⟨p, hp, hptx⟩ := Forall₂_mem_right h3 hout
      exact Or.inr ⟨payments, p, h2, (List.mem_filter.mp hp).1, hptx⟩

/-! ## Keysend and payments on the full node -/

/-- C1, the defect at a concrete input: for the valid hex destination `sampleDestination` and
the well-formed hex preimage `preimage31`, which decodes without fault to 31 bytes,
`SendKeysend` issues no backend call, yet it returns the empty string together with a nil
error, where a non-nil error is required. -/
theorem SendKeysend_preimage31_nil_error (svc : lnd.LNDService) (crypto : Crypto)
    (amount : Int) (custom_records : List lnclient.TLVRecord) :
    (hex.DecodeString sampleDestination).2 = none ∧
    (hex.DecodeString preimage31).2 = none ∧
    (hex.DecodeString preimage31).1.length = 31 ∧
    lnd.SendKeysend svc crypto amount sampleDestination preimage31 custom_records
      = ⟨("", none), []⟩ := by
  have hd : (hex.DecodeString sampleDestination).2 = none := by decide
  have hp2 : (hex.DecodeString preimage31).2 = none := by decide
  have hp1 : (hex.DecodeString preimage31).1.length = 31 := by decide
  have hne : preimage31 ≠ "" := by decide
  refine ⟨hd, hp2, hp1, ?_⟩
  unfold lnd.SendKeysend
  simp only [hd, lnd.keysendPreimage, if_neg hne, hp2, hp1]
  simp

/-- C2, the defect at a concrete input: the node `rejectingNode` answers the payment of an
invoice without transport fault but with the payment error `no_route`, and `SendPaymentSync`
returns a `PayInvoiceResponse` with an empty preimage together with a nil error. -/
theorem SendPaymentSync_ignores_payment_error :
    rejectingNode.SendPaymentSync { PaymentRequest := "lnbc210n1sample" }
      = .ok { PaymentError := "no_route" } ∧
    (lnd.SendPaymentSync ⟨rejectingNode⟩ "lnbc210n1sample").ret
      = (some { Preimage := "" }, none) := by
  constructor
  · rfl
  · decide

/-! ## Balances -/

/-- C3: on each adapter, when `GetBalance` succeeds with value `b` then `GetBalances` succeeds
and its `Lightning.TotalSpendable` is `b`; when `GetBalance` fails with `err` then `GetBalances`
returns no balances and the same `err`. On the ecash adapter `GetBalance` cannot fail. -/
theorem GetBalances_total_spendable (lndSvc : lnd.LNDService) (phx : phoenixd.PhoenixService)
    (cs : cashu.CashuService) :
    (∀ b, (lnd.GetBalance lndSvc).ret = (b, none) →
      ∃ r, (lnd.GetBalances lndSvc).ret = (some r, none) ∧ r.Lightning.TotalSpendable = b) ∧
    (∀ err, (lnd.GetBalance lndSvc).ret.2 = some err →
      (lnd.GetBalances lndSvc).ret = (none, some err)) ∧
    (∀ b, (phoenixd.GetBalance phx).ret = (b, none) →
      ∃ r, (phoenixd.GetBalances phx).ret = (some r, none) ∧ r.Lightning.TotalSpendable = b) ∧
    (∀ err, (phoenixd.GetBalance phx).ret.2 = some err →
      (phoenixd.GetBalances phx).ret = (none, some err)) ∧
    (∀ b, (cashu.GetBalance cs).ret = (b, none) →
      ∃ r, (cashu.GetBalances cs).ret = (some r, none) ∧ r.Lightning.TotalSpendable = b) ∧
    (cashu.GetBalance cs).ret.2 = none := by
  refine ⟨?_, ?_, ?_, ?_, ?_, rfl⟩
  · intro b h
    have h2 : (lnd.GetBalance lndSvc).ret.2 = none := by rw [h]
    have h1 : (lnd.GetBalance lndSvc).ret.1 = b := by rw [h]
    simp only [lnd.GetBalances, h2, h1]
    exact ⟨_, rfl, rfl⟩
  · intro err h
    simp only [lnd.GetBalances, h]
  · intro b h
    have h2 : (phoenixd.GetBalance phx).ret.2 = none := by rw [h]
    have h1 : (phoenixd.GetBalance phx).ret.1 = b := by rw [h]
    simp only [phoenixd.GetBalances, h2, h1]
    exact ⟨_, rfl, rfl⟩
  · intro err h
    simp only [phoenixd.GetBalances, h]
  · intro b h
    have h2 : (cashu.GetBalance cs).ret.2 = none := by rw [h]
    have h1 : (cashu.GetBalance cs).ret.1 = b := by rw [h]
    simp only [cashu.GetBalances, h2, h1]
    exact ⟨_, rfl, rfl⟩

/-- C3 on the samples: 21000 msat on each adapter, and the transport faults of the full node
and of the remote node handed on. -/
theorem GetBalances_total_spendable_witness :
    (∃ r, (lnd.GetBalances ⟨rejectingNode⟩).ret = (some r, none) ∧
      r.Lightning.TotalSpendable = 21000) ∧
    (lnd.GetBalances ⟨offlineNode⟩).ret = (none, some (Error.External "unavailable")) ∧
    (∃ r, (phoenixd.GetBalances samplePhoenix).ret = (some r, none) ∧
      r.Lightning.TotalSpendable = 21000) ∧
    (phoenixd.GetBalances offlinePhoenix).ret = (none, some (Error.External "refused")) ∧
    (∃ r, (cashu.GetBalances ⟨sampleWallet⟩).ret = (some r, none) ∧
      r.Lightning.TotalSpendable = 21000) :=
  ⟨(GetBalances_total_spendable ⟨rejectingNode⟩ samplePhoenix ⟨sampleWallet⟩).1 21000
      (by decide),
    (GetBalances_total_spendable ⟨offlineNode⟩ samplePhoenix ⟨sampleWallet⟩).2.1
      (Error.External "unavailable") (by decide),
    (GetBalances_total_spendable ⟨rejectingNode⟩ samplePhoenix ⟨sampleWallet⟩).2.2.1 21000
      (by decide),
    (GetBalances_total_spendable ⟨rejectingNode⟩ offlinePhoenix ⟨sampleWallet⟩).2.2.2.1
      (Error.External "refused") (by decide),
    (GetBalances_total_spendable ⟨rejectingNode⟩ samplePhoenix ⟨sampleWallet⟩).2.2.2.2.1 21000
      (by decide)⟩

/-! ## Listing transactions -/

/-- C4: on each adapter, the list returned by a successful `ListTransactions` call is sorted by
`CreatedAt` in non-increasing order: at positions `i < j` the entry at `i` is not older than
the entry at `j`. -/
theorem ListTransactions_sorted_descending (lndSvc : lnd.LNDService)
    (phx : phoenixd.PhoenixService) (cs : cashu.CashuService) (lib : TextLib)
    (clock : Nat → time.Time) (from_ until_ limit offset : Nat) (unpaid : Bool)
    (invoiceType : String) (txs : List nip47.Transaction) :
    ((lnd.ListTransactions lndSvc lib from_ until_ limit offset unpaid invoiceType).ret
        = (txs, none) →
      ∀ i j : Fin txs.length, i < j → (txs.get i).CreatedAt ≥ (txs.get j).CreatedAt) ∧
    ((phoenixd.ListTransactions phx from_ until_ limit offset unpaid invoiceType).ret
        = (txs, none) →
      ∀ i j : Fin txs.length, i < j → (txs.get i).CreatedAt ≥ (txs.get j).CreatedAt) ∧
    ((cashu.ListTransactions cs lib clock from_ until_ limit offset unpaid invoiceType).ret
        = (txs, none) →
      ∀ i j : Fin txs.length, i < j → (txs.get i).CreatedAt ≥ (txs.get j).CreatedAt) := by
  refine ⟨?_, ?_, ?_⟩
  · intro h
    obtain ⟨_, _, _, _, _, _, htxs⟩ := lnd_ListTransactions_ok _ _ _ _ _ _ _ _ _ h
    rw [htxs]
    exact sorted_get_of_pairwise _ (SliceStable_sorted _)
  · intro h
    obtain ⟨_, _, _, _, htxs⟩ := phoenixd_ListTransactions_ok _ _ _ _ _ _ _ _ h
    rw [htxs]
    exact sorted_get_of_pairwise _ (SliceStable_sorted _)
  · intro h
    simp only [cashu.ListTransactions, Prod.mk.injEq, and_true] at h
    rw [← h]
    exact sorted_get_of_pairwise _ (SliceStable_sorted _)

/-- C4 on the samples: in the four transactions of the full node the first is not older than
the last, and likewise in the lists of the remote node and of the wallet. -/
theorem ListTransactions_sorted_descending_witness :
    ((lnd.ListTransactions ⟨rejectingNode⟩ toyLib 0 0 10 0 true "").ret.1.map
        fun t => t.CreatedAt) = [400, 300, 100, 100] ∧
    (∀ i j : Fin (lnd.ListTransactions ⟨rejectingNode⟩ toyLib 0 0 10 0 true "").ret.1.length,
      i < j →
      ((lnd.ListTransactions ⟨rejectingNode⟩ toyLib 0 0 10 0 true "").ret.1.get i).CreatedAt ≥
      ((lnd.ListTransactions ⟨rejectingNode⟩ toyLib 0 0 10 0 true "").ret.1.get j).CreatedAt) ∧
    (∀ i j : Fin (phoenixd.ListTransactions samplePhoenix 0 0 10 0 true "").ret.1.length,
      i < j →
      ((phoenixd.ListTransactions samplePhoenix 0 0 10 0 true "").ret.1.get i).CreatedAt ≥
      ((phoenixd.ListTransactions samplePhoenix 0 0 10 0 true "").ret.1.get j).CreatedAt) ∧
    (∀ i j : Fin
        (cashu.ListTransactions ⟨sampleWallet⟩ toyLib sampleClock 0 0 10 0 true "").ret.1.length,
      i < j →
      ((cashu.ListTransactions ⟨sampleWallet⟩ toyLib sampleClock 0 0 10 0 true "").ret.1.get
        i).CreatedAt ≥
      ((cashu.ListTransactions ⟨sampleWallet⟩ toyLib sampleClock 0 0 10 0 true "").ret.1.get
        j).CreatedAt) :=
  ⟨by decide,
    (ListTransactions_sorted_descending ⟨rejectingNode⟩ samplePhoenix ⟨sampleWallet⟩ toyLib
      sampleClock 0 0 10 0 true "" _).1 (by decide),
    (ListTransactions_sorted_descending ⟨rejectingNode⟩ samplePhoenix ⟨sampleWallet⟩ toyLib
      sampleClock 0 0 10 0 true "" _).2.1 (by decide),
    (ListTransactions_sorted_descending ⟨rejectingNode⟩ samplePhoenix ⟨sampleWallet⟩ toyLib
      sampleClock 0 0 10 0 true "" _).2.2 (by decide)⟩

/-- C5: `ListTransactions` is stable on ties, on the full node and on the remote node. A
successful call returns `txs` such that, for every timestamp `t`, the entries of `txs` created
at `t` stand in the order they have in the fetch sequence: the kept incoming records in backend
order, then the kept outgoing records in backend order. -/
theorem ListTransactions_stable_on_ties (lndSvc : lnd.LNDService)
    (phx : phoenixd.PhoenixService) (lib : TextLib) (from_ until_ limit offset : Nat)
    (unpaid : Bool) (invoiceType : String) (txs : List nip47.Transaction) :
    ((lnd.ListTransactions lndSvc lib from_ until_ limit offset unpaid invoiceType).ret
        = (txs, none) →
      ∃ invoices payments outs,
        (lnd.incomingLeg lndSvc limit offset invoiceType).ret = .ok invoices ∧
        (lnd.outgoingLeg lndSvc limit offset unpaid invoiceType).ret = .ok payments ∧
        List.Forall₂ (fun p tx => lnd.paymentToTransaction lib p = .ok tx)
          (payments.filter fun p => decide (p.Status ≠ lnrpc.PaymentStatus.FAILED)) outs ∧
        ∀ t : Int, txs.filter (fun a => decide (a.CreatedAt = t)) =
          ((invoices.filter fun i =>
              unpaid || decide (i.State = lnrpc.InvoiceState.SETTLED)).map
              lnd.lndInvoiceToTransaction ++ outs).filter
            (fun a => decide (a.CreatedAt = t))) ∧
    ((phoenixd.ListTransactions phx from_ until_ limit offset unpaid invoiceType).ret
        = (txs, none) →
      ∃ incomingPayments outgoingPayments,
        (phoenixd.incomingLeg phx from_ until_ limit offset unpaid).ret
          = .ok incomingPayments ∧
        (phoenixd.outgoingLeg phx from_ until_ limit offset unpaid).ret
          = .ok outgoingPayments ∧
        ∀ t : Int, txs.filter (fun a => decide (a.CreatedAt = t)) =
          (incomingPayments.map phoenixd.incomingToTransaction ++
            outgoingPayments.map phoenixd.outgoingToTransaction).filter
            (fun a => decide (a.CreatedAt = t))) := by
  constructor
  · intro h
    obtain ⟨invoices, payments, outs, h1, h2, h3, htxs⟩ :=
      lnd_ListTransactions_ok _ _ _ _ _ _ _ _ _ h
    refine ⟨invoices, payments, outs, h1, h2, h3, fun t => ?_⟩
    rw [htxs, SliceStable_stable]
  · intro h
    obtain ⟨inc, out, h1, h2, htxs⟩ := phoenixd_ListTransactions_ok _ _ _ _ _ _ _ _ h
    refine ⟨inc, out, h1, h2, fun t => ?_⟩
    rw [htxs, SliceStable_stable]

/-- C5 on the samples: the settled invoice and the succeeded payment of the full node are both
created at second 100 and come out in fetch order, invoice first; the incoming record and the
first outgoing record of the remote node are both created at second 5 and come out in fetch
order. -/
theorem ListTransactions_stable_on_ties_witness :
    (((lnd.ListTransactions ⟨rejectingNode⟩ toyLib 0 0 10 0 true "").ret.1.filter
        fun a => decide (a.CreatedAt = 100)).map fun a => a.PaymentHash) = ["01", "p1"] ∧
    (((phoenixd.ListTransactions samplePhoenix 0 0 10 0 true "").ret.1.filter
        fun a => decide (a.CreatedAt = 5)).map fun a => a.PaymentHash) = ["i1", "o1"] ∧
    (∃ invoices payments outs,
        (lnd.incomingLeg ⟨rejectingNode⟩ 10 0 "").ret = .ok invoices ∧
        (lnd.outgoingLeg ⟨rejectingNode⟩ 10 0 true "").ret = .ok payments ∧
        List.Forall₂ (fun p tx => lnd.paymentToTransaction toyLib p = .ok tx)
          (payments.filter fun p => decide (p.Status ≠ lnrpc.PaymentStatus.FAILED)) outs ∧
        ∀ t : Int, (lnd.ListTransactions ⟨rejectingNode⟩ toyLib 0 0 10 0 true "").ret.1.filter
            (fun a => decide (a.CreatedAt = t)) =
          ((invoices.filter fun i =>
              true || decide (i.State = lnrpc.InvoiceState.SETTLED)).map
              lnd.lndInvoiceToTransaction ++ outs).filter
            (fun a => decide (a.CreatedAt = t))) ∧
    (∃ incomingPayments outgoingPayments,
        (phoenixd.incomingLeg samplePhoenix 0 0 10 0 true).ret = .ok incomingPayments ∧
        (phoenixd.outgoingLeg samplePhoenix 0 0 10 0 true).ret = .ok outgoingPayments ∧
        ∀ t : Int, (phoenixd.ListTransactions samplePhoenix 0 0 10 0 true "").ret.1.filter
            (fun a => decide (a.CreatedAt = t)) =
          (incomingPayments.map phoenixd.incomingToTransaction ++
            outgoingPayments.map phoenixd.outgoingToTransaction).filter
            (fun a => decide (a.CreatedAt = t))) :=
  ⟨by decide, by decide,
    (ListTransactions_stable_on_ties ⟨rejectingNode⟩ samplePhoenix toyLib 0 0 10 0 true "" _).1
      (by decide),
    (ListTransactions_stable_on_ties ⟨rejectingNode⟩ samplePhoenix toyLib 0 0 10 0 true "" _).2
      (by decide)⟩

/-- C6: the merge does not truncate. On the full node a successful call returns a permutation
of the normalized kept invoices (settled ones, or all when `unpaid` is set) followed by the
normalized payments that are not failed, so its length is the sum of the two counts whatever
`limit` is; on the remote node it returns a permutation of all normalized incoming and outgoing
records. A node that honours the page size `limit > 0` in each reply can make the result longer
than `limit`. -/
theorem ListTransactions_not_truncated (lndSvc : lnd.LNDService)
    (phx : phoenixd.PhoenixService) (lib : TextLib) (from_ until_ limit offset : Nat)
    (unpaid : Bool) (invoiceType : String) (txs : List nip47.Transaction) :
    ((lnd.ListTransactions lndSvc lib from_ until_ limit offset unpaid invoiceType).ret
        = (txs, none) →
      ∃ invoices payments outs,
        (lnd.incomingLeg lndSvc limit offset invoiceType).ret = .ok invoices ∧
        (lnd.outgoingLeg lndSvc limit offset unpaid invoiceType).ret = .ok payments ∧
        List.Forall₂ (fun p tx => lnd.paymentToTransaction lib p = .ok tx)
          (payments.filter fun p => decide (p.Status ≠ lnrpc.PaymentStatus.FAILED)) outs ∧
        txs.Perm ((invoices.filter fun i =>
            unpaid || decide (i.State = lnrpc.InvoiceState.SETTLED)).map
            lnd.lndInvoiceToTransaction ++ outs) ∧
        txs.length =
          (invoices.filter fun i =>
            unpaid || decide (i.State = lnrpc.InvoiceState.SETTLED)).length +
          (payments.filter fun p => decide (p.Status ≠ lnrpc.PaymentStatus.FAILED)).length) ∧
    ((phoenixd.ListTransactions phx from_ until_ limit offset unpaid invoiceType).ret
        = (txs, none) →
      ∃ incomingPayments outgoingPayments,
        (phoenixd.incomingLeg phx from_ until_ limit offset unpaid).ret
          = .ok incomingPayments ∧
        (phoenixd.outgoingLeg phx from_ until_ limit offset unpaid).ret
          = .ok outgoingPayments ∧
        txs.Perm (incomingPayments.map phoenixd.incomingToTransaction ++
          outgoingPayments.map phoenixd.outgoingToTransaction) ∧
        txs.length = incomingPayments.length + outgoingPayments.length) ∧
    (∃ (svc : lnd.LNDService) (L : Nat) (invoices : List lnrpc.Invoice)
        (payments : List lnrpc.Payment),
      0 < L ∧
      (lnd.incomingLeg svc L 0 "").ret = .ok invoices ∧ invoices.length ≤ L ∧
      (lnd.outgoingLeg svc L 0 false "").ret = .ok payments ∧ payments.length ≤ L ∧
      (lnd.ListTransactions svc toyLib 0 0 L 0 false "").ret.2 = none ∧
      L < (lnd.ListTransactions svc toyLib 0 0 L 0 false "").ret.1.length) := by
  refine ⟨?_, ?_, ?_⟩
  · intro h
    obtain ⟨invoices, payments, outs, h1, h2, h3, htxs⟩ :=
      lnd_ListTransactions_ok _ _ _ _ _ _ _ _ _ h
    have hperm := SliceStable_perm createdAtLess
      ((invoices.filter fun i =>
        unpaid || decide (i.State = lnrpc.InvoiceState.SETTLED)).map
        lnd.lndInvoiceToTransaction ++ outs)
    rw [← htxs] at hperm
    refine ⟨invoices, payments, outs, h1, h2, h3, hperm, ?_⟩
    rw [hperm.length_eq, List.length_append, List.length_map, h3.length_eq]
  · intro h
    obtain ⟨inc, out, h1, h2, htxs⟩ := phoenixd_ListTransactions_ok _ _ _ _ _ _ _ _ h
    have hperm := SliceStable_perm createdAtLess
      (inc.map phoenixd.incomingToTransaction ++ out.map phoenixd.outgoingToTransaction)
    rw [← htxs] at hperm
    refine ⟨inc, out, h1, h2, hperm, ?_⟩
    rw [hperm.length_eq, List.length_append, List.length_map, List.length_map]
  · exact ⟨⟨pagingNode⟩, 1, sampleInvoices.take 1, samplePayments.take 1,
      by decide, rfl, by decide, rfl, by decide, by decide, by decide⟩

/-- C6 on the samples: the full node keeps both invoices and two of three payments, four
entries in all, and the remote node keeps all three records. -/
theorem ListTransactions_not_truncated_witness :
    (lnd.ListTransactions ⟨rejectingNode⟩ toyLib 0 0 10 0 true "").ret.1.length = 4 ∧
    (phoenixd.ListTransactions samplePhoenix 0 0 10 0 true "").ret.1.length = 3 ∧
    (∃ invoices payments outs,
        (lnd.incomingLeg ⟨rejectingNode⟩ 10 0 "").ret = .ok invoices ∧
        (lnd.outgoingLeg ⟨rejectingNode⟩ 10 0 true "").ret = .ok payments ∧
        List.Forall₂ (fun p tx => lnd.paymentToTransaction toyLib p = .ok tx)
          (payments.filter fun p => decide (p.Status ≠ lnrpc.PaymentStatus.FAILED)) outs ∧
        (lnd.ListTransactions ⟨rejectingNode⟩ toyLib 0 0 10 0 true "").ret.1.Perm
          ((invoices.filter fun i =>
            true || decide (i.State = lnrpc.InvoiceState.SETTLED)).map
            lnd.lndInvoiceToTransaction ++ outs) ∧
        (lnd.ListTransactions ⟨rejectingNode⟩ toyLib 0 0 10 0 true "").ret.1.length =
          (invoices.filter fun i =>
            true || decide (i.State = lnrpc.InvoiceState.SETTLED)).length +
          (payments.filter fun p => decide (p.Status ≠ lnrpc.PaymentStatus.FAILED)).length) ∧
    (∃ incomingPayments outgoingPayments,
        (phoenixd.incomingLeg samplePhoenix 0 0 10 0 true).ret = .ok incomingPayments ∧
        (phoenixd.outgoingLeg samplePhoenix 0 0 10 0 true).ret = .ok outgoingPayments ∧
        (phoenixd.ListTransactions samplePhoenix 0 0 10 0 true "").ret.1.Perm
          (incomingPayments.map phoenixd.incomingToTransaction ++
            outgoingPayments.map phoenixd.outgoingToTransaction) ∧
        (phoenixd.ListTransactions samplePhoenix 0 0 10 0 true "").ret.1.length =
          incomingPayments.length + outgoingPayments.length) :=
  ⟨by decide, by decide,
    (ListTransactions_not_truncated ⟨rejectingNode⟩ samplePhoenix toyLib 0 0 10 0 true "" _).1
      (by decide),
    (ListTransactions_not_truncated ⟨rejectingNode⟩ samplePhoenix toyLib 0 0 10 0 true "" _).2.1
      (by decide)⟩

/-- C7, counterexample: the reply of `garbageNode` to the payment query holds one payment, in
state SUCCEEDED, whose payment request the decoder rejects. The call fails with the decoder
fault and returns no transaction at all, so this payment, which is not failed, yields no
outgoing transaction. -/
theorem ListTransactions_undecodable_payment_yields_nothing :
    (lnd.outgoingLeg ⟨garbageNode⟩ 10 0 false "").ret
      = .ok [ { PaymentHash := "p4", PaymentRequest := "garbage",
                Status := lnrpc.PaymentStatus.SUCCEEDED } ] ∧
    (lnd.ListTransactions ⟨garbageNode⟩ toyLib 0 0 10 0 false "").ret
      = ([], some (Error.External "bolt11")) ∧
    ¬ ∃ tx ∈ (lnd.ListTransactions ⟨garbageNode⟩ toyLib 0 0 10 0 false "").ret.1,
      tx.PaymentHash = "p4" := by
  refine ⟨rfl, by decide, ?_⟩
  have h : (lnd.ListTransactions ⟨garbageNode⟩ toyLib 0 0 10 0 false "").ret.1 = [] := by
    decide
  rw [h]
  simp

/-- C7, amended: when both queries succeed and the payment request of every payment that is not
failed is empty or decodes, `ListTransactions` succeeds, for `unpaid` set or not, and the
outgoing transactions of its result are, up to order, the normalizations of the payments of the
reply that are not failed, one for each; no failed payment has a transaction. -/
theorem ListTransactions_skips_failed_payments (svc : lnd.LNDService) (lib : TextLib)
    (from_ until_ limit offset : Nat) (unpaid : Bool) (invoiceType : String)
    (invoices : List lnrpc.Invoice) (payments : List lnrpc.Payment)
    (hin : (lnd.incomingLeg svc limit offset invoiceType).ret = .ok invoices)
    (hout : (lnd.outgoingLeg svc limit offset unpaid invoiceType).ret = .ok payments)
    (hdec : ∀ p ∈ payments, p.Status ≠ lnrpc.PaymentStatus.FAILED →
      p.PaymentRequest = "" ∨ ∃ b, lib.Decodepay (lib.ToLower p.PaymentRequest) = .ok b) :
    ∃ txs outs,
      (lnd.ListTransactions svc lib from_ until_ limit offset unpaid invoiceType).ret
        = (txs, none) ∧
      List.Forall₂ (fun p tx => lnd.paymentToTransaction lib p = .ok tx)
        (payments.filter fun p => decide (p.Status ≠ lnrpc.PaymentStatus.FAILED)) outs ∧
      (txs.filter fun t => decide (t.Type_ = "outgoing")).Perm outs ∧
      (txs.filter fun t => decide (t.Type_ = "outgoing")).length =
        (payments.filter fun p => decide (p.Status ≠ lnrpc.PaymentStatus.FAILED)).length := by
  obtain ⟨txs, htxs⟩ :=
    lnd_ListTransactions_total svc lib from_ until_ limit offset unpaid invoiceType invoices
      payments hin hout hdec
  obtain ⟨invoices2, payments2, outs, h1, h2, h3, hsorted⟩ :=
    lnd_ListTransactions_ok _ _ _ _ _ _ _ _ _ htxs
  have e2 : payments2 = payments := by
    rw [hout] at h2
    exact (Except.ok.inj h2).symm
  subst e2
  have hperm : (txs.filter fun t => decide (t.Type_ = "outgoing")).Perm outs := by
    have hp := (SliceStable_perm createdAtLess
      ((invoices2.filter fun i =>
        unpaid || decide (i.State = lnrpc.InvoiceState.SETTLED)).map
        lnd.lndInvoiceToTransaction ++ outs)).filter (fun t => decide (t.Type_ = "outgoing"))
    rw [← hsorted, filter_outgoing_of_legs lib _ _ outs h3] at hp
    exact hp
  exact ⟨txs, outs, htxs, h3, hperm, by rw [hperm.length_eq, h3.length_eq]⟩

/-- C7 amended, on the samples: of the three payments of `rejectingNode` the failed one is
dropped and the other two come back, for `unpaid` set and not set. -/
theorem ListTransactions_skips_failed_payments_witness :
    (((lnd.ListTransactions ⟨rejectingNode⟩ toyLib 0 0 10 0 true "").ret.1.filter
        fun t => decide (t.Type_ = "outgoing")).map fun t => t.PaymentHash) = ["p3", "p1"] ∧
    (((lnd.ListTransactions ⟨rejectingNode⟩ toyLib 0 0 10 0 false "").ret.1.filter
        fun t => decide (t.Type_ = "outgoing")).map fun t => t.PaymentHash) = ["p3", "p1"] ∧
    ∃ txs outs,
      (lnd.ListTransactions ⟨rejectingNode⟩ toyLib 0 0 10 0 true "").ret = (txs, none) ∧
      List.Forall₂ (fun p tx => lnd.paymentToTransaction toyLib p = .ok tx)
        (samplePayments.filter fun p => decide (p.Status ≠ lnrpc.PaymentStatus.FAILED)) outs ∧
      (txs.filter fun t => decide (t.Type_ = "outgoing")).Perm outs ∧
      (txs.filter fun t => decide (t.Type_ = "outgoing")).length =
        (samplePayments.filter fun p =>
          decide (p.Status ≠ lnrpc.PaymentStatus.FAILED)).length :=
  ⟨by decide, by decide,
    ListTransactions_skips_failed_payments ⟨rejectingNode⟩ toyLib 0 0 10 0 true ""
      sampleInvoices samplePayments rfl rfl (by
        intro p hp _
        simp only [samplePayments, List.mem_cons, List.mem_singleton, List.not_mem_nil,
          or_false] at hp
        rcases hp with h | h | h
        · left; rw [h]
        · left; rw [h]
        · right; rw [h]; exact ⟨_, rfl⟩)⟩

/-! ## The keysend request -/

/-- C8: in every send request that `SendKeysend` issues, `PaymentHash` is the SHA-256 digest of
the preimage bytes in use, which are the decoded caller preimage when one is supplied and the 32
fresh random bytes otherwise, and these bytes are exactly 32. -/
theorem SendKeysend_payment_hash_is_digest (svc : lnd.LNDService) (crypto : Crypto)
    (amount : Int) (destination preimage : String) (custom_records : List lnclient.TLVRecord)
    (req : lnrpc.SendRequest)
    (h : wrapper.Call.SendPaymentSync req ∈
      (lnd.SendKeysend svc crypto amount destination preimage custom_records).calls) :
    ∃ preImageBytes : Bytes,
      preImageBytes =
        (if preimage = "" then (lnd.makePreimageHex crypto).1
          else (hex.DecodeString preimage).1) ∧
      preImageBytes.length = 32 ∧
      req.PaymentHash = crypto.sha256 preImageBytes := by
  obtain ⟨_, _, hlen, hreq, _⟩ := SendKeysend_calls _ _ _ _ _ _ _ h
  have hr := wrapper.Call.SendPaymentSync.inj hreq
  refine ⟨(lnd.keysendPreimage crypto preimage).1, ?_, hlen, ?_⟩
  · unfold lnd.keysendPreimage
    split <;> rfl
  · rw [hr]
    rfl

/-- C8 on the samples: with the caller preimage `preimage32` the hash of the request is the
digest of its 32 decoded bytes, and with no caller preimage it is the digest of the 32 bytes
drawn from the entropy stream. -/
theorem SendKeysend_payment_hash_is_digest_witness :
    (∃ preImageBytes : Bytes,
      preImageBytes = (hex.DecodeString preimage32).1 ∧
      preImageBytes.length = 32 ∧
      (lnd.keysendRequest toyCrypto 1000 (hex.DecodeString sampleDestination).1
        (hex.DecodeString preimage32).1 sampleRecords).PaymentHash
        = toyCrypto.sha256 preImageBytes) ∧
    (∃ preImageBytes : Bytes,
      preImageBytes = (lnd.makePreimageHex toyCrypto).1 ∧
      preImageBytes.length = 32 ∧
      (lnd.keysendRequest toyCrypto 1000 (hex.DecodeString sampleDestination).1
        (List.range 32) sampleRecords).PaymentHash
        = toyCrypto.sha256 preImageBytes) :=
  ⟨SendKeysend_payment_hash_is_digest ⟨payingNode⟩ toyCrypto 1000 sampleDestination preimage32
      sampleRecords _ (by decide),
    SendKeysend_payment_hash_is_digest ⟨payingNode⟩ toyCrypto 1000 sampleDestination ""
      sampleRecords _ (by decide)⟩

/-- C9: in every send request that `SendKeysend` issues, the custom-record map holds the
preimage bytes under key 5482373484 whatever the caller records are, a caller record on that
key being overwritten; every other key holds the bytes of the last caller record of that type,
and nothing when the caller has no record of that type. -/
theorem SendKeysend_custom_records (svc : lnd.LNDService) (crypto : Crypto)
    (amount : Int) (destination preimage : String) (custom_records : List lnclient.TLVRecord)
    (req : lnrpc.SendRequest)
    (h : wrapper.Call.SendPaymentSync req ∈
      (lnd.SendKeysend svc crypto amount destination preimage custom_records).calls) :
    req.DestCustomRecords.get 5482373484 =
      some (if preimage = "" then (lnd.makePreimageHex crypto).1
        else (hex.DecodeString preimage).1) ∧
    ∀ t : Nat, t ≠ 5482373484 →
      req.DestCustomRecords.get t =
        ((custom_records.filter fun r => decide (r.Type_ = t)).getLast?).map
          fun r => stringBytes r.Value := by
  obtain ⟨_, _, _, hreq, _⟩ := SendKeysend_calls _ _ _ _ _ _ _ h
  have hr := wrapper.Call.SendPaymentSync.inj hreq
  have hpre : (lnd.keysendPreimage crypto preimage).1 =
      (if preimage = "" then (lnd.makePreimageHex crypto).1
        else (hex.DecodeString preimage).1) := by
    unfold lnd.keysendPreimage
    split <;> rfl
  rw [hr]
  simp only [lnd.keysendRequest, lnd.KEYSEND_CUSTOM_RECORD]
  constructor
  · rw [GoMap_get_set_same, hpre]
  · intro t ht
    rw [GoMap_get_set_other _ _ _ _ ht, customRecordsLoop_get]
    simp [GoMap.get]

/-- C9 on the samples: the caller records hold `ab` on the reserved key and `x`, then `y`, on
key 7; the request holds the 32 preimage bytes on the reserved key, the byte of `y` on key 7
and nothing on key 8. -/
theorem SendKeysend_custom_records_witness :
    (lnd.keysendRequest toyCrypto 1000 (hex.DecodeString sampleDestination).1
        (hex.DecodeString preimage32).1 sampleRecords).DestCustomRecords.get 5482373484
      = some (hex.DecodeString preimage32).1 ∧
    (lnd.keysendRequest toyCrypto 1000 (hex.DecodeString sampleDestination).1
        (hex.DecodeString preimage32).1 sampleRecords).DestCustomRecords.get 7
      = some [121] ∧
    (lnd.keysendRequest toyCrypto 1000 (hex.DecodeString sampleDestination).1
        (hex.DecodeString preimage32).1 sampleRecords).DestCustomRecords.get 8
      = none :=
  ⟨(SendKeysend_custom_records ⟨payingNode⟩ toyCrypto 1000 sampleDestination preimage32
      sampleRecords _ (by decide)).1,
    (SendKeysend_custom_records ⟨payingNode⟩ toyCrypto 1000 sampleDestination preimage32
      sampleRecords _ (by decide)).2 7 (by decide),
    (SendKeysend_custom_records ⟨payingNode⟩ toyCrypto 1000 sampleDestination preimage32
      sampleRecords _ (by decide)).2 8 (by decide)⟩

/-- C10: when the backend answers the send request of `SendKeysend` without transport fault but
with a non-empty `PaymentError`, the call returns the empty preimage and the non-nil error made
of that text. The call returns a non-empty preimage with a nil error only if it issued one send
request whose reply has an empty `PaymentError` and a non-empty preimage; the result is then
the hex text of that preimage, all of whose characters are digits or lowercase `a` to `f`. -/
theorem SendKeysend_payment_error_is_failure (svc : lnd.LNDService) (crypto : Crypto)
    (amount : Int) (destination preimage : String)
    (custom_records : List lnclient.TLVRecord) :
    (∀ req resp,
      wrapper.Call.SendPaymentSync req ∈
        (lnd.SendKeysend svc crypto amount destination preimage custom_records).calls →
      svc.client.SendPaymentSync req = .ok resp →
      resp.PaymentError ≠ "" →
      (lnd.SendKeysend svc crypto amount destination preimage custom_records).ret
        = ("", some (Error.New resp.PaymentError))) ∧
    ((lnd.SendKeysend svc crypto amount destination preimage custom_records).ret.1 ≠ "" ∧
      (lnd.SendKeysend svc crypto amount destination preimage custom_records).ret.2 = none →
      ∃ req resp,
        (lnd.SendKeysend svc crypto amount destination preimage custom_records).calls
          = [wrapper.Call.SendPaymentSync req] ∧
        svc.client.SendPaymentSync req = .ok resp ∧
        resp.PaymentError = "" ∧
        resp.PaymentPreimage ≠ [] ∧
        (lnd.SendKeysend svc crypto amount destination preimage custom_records).ret.1
          = hex.EncodeToString resp.PaymentPreimage ∧
        ∀ c ∈ (lnd.SendKeysend svc crypto amount destination preimage
            custom_records).ret.1.data, c ∈ "0123456789abcdef".data) := by
  constructor
  · intro req resp hcall hresp herr
    obtain ⟨_, _, _, hreq, hret⟩ := SendKeysend_calls _ _ _ _ _ _ _ hcall
    have hr := wrapper.Call.SendPaymentSync.inj hreq
    rw [hret, ← hr, hresp]
    simp [lnd.keysendOutcome, herr]
  · intro ⟨hne, _⟩
    cases hcalls : (lnd.SendKeysend svc crypto amount destination preimage
        custom_records).calls with
    | nil => exact absurd (SendKeysend_no_call _ _ _ _ _ _ hcalls) hne
    | cons c cs =>
      have hmem : c ∈ (lnd.SendKeysend svc crypto amount destination preimage
          custom_records).calls := by rw [hcalls]; exact List.mem_cons_self _ _
      obtain ⟨_, _, _, hreq, hret⟩ := SendKeysend_calls _ _ _ _ _ _ _ hmem
      have hone := SendKeysend_single_call svc crypto amount destination preimage
        custom_records c hmem
      rw [hret] at hne ⊢
      cases hresp : svc.client.SendPaymentSync
          (lnd.keysendRequest crypto amount (hex.DecodeString destination).1
            (lnd.keysendPreimage crypto preimage).1 custom_records) with
      | error e => simp [hresp, lnd.keysendOutcome] at hne
      | ok resp =>
        rw [hresp] at hne
        by_cases herr : resp.PaymentError ≠ ""
        · simp [lnd.keysendOutcome, herr] at hne
        · have herr2 : resp.PaymentError = "" := by
            by_contra hx; exact herr hx
          by_cases hemp : hex.EncodeToString resp.PaymentPreimage = ""
          · simp [lnd.keysendOutcome, herr2, hemp] at hne
          · have hout : lnd.keysendOutcome (.ok resp)
                = (hex.EncodeToString resp.PaymentPreimage, none) := by
              simp [lnd.keysendOutcome, herr2, hemp]
            refine ⟨_, resp, ?_, hresp, herr2, ?_, ?_, ?_⟩
            · rw [← hcalls, hone, hreq]
            · intro hnil
              apply hemp
              rw [hnil]
              rfl
            · rw [hout]
            · rw [hout]
              exact EncodeToString_lowercase resp.PaymentPreimage

/-- C10 on the samples: `rejectingNode` answers with the payment error `no_route` and the call
fails with that text; `payingNode` answers with the preimage bytes `0a ff` and the call returns
the text `0aff`. -/
theorem SendKeysend_payment_error_is_failure_witness :
    (lnd.SendKeysend ⟨rejectingNode⟩ toyCrypto 1000 sampleDestination preimage32
      sampleRecords).ret = ("", some (Error.New "no_route")) ∧
    (lnd.SendKeysend ⟨payingNode⟩ toyCrypto 1000 sampleDestination preimage32
      sampleRecords).ret.1 = "0aff" ∧
    ∃ req resp,
      (lnd.SendKeysend ⟨payingNode⟩ toyCrypto 1000 sampleDestination preimage32
        sampleRecords).calls = [wrapper.Call.SendPaymentSync req] ∧
      payingNode.SendPaymentSync req = .ok resp ∧
      resp.PaymentError = "" ∧
      resp.PaymentPreimage ≠ [] ∧
      (lnd.SendKeysend ⟨payingNode⟩ toyCrypto 1000 sampleDestination preimage32
        sampleRecords).ret.1 = hex.EncodeToString resp.PaymentPreimage ∧
      ∀ c ∈ (lnd.SendKeysend ⟨payingNode⟩ toyCrypto 1000 sampleDestination preimage32
          sampleRecords).ret.1.data, c ∈ "0123456789abcdef".data :=
  ⟨(SendKeysend_payment_error_is_failure ⟨rejectingNode⟩ toyCrypto 1000 sampleDestination
      preimage32 sampleRecords).1
      (lnd.keysendRequest toyCrypto 1000 (hex.DecodeString sampleDestination).1
        (hex.DecodeString preimage32).1 sampleRecords)
      { PaymentError := "no_route" } (by decide) rfl (by decide),
    by decide,
    (SendKeysend_payment_error_is_failure ⟨payingNode⟩ toyCrypto 1000 sampleDestination
      preimage32 sampleRecords).2 ⟨by decide, by decide⟩⟩

/-! ## Keysend on backends without the capability -/

/-- C11: on the remote-HTTP adapter and on the ecash adapter `SendKeysend` returns the empty
string with a non-nil error and issues no backend call, for every amount, destination, preimage
and list of custom records. -/
theorem SendKeysend_unsupported (phx : phoenixd.PhoenixService) (cs : cashu.CashuService)
    (amount : Int) (destination preimage : String)
    (custom_records : List lnclient.TLVRecord) :
    (phoenixd.SendKeysend phx amount destination preimage custom_records).ret.1 = "" ∧
    (phoenixd.SendKeysend phx amount destination preimage custom_records).ret.2 ≠ none ∧
    (phoenixd.SendKeysend phx amount destination preimage custom_records).calls = [] ∧
    (cashu.SendKeysend cs amount destination preimage custom_records).ret.1 = "" ∧
    (cashu.SendKeysend cs amount destination preimage custom_records).ret.2 ≠ none ∧
    (cashu.SendKeysend cs amount destination preimage custom_records).calls = [] := by
  refine ⟨rfl, ?_, rfl, rfl, ?_, rfl⟩
  · simp [phoenixd.SendKeysend]
  · simp [cashu.SendKeysend]

/-! ## The ecash adapter -/

/-- C12, the defect at a concrete input: `LookupInvoice` finds an unpaid mint quote and issues
one mint check whatever the creation time `createdAt` of the quote is; for a quote created 48
hours before the clock value `noonClock 0`, where the age test of `ListTransactions` is false,
the mint check is issued all the same, where no mint check is required. -/
theorem LookupInvoice_checks_quote_of_any_age (createdAt : Int) :
    (cashu.LookupInvoice ⟨agedWallet createdAt⟩ toyLib "aa").calls
      = [wallet.Call.GetInvoiceByPaymentHash "aa", wallet.Call.MintTokens "q9"] ∧
    ¬ (time.Since (noonClock 0) (time.UnixMilli (wrapInt64 ((1709640000 - 172800) * 1000)))
      < 24 * time.Hour) ∧
    (cashu.LookupInvoice ⟨agedWallet (1709640000 - 172800)⟩ toyLib "aa").calls
      = [wallet.Call.GetInvoiceByPaymentHash "aa", wallet.Call.MintTokens "q9"] := by
  refine ⟨rfl, ?_, rfl⟩
  norm_num [time.Since, time.UnixMilli, time.Unix, wrapInt64, noonClock, time.Hour, time.Second,
    Int.tdiv, Int.tmod]

/-- C13: for a stored quote whose BOLT11 text decodes, the normalizer succeeds and, when the
64-bit operations do not overflow, `FeesPaid` is `QuoteAmount * 1000` minus the decoded amount
in msat, as a signed integer without clamping: it is negative when the decoded amount is the
larger one. -/
theorem cashuInvoiceToTransaction_fee_unclamped (lib : TextLib)
    (cashuInvoice : storage.Invoice) (paymentRequest : decodepay.Bolt11)
    (hdec : lib.Decodepay cashuInvoice.PaymentRequest = .ok paymentRequest)
    (hq : cashuInvoice.QuoteAmount * 1000 < 2 ^ 63)
    (hlo : -(2 ^ 63) ≤ (cashuInvoice.QuoteAmount * 1000 : Int) - paymentRequest.MSatoshi)
    (hhi : (cashuInvoice.QuoteAmount * 1000 : Int) - paymentRequest.MSatoshi < 2 ^ 63) :
    ∃ tx, cashu.cashuInvoiceToTransaction lib cashuInvoice = (some tx, none) ∧
      tx.FeesPaid = (cashuInvoice.QuoteAmount * 1000 : Int) - paymentRequest.MSatoshi ∧
      (paymentRequest.MSatoshi > (cashuInvoice.QuoteAmount * 1000 : Int) → tx.FeesPaid < 0) := by
  have hmod : cashuInvoice.QuoteAmount * 1000 % 2 ^ 64 = cashuInvoice.QuoteAmount * 1000 := by
    apply Nat.mod_eq_of_lt
    have : (2 : Nat) ^ 63 < 2 ^ 64 := by norm_num
    omega
  have hq2 : (cashuInvoice.QuoteAmount : Int) * 1000 < 2 ^ 63 := by exact_mod_cast hq
  have hq3 : -(2 ^ 63) ≤ (cashuInvoice.QuoteAmount : Int) * 1000 := by
    have : (0 : Int) ≤ (cashuInvoice.QuoteAmount : Int) * 1000 := by positivity
    have h2 : -((2 : Int) ^ 63) ≤ 0 := by norm_num
    exact le_trans h2 this
  have h1 : wrapInt64 ((cashuInvoice.QuoteAmount * 1000 % 2 ^ 64 : Nat) : Int)
      = (cashuInvoice.QuoteAmount : Int) * 1000 := by
    rw [hmod]
    push_cast
    exact wrapInt64_of_range _ hq3 hq2
  have hfee : wrapInt64 (wrapInt64 ((cashuInvoice.QuoteAmount * 1000 % 2 ^ 64 : Nat) : Int)
      - paymentRequest.MSatoshi)
      = (cashuInvoice.QuoteAmount * 1000 : Int) - paymentRequest.MSatoshi := by
    rw [h1]
    exact wrapInt64_of_range _ hlo hhi
  unfold cashu.cashuInvoiceToTransaction
  rw [hdec]
  refine ⟨_, rfl, hfee, ?_⟩
  intro hgt
  show wrapInt64 _ < 0
  rw [hfee]
  omega

/-- C13 on the samples: a melt quote of 20 sat for an invoice of 21000 msat has the fee
-1000 msat. -/
theorem cashuInvoiceToTransaction_fee_unclamped_witness :
    ∃ tx, cashu.cashuInvoiceToTransaction toyLib underQuoted = (some tx, none) ∧
      tx.FeesPaid = ((20 * 1000 : Nat) : Int) - 21000 ∧
      ((21000 : Int) > ((20 * 1000 : Nat) : Int) → tx.FeesPaid < 0) :=
  cashuInvoiceToTransaction_fee_unclamped toyLib underQuoted
    { MSatoshi := 21000, PaymentHash := "aa", CreatedAt := 1700000000, Expiry := 3600 }
    rfl (by decide) (by decide) (by decide)

/-! ## Invoices on the remote node -/

/-- C14, the defect at a concrete input: the form of `MakeInvoice` carries exactly one
`externalId` field, the date text handed to it, but the layout `2006-02-01` writes the
date 2024-03-05 as `2024-05-03`, year, day, month; and the query of the incoming leg of
`ListTransactions` carries no `externalId` field for any arguments, so no later query uses the
date, against the note in `MakeInvoice` that the list query is limited by it. -/
theorem MakeInvoice_externalId_unused_by_queries :
    (∀ (today : String) (amount : Int) (description descriptionHash : String),
      (phoenixd.makeInvoiceForm today amount description descriptionHash).filter
        (fun e => decide (e.1 = "externalId")) = [("externalId", today)]) ∧
    (noonClock 0).Format "2006-02-01" = "2024-05-03" ∧
    (noonClock 0).Format "2006-01-02" = "2024-03-05" ∧
    ((phoenixd.MakeInvoice invoicingPhoenix noonClock 21000 "" "" 0).calls.map
      fun c => c.Request.Body) = ["amountSat=21&description=invoice&externalId=2024-05-03"] ∧
    (∀ (from_ until_ limit offset : Nat) (unpaid : Bool),
      (phoenixd.listQuery from_ until_ limit offset unpaid).filter
        (fun e => decide (e.1 = "externalId")) = []) ∧
    ((phoenixd.incomingLeg invoicingPhoenix 0 0 0 0 true).calls.map
      fun c => c.Request.URL) = ["http://localhost:9740/payments/incoming?all=true"] := by
  refine ⟨?_, by decide, by decide, by decide, ?_, by decide⟩
  · intro today amount description descriptionHash
    unfold phoenixd.makeInvoiceForm
    by_cases h1 : descriptionHash ≠ ""
    · simp [h1, url.Values.Add, List.filter_cons]
    · by_cases h2 : description ≠ ""
      · simp [h1, h2, url.Values.Add, List.filter_cons]
      · simp [h1, h2, url.Values.Add, List.filter_cons]
  · intro from_ until_ limit offset unpaid
    unfold phoenixd.listQuery
    by_cases h1 : from_ ≠ 0 <;> by_cases h2 : until_ ≠ 0 <;> by_cases h3 : limit ≠ 0 <;>
      by_cases h4 : offset ≠ 0 <;>
      simp [h1, h2, h3, h4, url.Values.Add, List.filter_cons]

/-- C16, the defect at a concrete input: the service answers `createinvoice` for 21000 msat
with the payment hash `h1` and `amountSat` 21; `MakeInvoice` returns a transaction with the
payment hash `h1` but with `Amount` 0, where 21000 is required. `LookupInvoice` on that hash
reports the received amount, 0 for the unpaid invoice. -/
theorem MakeInvoice_drops_amount :
    invoicingPhoenix.remote.decodeMakeInvoice "http://localhost:9740/createinvoice"
      = .ok { AmountSat := 21, PaymentHash := "h1", Serialized := "lnbc210n1sample" } ∧
    (phoenixd.MakeInvoice invoicingPhoenix noonClock 21000 "" "" 0).ret.2 = none ∧
    ((phoenixd.MakeInvoice invoicingPhoenix noonClock 21000 "" "" 0).ret.1.map
      fun tx => (tx.PaymentHash, tx.Amount)) = some ("h1", 0) ∧
    ((phoenixd.LookupInvoice invoicingPhoenix "h1").ret.1.map
      fun tx => (tx.PaymentHash, tx.Amount)) = some ("h1", 0) := by
  refine ⟨rfl, by decide, by decide, by decide⟩

/-! ## Invoices on the full node -/

/-- C15, counterexample: `forgetfulNode` answers `AddInvoice` with the 32 bytes of `sampleRHash`
and its lookup is a function of the hash, but the invoice it returns carries an empty `RHash`.
`MakeInvoice` returns a transaction with the empty payment hash, and `LookupInvoice` on that
text is refused by validation without a query to the backend. -/
theorem MakeInvoice_LookupInvoice_hash_mismatch :
    forgetfulNode.AddInvoice { ValueMsat := 21000, Memo := "memo", Expiry := 3600 }
      = .ok sampleRHash ∧
    sampleRHash.length = 32 ∧
    sampleRHash.all (fun b => decide (b < 256)) = true ∧
    (lnd.MakeInvoice ⟨forgetfulNode⟩ 21000 "memo" "" 3600).ret.2 = none ∧
    ((lnd.MakeInvoice ⟨forgetfulNode⟩ 21000 "memo" "" 3600).ret.1.map
      fun tx => (tx.PaymentHash, tx.Amount)) = some ("", 21000) ∧
    (lnd.MakeInvoice ⟨forgetfulNode⟩ 21000 "memo" "" 3600).calls
      = [wrapper.Call.AddInvoice { ValueMsat := 21000, Memo := "memo", Expiry := 3600 },
        wrapper.Call.LookupInvoice sampleRHash] ∧
    (lnd.LookupInvoice ⟨forgetfulNode⟩ "").ret
      = (none, some (Error.New "Payment hash must be 32 bytes hex")) ∧
    (lnd.LookupInvoice ⟨forgetfulNode⟩ "").calls = [] := by
  refine ⟨rfl, by decide, by decide, by decide, by decide, by decide, by decide, by decide⟩

/-- C15, amended: round trip on the full node. Let the backend answer `AddInvoice` with a hash
of 32 bytes, let its lookup be a function of the hash, and let the invoice it returns for a
hash carry that hash as its `RHash`. If `MakeInvoice` returns the transaction `tx`, then
`tx.PaymentHash` is the hex text of the hash `rHash` that `AddInvoice` returned, it decodes
back to `rHash`, and `LookupInvoice` on it passes validation, queries the backend once with
exactly `rHash`, and returns `tx` again, hence the same amount and payment hash. -/
theorem MakeInvoice_LookupInvoice_round_trip (svc : lnd.LNDService) (amount : Int)
    (description descriptionHash : String) (expiry : Int) (tx : nip47.Transaction)
    (hadd : ∀ inv r, svc.client.AddInvoice inv = .ok r → r.length = 32 ∧ ∀ b ∈ r, b < 256)
    (hkey : ∀ h inv, svc.client.LookupInvoice h = .ok inv → inv.RHash = h)
    (hmk : (lnd.MakeInvoice svc amount description descriptionHash expiry).ret
      = (some tx, none)) :
    ∃ invoice rHash,
      svc.client.AddInvoice invoice = .ok rHash ∧
      (lnd.MakeInvoice svc amount description descriptionHash expiry).calls
        = [wrapper.Call.AddInvoice invoice, wrapper.Call.LookupInvoice rHash] ∧
      tx.PaymentHash = hex.EncodeToString rHash ∧
      hex.DecodeString tx.PaymentHash = (rHash, none) ∧
      (lnd.LookupInvoice svc tx.PaymentHash).calls = [wrapper.Call.LookupInvoice rHash] ∧
      (lnd.LookupInvoice svc tx.PaymentHash).ret = (some tx, none) := by
  unfold lnd.MakeInvoice at hmk ⊢
  dsimp only at hmk ⊢
  by_cases hvalid : descriptionHash ≠ "" ∧
      ((lnd.descriptionHashBytes descriptionHash).2 ≠ none ∨
        (lnd.descriptionHashBytes descriptionHash).1.length ≠ 32)
  · rw [if_pos hvalid] at hmk
    simp at hmk
  · rw [if_neg hvalid] at hmk ⊢
    cases hA : svc.client.AddInvoice
        { ValueMsat := amount, Memo := description,
          DescriptionHash := (lnd.descriptionHashBytes descriptionHash).1,
          Expiry := expiry } with
    | error e => simp [hA] at hmk
    | ok rHash =>
      simp only [hA] at hmk ⊢
      cases hL : svc.client.LookupInvoice rHash with
      | error e => simp [hL] at hmk
      | ok inv =>
        simp only [hL, Prod.mk.injEq, Option.some.injEq, and_true] at hmk ⊢
        obtain ⟨hlen, hbytes⟩ := hadd _ _ hA
        have hinv : inv.RHash = rHash := hkey _ _ hL
        have hph : tx.PaymentHash = hex.EncodeToString rHash := by
          rw [← hmk, ← hinv]
          rfl
        have hdec : hex.DecodeString tx.PaymentHash = (rHash, none) := by
          rw [hph]
          exact DecodeString_EncodeToString rHash hbytes
        refine ⟨_, rHash, hA, rfl, hph, hdec, ?_, ?_⟩
        · unfold lnd.LookupInvoice
          simp only [hdec, hlen, hL]
          simp
        · unfold lnd.LookupInvoice
          simp only [hdec, hlen, hL, hmk]
          simp

/-- C15 amended, on the samples: `MakeInvoice` for 21000 msat on `invoicingNode` returns the
hex text of `sampleRHash` as payment hash, and `LookupInvoice` on that text queries the node with
`sampleRHash` and returns the same transaction, amount 21000 msat. -/
theorem MakeInvoice_LookupInvoice_round_trip_witness :
    ((lnd.MakeInvoice ⟨invoicingNode⟩ 21000 "memo" "" 3600).ret.1.map
      fun tx => (tx.PaymentHash, tx.Amount))
      = some ("030b131b232b333b434b535b636b737b838b939ba3abb3bbc3cbd3dbe3ebf3fb", 21000) ∧
    ∃ invoice rHash,
      invoicingNode.AddInvoice invoice = .ok rHash ∧
      (lnd.MakeInvoice ⟨invoicingNode⟩ 21000 "memo" "" 3600).calls
        = [wrapper.Call.AddInvoice invoice, wrapper.Call.LookupInvoice rHash] ∧
      (lnd.lndInvoiceToTransaction
          { RHash := sampleRHash, ValueMsat := 21000, CreationDate := 1709640000,
            Expiry := 3600, PaymentRequest := "lnbc210n1sample" }).PaymentHash
        = hex.EncodeToString rHash ∧
      hex.DecodeString (lnd.lndInvoiceToTransaction
          { RHash := sampleRHash, ValueMsat := 21000, CreationDate := 1709640000,
            Expiry := 3600, PaymentRequest := "lnbc210n1sample" }).PaymentHash
        = (rHash, none) ∧
      (lnd.LookupInvoice ⟨invoicingNode⟩ (lnd.lndInvoiceToTransaction
          { RHash := sampleRHash, ValueMsat := 21000, CreationDate := 1709640000,
            Expiry := 3600, PaymentRequest := "lnbc210n1sample" }).PaymentHash).calls
        = [wrapper.Call.LookupInvoice rHash] ∧
      (lnd.LookupInvoice ⟨invoicingNode⟩ (lnd.lndInvoiceToTransaction
          { RHash := sampleRHash, ValueMsat := 21000, CreationDate := 1709640000,
            Expiry := 3600, PaymentRequest := "lnbc210n1sample" }).PaymentHash).ret
        = (some (lnd.lndInvoiceToTransaction
          { RHash := sampleRHash, ValueMsat := 21000, CreationDate := 1709640000,
            Expiry := 3600, PaymentRequest := "lnbc210n1sample" }), none) :=
  ⟨by decide,
    MakeInvoice_LookupInvoice_round_trip ⟨invoicingNode⟩ 21000 "memo" "" 3600
      (lnd.lndInvoiceToTransaction
        { RHash := sampleRHash, ValueMsat := 21000, CreationDate := 1709640000,
          Expiry := 3600, PaymentRequest := "lnbc210n1sample" })
      (by
        intro inv r h
        have hr : r = sampleRHash := (Except.ok.inj h).symm
        rw [hr]
        decide)
      (by
        intro h inv hl
        rw [← Except.ok.inj hl])
      (by decide)⟩

/-- C17: pre-flight validation of hex text on the full node. `LookupInvoice` with a text that
is not the hex encoding of exactly 32 bytes, the empty text included, and `MakeInvoice` with a
non-empty description hash that is not the hex encoding of exactly 32 bytes, return no
transaction and a non-nil error and issue no backend call. `MakeInvoice` with the empty
description hash passes validation and first calls `AddInvoice` with an empty description
hash. -/
theorem invoice_hex_validation (svc : lnd.LNDService) (paymentHash : String) (amount : Int)
    (description descriptionHash : String) (expiry : Int) :
    (((hex.DecodeString paymentHash).2 ≠ none ∨ (hex.DecodeString paymentHash).1.length ≠ 32) →
      (lnd.LookupInvoice svc paymentHash).ret.1 = none ∧
      (lnd.LookupInvoice svc paymentHash).ret.2 ≠ none ∧
      (lnd.LookupInvoice svc paymentHash).calls = []) ∧
    ((lnd.LookupInvoice svc "").ret.1 = none ∧
      (lnd.LookupInvoice svc "").ret.2 ≠ none ∧
      (lnd.LookupInvoice svc "").calls = []) ∧
    (descriptionHash ≠ "" →
      ((hex.DecodeString descriptionHash).2 ≠ none ∨
        (hex.DecodeString descriptionHash).1.length ≠ 32) →
      (lnd.MakeInvoice svc amount description descriptionHash expiry).ret.1 = none ∧
      (lnd.MakeInvoice svc amount description descriptionHash expiry).ret.2 ≠ none ∧
      (lnd.MakeInvoice svc amount description descriptionHash expiry).calls = []) ∧
    (lnd.MakeInvoice svc amount description "" expiry).calls.head?
      = some (wrapper.Call.AddInvoice
        { ValueMsat := amount, Memo := description, DescriptionHash := [],
          Expiry := expiry }) := by
  have hlookup : ∀ s : String,
      ((hex.DecodeString s).2 ≠ none ∨ (hex.DecodeString s).1.length ≠ 32) →
      (lnd.LookupInvoice svc s).ret.1 = none ∧
      (lnd.LookupInvoice svc s).ret.2 ≠ none ∧
      (lnd.LookupInvoice svc s).calls = [] := by
    intro s hbad
    unfold lnd.LookupInvoice
    rw [if_pos hbad]
    simp
  refine ⟨hlookup paymentHash, hlookup "" (Or.inr (by decide)), ?_, ?_⟩
  · intro hne hbad
    have hdh : lnd.descriptionHashBytes descriptionHash = hex.DecodeString descriptionHash := by
      unfold lnd.descriptionHashBytes
      rw [if_pos hne]
    unfold lnd.MakeInvoice
    rw [hdh, if_pos ⟨hne, hbad⟩]
    simp
  · unfold lnd.MakeInvoice
    have hdh : lnd.descriptionHashBytes "" = ([], none) := by decide
    rw [hdh]
    simp only [ne_eq, not_true_eq_false, false_and, if_false]
    cases svc.client.AddInvoice
        { ValueMsat := amount, Memo := description, DescriptionHash := [], Expiry := expiry } with
    | error e => rfl
    | ok r =>
      simp only
      cases svc.client.LookupInvoice r <;> rfl

/-- C17 on the samples: a payment hash of 31 bytes and a description hash that is not hex are
refused without a call to `invoicingNode`. -/
theorem invoice_hex_validation_witness :
    ((lnd.LookupInvoice ⟨invoicingNode⟩ preimage31).ret.1 = none ∧
      (lnd.LookupInvoice ⟨invoicingNode⟩ preimage31).ret.2 ≠ none ∧
      (lnd.LookupInvoice ⟨invoicingNode⟩ preimage31).calls = []) ∧
    ((lnd.MakeInvoice ⟨invoicingNode⟩ 21000 "memo" "zz" 3600).ret.1 = none ∧
      (lnd.MakeInvoice ⟨invoicingNode⟩ 21000 "memo" "zz" 3600).ret.2 ≠ none ∧
      (lnd.MakeInvoice ⟨invoicingNode⟩ 21000 "memo" "zz" 3600).calls = []) :=
  ⟨(invoice_hex_validation ⟨invoicingNode⟩ preimage31 21000 "memo" "zz" 3600).1
      (Or.inr (by decide)),
    (invoice_hex_validation ⟨invoicingNode⟩ preimage31 21000 "memo" "zz" 3600).2.2.1
      (by decide) (Or.inl (by decide))⟩

/-! ## Balances: fan-out and units -/

/-- C18: on each adapter, in every successful `GetBalances` result the fields
`NextMaxSpendable` and `NextMaxSpendableMPP` equal `TotalSpendable`, and `TotalReceivable`,
`NextMaxReceivable` and `NextMaxReceivableMPP` are 0. -/
theorem GetBalances_fan_out (lndSvc : lnd.LNDService) (phx : phoenixd.PhoenixService)
    (cs : cashu.CashuService) (r : lnclient.BalancesResponse) :
    ((lnd.GetBalances lndSvc).ret = (some r, none) →
      r.Lightning.NextMaxSpendable = r.Lightning.TotalSpendable ∧
      r.Lightning.NextMaxSpendableMPP = r.Lightning.TotalSpendable ∧
      r.Lightning.TotalReceivable = 0 ∧ r.Lightning.NextMaxReceivable = 0 ∧
      r.Lightning.NextMaxReceivableMPP = 0) ∧
    ((phoenixd.GetBalances phx).ret = (some r, none) →
      r.Lightning.NextMaxSpendable = r.Lightning.TotalSpendable ∧
      r.Lightning.NextMaxSpendableMPP = r.Lightning.TotalSpendable ∧
      r.Lightning.TotalReceivable = 0 ∧ r.Lightning.NextMaxReceivable = 0 ∧
      r.Lightning.NextMaxReceivableMPP = 0) ∧
    ((cashu.GetBalances cs).ret = (some r, none) →
      r.Lightning.NextMaxSpendable = r.Lightning.TotalSpendable ∧
      r.Lightning.NextMaxSpendableMPP = r.Lightning.TotalSpendable ∧
      r.Lightning.TotalReceivable = 0 ∧ r.Lightning.NextMaxReceivable = 0 ∧
      r.Lightning.NextMaxReceivableMPP = 0) := by
  refine ⟨?_, ?_, ?_⟩
  · intro h
    cases h2 : (lnd.GetBalance lndSvc).ret.2 with
    | some err => simp [lnd.GetBalances, h2] at h
    | none =>
      simp only [lnd.GetBalances, h2, Prod.mk.injEq, Option.some.injEq, and_true] at h
      rw [← h]
      exact ⟨rfl, rfl, rfl, rfl, rfl⟩
  · intro h
    cases h2 : (phoenixd.GetBalance phx).ret.2 with
    | some err => simp [phoenixd.GetBalances, h2] at h
    | none =>
      simp only [phoenixd.GetBalances, h2, Prod.mk.injEq, Option.some.injEq, and_true] at h
      rw [← h]
      exact ⟨rfl, rfl, rfl, rfl, rfl⟩
  · intro h
    cases h2 : (cashu.GetBalance cs).ret.2 with
    | some err => simp [cashu.GetBalances, h2] at h
    | none =>
      simp only [cashu.GetBalances, h2, Prod.mk.injEq, Option.some.injEq, and_true] at h
      rw [← h]
      exact ⟨rfl, rfl, rfl, rfl, rfl⟩

/-- C18 on the samples: each of the three adapters returns `sampleBalances`, 21000 msat in the
three spendable fields and 0 in the three receivable fields. -/
theorem GetBalances_fan_out_witness :
    ((lnd.GetBalances ⟨rejectingNode⟩).ret = (some sampleBalances, none) ∧
      sampleBalances.Lightning.NextMaxSpendable = sampleBalances.Lightning.TotalSpendable ∧
      sampleBalances.Lightning.NextMaxSpendableMPP = sampleBalances.Lightning.TotalSpendable ∧
      sampleBalances.Lightning.TotalReceivable = 0 ∧
      sampleBalances.Lightning.NextMaxReceivable = 0 ∧
      sampleBalances.Lightning.NextMaxReceivableMPP = 0) ∧
    (phoenixd.GetBalances samplePhoenix).ret = (some sampleBalances, none) ∧
    (cashu.GetBalances ⟨sampleWallet⟩).ret = (some sampleBalances, none) ∧
    sampleBalances.Lightning.TotalSpendable = 21000 :=
  ⟨⟨by decide,
      (GetBalances_fan_out ⟨rejectingNode⟩ samplePhoenix ⟨sampleWallet⟩ sampleBalances).1
        (by decide)⟩,
    by decide, by decide, by decide⟩

/-- C19: for every decoded reply of `/getbalance`, `GetBalance` of the remote-HTTP adapter
returns the sum of `balanceSat` and `feeCreditSat` times 1000 in 64-bit arithmetic, which is
exactly `(balanceSat + feeCreditSat) * 1000` when that value fits 64 bits. -/
theorem GetBalance_sums_then_converts (svc : phoenixd.PhoenixService) (resp : http.Response)
    (balanceRes : phoenixd.BalanceResponse)
    (hreq : svc.remote.NewRequest "GET" (svc.Address ++ "/getbalance") "" = none)
    (hdo : svc.remote.Do
      { Method := "GET", URL := svc.Address ++ "/getbalance",
        Header := [("Authorization", "Basic " ++ svc.Authorization)] } = .ok resp)
    (hdec : svc.remote.decodeBalance resp.Body = .ok balanceRes) :
    (phoenixd.GetBalance svc).ret =
      (wrapInt64 (wrapInt64 (balanceRes.BalanceSat + balanceRes.FeeCreditSat) * 1000), none) ∧
    (-(2 ^ 63) ≤ (balanceRes.BalanceSat + balanceRes.FeeCreditSat) * 1000 →
      (balanceRes.BalanceSat + balanceRes.FeeCreditSat) * 1000 < 2 ^ 63 →
      (phoenixd.GetBalance svc).ret =
        ((balanceRes.BalanceSat + balanceRes.FeeCreditSat) * 1000, none)) := by
  have hret : (phoenixd.GetBalance svc).ret =
      (wrapInt64 (wrapInt64 (balanceRes.BalanceSat + balanceRes.FeeCreditSat) * 1000),
        none) := by
    unfold phoenixd.GetBalance
    simp only [hreq, hdo, hdec]
  refine ⟨hret, ?_⟩
  intro hlo hhi
  have hs1 : -(2 ^ 63) ≤ balanceRes.BalanceSat + balanceRes.FeeCreditSat := by
    norm_num at hlo hhi ⊢
    omega
  have hs2 : balanceRes.BalanceSat + balanceRes.FeeCreditSat < 2 ^ 63 := by
    norm_num at hlo hhi ⊢
    omega
  rw [hret, wrapInt64_of_range _ hs1 hs2, wrapInt64_of_range _ hlo hhi]

/-- C19 on the samples: 20 sat of balance and 1 sat of fee credit give 21000 msat. -/
theorem GetBalance_sums_then_converts_witness :
    (phoenixd.GetBalance samplePhoenix).ret = ((20 + 1) * 1000, none) :=
  (GetBalance_sums_then_converts samplePhoenix { Body := "http://localhost:9740/getbalance" }
    { BalanceSat := 20, FeeCreditSat := 1 } rfl rfl rfl).2 (by decide) (by decide)

/-! ## The invoice normalizer of the full node -/

/-- C20: for every backend invoice, `lndInvoiceToTransaction` sets `ExpiresAt` if and only if
`Expiry > 0`; when set it is `CreationDate + Expiry` in 64-bit arithmetic, exactly that sum
when it fits 64 bits; and `CreatedAt` is always `CreationDate`. -/
theorem lndInvoiceToTransaction_expiry (invoice : lnrpc.Invoice) :
    ((lnd.lndInvoiceToTransaction invoice).ExpiresAt ≠ none ↔ invoice.Expiry > 0) ∧
    (invoice.Expiry > 0 →
      (lnd.lndInvoiceToTransaction invoice).ExpiresAt
        = some (wrapInt64 (invoice.CreationDate + invoice.Expiry))) ∧
    (invoice.Expiry > 0 → -(2 ^ 63) ≤ invoice.CreationDate + invoice.Expiry →
      invoice.CreationDate + invoice.Expiry < 2 ^ 63 →
      (lnd.lndInvoiceToTransaction invoice).ExpiresAt
        = some (invoice.CreationDate + invoice.Expiry)) ∧
    (lnd.lndInvoiceToTransaction invoice).CreatedAt = invoice.CreationDate := by
  have hset : invoice.Expiry > 0 →
      (lnd.lndInvoiceToTransaction invoice).ExpiresAt
        = some (wrapInt64 (invoice.CreationDate + invoice.Expiry)) := by
    intro h
    simp [lnd.lndInvoiceToTransaction, h]
  refine ⟨?_, hset, ?_, rfl⟩
  · constructor
    · intro h
      by_contra hn
      apply h
      simp [lnd.lndInvoiceToTransaction, hn]
    · intro h
      rw [hset h]
      simp
  · intro h hlo hhi
    rw [hset h, wrapInt64_of_range _ hlo hhi]

/-- C20 on the samples: an invoice created at 1709640000 with expiry 3600 expires at
1709643600, and one with expiry 0 has no expiry time. -/
theorem lndInvoiceToTransaction_expiry_witness :
    (lnd.lndInvoiceToTransaction
      { CreationDate := 1709640000, Expiry := 3600 }).ExpiresAt = some (1709640000 + 3600) ∧
    (lnd.lndInvoiceToTransaction { CreationDate := 1709640000, Expiry := 0 }).ExpiresAt
      = none :=
  ⟨(lndInvoiceToTransaction_expiry { CreationDate := 1709640000, Expiry := 3600 }).2.2.1
      (by decide) (by decide) (by decide),
    by decide⟩

/-! ## Expiry and settlement in the normalizers -/

/-- C21, the defect at a concrete input: the decoder `zeroExpiryLib` reads the creation time
1700000000 and the expiry 0 out of the invoice text. The ecash normalizer and the payment
normalizer of the full node both set `ExpiresAt` to 1700000000, the creation time, where
`ExpiresAt` has to be absent for an expiry of 0. -/
theorem decoded_zero_expiry_sets_ExpiresAt :
    (zeroExpiryLib.Decodepay "lnbc1").toOption.map (fun b => (b.CreatedAt, b.Expiry))
      = some (1700000000, 0) ∧
    (cashu.cashuInvoiceToTransaction zeroExpiryLib openQuoteWithPreimage).1.map
      (fun tx => tx.ExpiresAt) = some (some 1700000000) ∧
    (lnd.paymentToTransaction zeroExpiryLib
      { PaymentHash := "p5", PaymentRequest := "lnbc5",
        Status := lnrpc.PaymentStatus.SUCCEEDED,
        CreationTimeNs := 1700000050000000000 }).toOption.map
      (fun tx => tx.ExpiresAt) = some (some 1700000000) := by
  refine ⟨by decide, by decide, by decide⟩

/-- C22: in every normalized transaction `SettledAt` is set exactly when the backend record is
in a confirmed state. Invoice of the full node: state SETTLED, value `SettleDate`. Payment of
the full node: status SUCCEEDED. Record of the remote node, incoming, outgoing or looked up:
`CompletedAt` not 0, value `CompletedAt` in milliseconds divided by 1000, rounded down. Stored
quote of the ecash wallet: `SettledAt > 0`, value `SettledAt`. -/
theorem SettledAt_iff_confirmed (lib : TextLib) (svc : phoenixd.PhoenixService)
    (paymentHash : String) (invoice : lnrpc.Invoice) (payment : lnrpc.Payment)
    (incoming : phoenixd.InvoiceResponse) (outgoing : phoenixd.OutgoingPaymentResponse)
    (cashuInvoice : storage.Invoice) (tx : nip47.Transaction) :
    (((lnd.lndInvoiceToTransaction invoice).SettledAt ≠ none ↔
        invoice.State = lnrpc.InvoiceState.SETTLED) ∧
      (invoice.State = lnrpc.InvoiceState.SETTLED →
        (lnd.lndInvoiceToTransaction invoice).SettledAt = some invoice.SettleDate)) ∧
    (lnd.paymentToTransaction lib payment = .ok tx →
      (tx.SettledAt ≠ none ↔ payment.Status = lnrpc.PaymentStatus.SUCCEEDED)) ∧
    (((phoenixd.incomingToTransaction incoming).SettledAt ≠ none ↔ incoming.CompletedAt ≠ 0) ∧
      (incoming.CompletedAt ≠ 0 →
        (phoenixd.incomingToTransaction incoming).SettledAt
          = some (incoming.CompletedAt / 1000))) ∧
    (((phoenixd.outgoingToTransaction outgoing).SettledAt ≠ none ↔ outgoing.CompletedAt ≠ 0) ∧
      (outgoing.CompletedAt ≠ 0 →
        (phoenixd.outgoingToTransaction outgoing).SettledAt
          = some (outgoing.CompletedAt / 1000))) ∧
    ((phoenixd.LookupInvoice svc paymentHash).ret = (some tx, none) →
      ∃ body invoiceRes,
        (phoenixd.fetch svc (svc.Address ++ "/payments/incoming/" ++ paymentHash)).ret
          = .ok body ∧
        svc.remote.decodeInvoice body = .ok invoiceRes ∧
        (tx.SettledAt ≠ none ↔ invoiceRes.CompletedAt ≠ 0) ∧
        (invoiceRes.CompletedAt ≠ 0 → tx.SettledAt = some (invoiceRes.CompletedAt / 1000))) ∧
    (cashu.cashuInvoiceToTransaction lib cashuInvoice = (some tx, none) →
      (tx.SettledAt ≠ none ↔ cashuInvoice.SettledAt > 0) ∧
      (cashuInvoice.SettledAt > 0 → tx.SettledAt = some cashuInvoice.SettledAt)) := by
  have hsettled : ∀ c : Int, (phoenixd.settledAtOf c ≠ none ↔ c ≠ 0) ∧
      (c ≠ 0 → phoenixd.settledAtOf c = some (c / 1000)) := by
    intro c
    unfold phoenixd.settledAtOf
    by_cases hc : c ≠ 0
    · rw [if_pos hc, UnixMilli_Unix]
      simp [hc]
    · rw [if_neg hc]
      simp [hc]
  refine ⟨?_, ?_, hsettled incoming.CompletedAt, hsettled outgoing.CompletedAt, ?_, ?_⟩
  · by_cases hs : invoice.State = lnrpc.InvoiceState.SETTLED
    · simp [lnd.lndInvoiceToTransaction, hs]
    · simp [lnd.lndInvoiceToTransaction, hs]
  · intro h
    unfold lnd.paymentToTransaction at h
    by_cases hreq : payment.PaymentRequest ≠ ""
    · rw [if_pos hreq] at h
      cases hd : lib.Decodepay (lib.ToLower payment.PaymentRequest) with
      | error e => simp [hd] at h
      | ok b =>
        simp only [hd, Except.ok.injEq] at h
        rw [← h]
        by_cases hs : payment.Status = lnrpc.PaymentStatus.SUCCEEDED <;> simp [hs]
    · rw [if_neg hreq] at h
      simp only [Except.ok.injEq] at h
      rw [← h]
      by_cases hs : payment.Status = lnrpc.PaymentStatus.SUCCEEDED <;> simp [hs]
  · intro h
    unfold phoenixd.LookupInvoice at h
    dsimp only at h
    cases hf : (phoenixd.fetch svc (svc.Address ++ "/payments/incoming/" ++ paymentHash)).ret with
    | error e => simp [hf] at h
    | ok body =>
      simp only [hf] at h
      cases hd : svc.remote.decodeInvoice body with
      | error e => simp [hd] at h
      | ok invoiceRes =>
        simp only [hd, Prod.mk.injEq, Option.some.injEq, and_true] at h
        refine ⟨body, invoiceRes, rfl, hd, ?_⟩
        rw [← h]
        exact hsettled invoiceRes.CompletedAt
  · intro h
    unfold cashu.cashuInvoiceToTransaction at h
    cases hd : lib.Decodepay cashuInvoice.PaymentRequest with
    | error e => simp [hd] at h
    | ok b =>
      simp only [hd, Prod.mk.injEq, Option.some.injEq, and_true] at h
      rw [← h]
      by_cases hs : cashuInvoice.SettledAt > 0
      · simp [hs]
      · simp [hs]

/-- C22 on the samples: the settled invoice of the full node is settled at its settle date
130, the succeeded payment has a settlement time, the incoming record of the remote node
completed at millisecond 6000 is settled at second 6, and the settled quote of the wallet is
settled at its own settlement time. -/
theorem SettledAt_iff_confirmed_witness :
    (lnd.lndInvoiceToTransaction settledInvoice).SettledAt = some settledInvoice.SettleDate ∧
    (lnd.paymentToTransaction toyLib succeededPayment = .ok succeededTransaction ∧
      (succeededTransaction.SettledAt ≠ none ↔
        succeededPayment.Status = lnrpc.PaymentStatus.SUCCEEDED)) ∧
    (phoenixd.incomingToTransaction completedRecord).SettledAt
      = some (completedRecord.CompletedAt / 1000) ∧
    (completedRecord.CompletedAt / 1000 = 6) ∧
    (cashu.cashuInvoiceToTransaction toyLib settledQuote = (some settledQuoteTransaction, none) ∧
      (settledQuoteTransaction.SettledAt ≠ none ↔ settledQuote.SettledAt > 0) ∧
      (settledQuote.SettledAt > 0 →
        settledQuoteTransaction.SettledAt = some settledQuote.SettledAt)) :=
  ⟨(SettledAt_iff_confirmed toyLib samplePhoenix "h1" settledInvoice {} {} {} {} {}).1.2 rfl,
    ⟨rfl, (SettledAt_iff_confirmed toyLib samplePhoenix "h1" {} succeededPayment {} {} {}
      succeededTransaction).2.1 rfl⟩,
    (SettledAt_iff_confirmed toyLib samplePhoenix "h1" {} {} completedRecord {} {}
      {}).2.2.1.2 (by decide),
    by decide,
    ⟨rfl, (SettledAt_iff_confirmed toyLib samplePhoenix "h1" {} {} {} {} settledQuote
      settledQuoteTransaction).2.2.2.2.2 rfl⟩⟩

/-- C23, the defect at a concrete input: the service behind `revealingPhoenix` reports an
incoming invoice that is not completed together with its preimage `0d`; `LookupInvoice` and
the incoming leg of `ListTransactions` return it with that preimage and without `SettledAt`.
The ecash normalizer returns the mint quote `openQuoteWithPreimage`, not settled, as an
incoming transaction with its preimage `0c` and without `SettledAt`. -/
theorem unsettled_incoming_exposes_preimage :
    (phoenixd.LookupInvoice revealingPhoenix "h2").ret.1.map
      (fun tx => (tx.Type_, tx.Preimage, tx.SettledAt)) = some ("incoming", "0d", none) ∧
    (phoenixd.ListTransactions revealingPhoenix 0 0 10 0 true "").ret.1.map
      (fun tx => (tx.Type_, tx.Preimage, tx.SettledAt)) = [("incoming", "0d", none)] ∧
    (cashu.cashuInvoiceToTransaction toyLib openQuoteWithPreimage).1.map
      (fun tx => (tx.Type_, tx.Preimage, tx.SettledAt)) = some ("incoming", "0c", none) := by
  refine ⟨by decide, by decide, by decide⟩

/-! ## Failure of a leg of `ListTransactions` -/

/-- C25, the defect at a concrete input: the service behind `failingPhoenix` answers the
payment request without transport fault, with status 500 and the body of an empty JSON object.
`SendPaymentSync` returns a `PayInvoiceResponse` with an empty preimage and fee 0 together with
a nil error, where a non-nil error and no response are required. -/
theorem SendPaymentSync_status_500_is_success :
    failingPhoenix.remote.Do
      { Method := "POST", URL := "http://localhost:9740/payinvoice", Body := "",
        Header := [("Authorization", "Basic OnBhc3M="),
          ("Content-Type", "application/x-www-form-urlencoded")] }
      = .ok { StatusCode := 500, Body := "\x7b\x7d" } ∧
    (phoenixd.SendPaymentSync failingPhoenix "lnbc210n1sample").ret
      = (some { Preimage := "", Fee := some 0 }, none) := by
  constructor
  · rfl
  · decide

/-- What `SendPaymentSync` of the remote-HTTP adapter does with a reply: the status is not
read. Whenever the transport succeeds, with any status: if the body does not decode as a
`PayResponse` the call returns no `PayInvoiceResponse` and the decoder fault; if the body
decodes with a non-empty preimage the call returns that preimage, the routing fee in msat and
a nil error. -/
theorem SendPaymentSync_decides_on_body (svc : phoenixd.PhoenixService) (payReq : String)
    (resp : http.Response)
    (hreq : svc.remote.NewRequest "POST" (svc.Address ++ "/payinvoice")
      (svc.remote.Encode [("invoice", payReq)]) = none)
    (hdo : svc.remote.Do
      { Method := "POST", URL := svc.Address ++ "/payinvoice",
        Body := svc.remote.Encode [("invoice", payReq)],
        Header := [("Authorization", "Basic " ++ svc.Authorization),
          ("Content-Type", "application/x-www-form-urlencoded")] } = .ok resp) :
    (∀ err, svc.remote.decodePay resp.Body = .error err →
      (phoenixd.SendPaymentSync svc payReq).ret = (none, some err)) ∧
    (∀ payRes, svc.remote.decodePay resp.Body = .ok payRes → payRes.PaymentPreimage ≠ "" →
      (phoenixd.SendPaymentSync svc payReq).ret =
        (some { Preimage := payRes.PaymentPreimage,
                Fee := some (wrapUint64 payRes.RoutingFeeSat * 1000 % 2 ^ 64) }, none)) := by
  have hform : url.Values.Add [] "invoice" payReq = [("invoice", payReq)] := rfl
  constructor
  · intro err hdec
    unfold phoenixd.SendPaymentSync
    simp only [hform, hreq, hdo, hdec]
  · intro payRes hdec _
    unfold phoenixd.SendPaymentSync
    simp only [hform, hreq, hdo, hdec]

/-- The reply rule of `SendPaymentSync` on the samples: a reply with status 500 and a plain
text body is an error; a reply whose body decodes with the preimage `0e` and a routing fee of 2 sat is a success with
that preimage and 2000 msat of fee. -/
theorem SendPaymentSync_decides_on_body_witness :
    (phoenixd.SendPaymentSync plainTextPhoenix "lnbc210n1sample").ret
      = (none, some (Error.External "json")) ∧
    (phoenixd.SendPaymentSync payingPhoenix "lnbc210n1sample").ret
      = (some { Preimage := "0e", Fee := some (wrapUint64 2 * 1000 % 2 ^ 64) }, none) ∧
    wrapUint64 2 * 1000 % 2 ^ 64 = 2000 :=
  ⟨(SendPaymentSync_decides_on_body plainTextPhoenix "lnbc210n1sample"
      { StatusCode := 500, Body := "payment failed" } rfl rfl).1 (Error.External "json") rfl,
    (SendPaymentSync_decides_on_body payingPhoenix "lnbc210n1sample"
      { Body := "http://localhost:9740/payinvoice" } rfl rfl).2
      { PaymentHash := "h3", PaymentPreimage := "0e", RoutingFeeSat := 2 } rfl (by decide),
    by decide⟩

/-! ## Operations the ecash wallet has no backend for -/

/-- C26, counterexample: `OpenChannel`, `RedeemOnchainFunds` and `SignMessage` of the ecash
adapter return a nil or empty value together with a nil error. -/
theorem cashu_OpenChannel_returns_nil_error :
    (cashu.OpenChannel ⟨sampleWallet⟩ (some { Pubkey := "02aa", Amount := 100000 })).ret
      = (none, none) ∧
    (cashu.RedeemOnchainFunds ⟨sampleWallet⟩ "bc1qsample").ret = ("", none) ∧
    (cashu.SignMessage ⟨sampleWallet⟩ "hello").ret = ("", none) := by
  refine ⟨rfl, rfl, rfl⟩

/-- C26, amended: on the ecash adapter each of `OpenChannel`, `CloseChannel`, `ConnectPeer`,
`ListChannels` and `GetNewOnchainAddress` returns, for every input, a nil or empty value
together with a nil error, and calls nothing. -/
theorem cashu_channel_operations_are_stubs (cs : cashu.CashuService)
    (openChannelRequest : Option lnclient.OpenChannelRequest)
    (closeChannelRequest : Option lnclient.CloseChannelRequest)
    (connectPeerRequest : Option lnclient.ConnectPeerRequest) :
    cashu.OpenChannel cs openChannelRequest = ⟨(none, none), []⟩ ∧
    cashu.CloseChannel cs closeChannelRequest = ⟨(none, none), []⟩ ∧
    cashu.ConnectPeer cs connectPeerRequest = ⟨none, []⟩ ∧
    cashu.ListChannels cs = ⟨([], none), []⟩ ∧
    cashu.GetNewOnchainAddress cs = ⟨("", none), []⟩ := by
  refine ⟨rfl, rfl, rfl, rfl, rfl⟩

/-! ## Lookup and payment on the ecash wallet -/

/-- C27, the defect at a concrete input: the wallet `garbageWallet` finds a stored quote whose
invoice text the decoder rejects, and `LookupInvoice` returns no transaction together with a
nil error, where a non-nil error is required. -/
theorem LookupInvoice_drops_decode_error :
    (toyLib.Decodepay "garbage").toOption = none ∧
    (cashu.cashuInvoiceToTransaction toyLib
      { Id := "q6", QuoteAmount := 21, PaymentRequest := "garbage", PaymentHash := "bb",
        Paid := true, CreatedAt := 1700000000, SettledAt := 1700000100 })
      = (none, some (Error.External "bolt11")) ∧
    (cashu.LookupInvoice ⟨garbageWallet⟩ toyLib "bb").ret = (none, none) := by
  refine ⟨by decide, by decide, by decide⟩

/-- C28: `SendPaymentSync` of the ecash adapter. When it returns a response with a nil error,
the fee of the response is `FeesPaid` of the normalized stored invoice reduced modulo `2^64`:
`FeesPaid` itself when that is not negative, and `2^64 + FeesPaid` when it is negative. When the
melt fails, or the melt response is nil or has an empty preimage, the call returns no response
and a non-nil error. -/
theorem cashu_SendPaymentSync_fee (cs : cashu.CashuService) (lib : TextLib)
    (invoice : String) :
    (∀ resp, (cashu.SendPaymentSync cs lib invoice).ret = .returned (some resp, none) →
      ∃ cashuInvoice tx fee,
        cs.wallet.GetInvoiceByPaymentRequest invoice = .ok (some cashuInvoice) ∧
        cashu.cashuInvoiceToTransaction lib cashuInvoice = (some tx, none) ∧
        resp.Fee = some fee ∧
        (fee : Int) = tx.FeesPaid % 2 ^ 64 ∧
        (0 ≤ tx.FeesPaid → (fee : Int) = tx.FeesPaid) ∧
        (tx.FeesPaid < 0 → (fee : Int) = 2 ^ 64 + tx.FeesPaid)) ∧
    (∀ err, cs.wallet.Melt invoice cs.wallet.CurrentMint = .error err →
      (cashu.SendPaymentSync cs lib invoice).ret = .returned (none, some err)) ∧
    (cs.wallet.Melt invoice cs.wallet.CurrentMint = .ok none →
      (cashu.SendPaymentSync cs lib invoice).ret
        = .returned (none, some (Error.New "no preimage in melt response"))) ∧
    (∀ meltResponse, cs.wallet.Melt invoice cs.wallet.CurrentMint = .ok (some meltResponse) →
      meltResponse.Preimage = "" →
      (cashu.SendPaymentSync cs lib invoice).ret
        = .returned (none, some (Error.New "no preimage in melt response"))) := by
  refine ⟨?_, ?_, ?_, ?_⟩
  · intro resp h
    unfold cashu.SendPaymentSync at h
    dsimp only at h
    cases hm : cs.wallet.Melt invoice cs.wallet.CurrentMint with
    | error e => simp [hm] at h
    | ok m =>
      cases m with
      | none => simp [hm] at h
      | some meltResponse =>
        simp only [hm] at h
        by_cases hp : meltResponse.Preimage = ""
        · simp [hp] at h
        · rw [if_neg hp] at h
          cases hg : cs.wallet.GetInvoiceByPaymentRequest invoice with
          | error e => simp [hg] at h
          | ok o =>
            cases o with
            | none => simp [hg] at h
            | some cashuInvoice =>
              simp only [hg] at h
              cases hd : lib.Decodepay cashuInvoice.PaymentRequest with
              | error e =>
                have hc : cashu.cashuInvoiceToTransaction lib cashuInvoice
                    = (none, some e) := by
                  simp [cashu.cashuInvoiceToTransaction, hd]
                simp [hc] at h
              | ok b =>
                obtain ⟨tx, htx⟩ : ∃ tx,
                    cashu.cashuInvoiceToTransaction lib cashuInvoice = (some tx, none) := by
                  simp [cashu.cashuInvoiceToTransaction, hd]
                have hrange : -(2 ^ 63) ≤ tx.FeesPaid ∧ tx.FeesPaid < 2 ^ 63 := by
                  have hf : tx.FeesPaid = wrapInt64
                      (wrapInt64 ((cashuInvoice.QuoteAmount * 1000 % 2 ^ 64 : Nat) : Int)
                        - b.MSatoshi) := by
                    simp only [cashu.cashuInvoiceToTransaction, hd, Prod.mk.injEq,
                      Option.some.injEq, and_true] at htx
                    rw [← htx]
                  rw [hf]
                  exact wrapInt64_range _
                simp only [htx, Outcome.returned.injEq, Prod.mk.injEq, Option.some.injEq,
                  and_true] at h
                have hcast := wrapUint64_cast tx.FeesPaid
                refine ⟨cashuInvoice, tx, wrapUint64 tx.FeesPaid, rfl, htx, ?_, hcast, ?_, ?_⟩
                · rw [← h]
                · intro hnn
                  rw [hcast]
                  have := hrange.2
                  norm_num at this ⊢
                  omega
                · intro hneg
                  rw [hcast]
                  have := hrange.1
                  norm_num at this ⊢
                  omega
  · intro err hm
    unfold cashu.SendPaymentSync
    simp only [hm]
  · intro hm
    unfold cashu.SendPaymentSync
    simp only [hm]
  · intro meltResponse hm hp
    unfold cashu.SendPaymentSync
    simp only [hm, hp, if_true]

/-- C28 on the samples: the melt quote of 20 sat for an invoice of 21000 msat has the fee
-1000 msat, reported as `2^64 - 1000`; a failing melt is an error. -/
theorem cashu_SendPaymentSync_fee_witness :
    (cashu.SendPaymentSync ⟨meltingWallet⟩ toyLib "lnbc1").ret
      = .returned (some { Preimage := "0b", Fee := some 18446744073709550616 }, none) ∧
    (∃ cashuInvoice tx fee,
        meltingWallet.GetInvoiceByPaymentRequest "lnbc1" = .ok (some cashuInvoice) ∧
        cashu.cashuInvoiceToTransaction toyLib cashuInvoice = (some tx, none) ∧
        (some 18446744073709550616 : Option Nat) = some fee ∧
        (fee : Int) = tx.FeesPaid % 2 ^ 64 ∧
        (0 ≤ tx.FeesPaid → (fee : Int) = tx.FeesPaid) ∧
        (tx.FeesPaid < 0 → (fee : Int) = 2 ^ 64 + tx.FeesPaid)) ∧
    (cashu.SendPaymentSync ⟨brokeWallet⟩ toyLib "lnbc1").ret
      = .returned (none, some (Error.External "insufficient funds")) :=
  ⟨by decide,
    (cashu_SendPaymentSync_fee ⟨meltingWallet⟩ toyLib "lnbc1").1
      { Preimage := "0b", Fee := some 18446744073709550616 } (by decide),
    (cashu_SendPaymentSync_fee ⟨brokeWallet⟩ toyLib "lnbc1").2.1
      (Error.External "insufficient funds") rfl⟩

/-! ## The type filter of the full node -/

/-- C29, counterexample: with the empty type filter on `deafNode`, whose invoice query fails,
only the invoice query is issued; the call returns the fault and the payment query is never
issued. -/
theorem ListTransactions_failed_invoice_query_skips_payments :
    (lnd.ListTransactions ⟨deafNode⟩ toyLib 0 0 10 0 true "").calls
      = [wrapper.Call.ListInvoices
          { Reversed := true, NumMaxInvoices := 10, IndexOffset := 0 }] ∧
    (lnd.ListTransactions ⟨deafNode⟩ toyLib 0 0 10 0 true "").ret
      = ([], some (Error.External "unavailable")) := by
  constructor <;> decide

/-- C29, amended: the type filter of `ListTransactions` on the full node. With `incoming` only
the invoice query is issued and every returned transaction is incoming; with `outgoing` only
the payment query is issued and every returned transaction is outgoing; with the empty filter
the invoice query is issued and, when it succeeds, the payment query after it; with any other
text no query is issued and the call succeeds with the empty list. -/
theorem ListTransactions_type_filter (svc : lnd.LNDService) (lib : TextLib)
    (from_ until_ limit offset : Nat) (unpaid : Bool) :
    ((lnd.ListTransactions svc lib from_ until_ limit offset unpaid "incoming").calls
        = [wrapper.Call.ListInvoices
            { Reversed := true, NumMaxInvoices := limit, IndexOffset := offset }] ∧
      ∀ tx ∈ (lnd.ListTransactions svc lib from_ until_ limit offset unpaid "incoming").ret.1,
        tx.Type_ = "incoming") ∧
    ((lnd.ListTransactions svc lib from_ until_ limit offset unpaid "outgoing").calls
        = [wrapper.Call.ListPayments
            { Reversed := true, MaxPayments := limit, IndexOffset := offset,
              IncludeIncomplete := unpaid }] ∧
      ∀ tx ∈ (lnd.ListTransactions svc lib from_ until_ limit offset unpaid "outgoing").ret.1,
        tx.Type_ = "outgoing") ∧
    ((∀ invoices,
        svc.client.ListInvoices
          { Reversed := true, NumMaxInvoices := limit, IndexOffset := offset }
          = .ok invoices →
        (lnd.ListTransactions svc lib from_ until_ limit offset unpaid "").calls
          = [wrapper.Call.ListInvoices
              { Reversed := true, NumMaxInvoices := limit, IndexOffset := offset },
            wrapper.Call.ListPayments
              { Reversed := true, MaxPayments := limit, IndexOffset := offset,
                IncludeIncomplete := unpaid }]) ∧
      (∀ err,
        svc.client.ListInvoices
          { Reversed := true, NumMaxInvoices := limit, IndexOffset := offset }
          = .error err →
        (lnd.ListTransactions svc lib from_ until_ limit offset unpaid "").calls
          = [wrapper.Call.ListInvoices
              { Reversed := true, NumMaxInvoices := limit, IndexOffset := offset }])) ∧
    (∀ invoiceType : String,
      invoiceType ≠ "" → invoiceType ≠ "incoming" → invoiceType ≠ "outgoing" →
      lnd.ListTransactions svc lib from_ until_ limit offset unpaid invoiceType
        = ⟨([], none), []⟩) := by
  have hin_in : lnd.incomingLeg svc limit offset "incoming"
      = ⟨svc.client.ListInvoices
          { Reversed := true, NumMaxInvoices := limit, IndexOffset := offset },
        [wrapper.Call.ListInvoices
          { Reversed := true, NumMaxInvoices := limit, IndexOffset := offset }]⟩ := by
    unfold lnd.incomingLeg
    rw [if_pos (by decide)]
  have hout_in : lnd.outgoingLeg svc limit offset unpaid "incoming" = ⟨.ok [], []⟩ := by
    unfold lnd.outgoingLeg
    rw [if_neg (by decide)]
  have hin_out : lnd.incomingLeg svc limit offset "outgoing" = ⟨.ok [], []⟩ := by
    unfold lnd.incomingLeg
    rw [if_neg (by decide)]
  have hout_out : lnd.outgoingLeg svc limit offset unpaid "outgoing"
      = ⟨svc.client.ListPayments
          { Reversed := true, MaxPayments := limit, IndexOffset := offset,
            IncludeIncomplete := unpaid },
        [wrapper.Call.ListPayments
          { Reversed := true, MaxPayments := limit, IndexOffset := offset,
            IncludeIncomplete := unpaid }]⟩ := by
    unfold lnd.outgoingLeg
    rw [if_pos (by decide)]
  have hin_both : lnd.incomingLeg svc limit offset ""
      = ⟨svc.client.ListInvoices
          { Reversed := true, NumMaxInvoices := limit, IndexOffset := offset },
        [wrapper.Call.ListInvoices
          { Reversed := true, NumMaxInvoices := limit, IndexOffset := offset }]⟩ := by
    unfold lnd.incomingLeg
    rw [if_pos (by decide)]
  have hout_both : lnd.outgoingLeg svc limit offset unpaid ""
      = ⟨svc.client.ListPayments
          { Reversed := true, MaxPayments := limit, IndexOffset := offset,
            IncludeIncomplete := unpaid },
        [wrapper.Call.ListPayments
          { Reversed := true, MaxPayments := limit, IndexOffset := offset,
            IncludeIncomplete := unpaid }]⟩ := by
    unfold lnd.outgoingLeg
    rw [if_pos (by decide)]
  refine ⟨⟨?_, ?_⟩, ⟨?_, ?_⟩, ⟨?_, ?_⟩, ?_⟩
  · rw [lnd_ListTransactions_calls, hin_in, hout_in]
    cases svc.client.ListInvoices
      { Reversed := true, NumMaxInvoices := limit, IndexOffset := offset } <;> rfl
  · intro tx htx
    rcases lnd_ListTransactions_mem _ _ _ _ _ _ _ _ tx htx with
      ⟨_, i, _, _, hi⟩ | ⟨payments, p, hp, hmem, _⟩
    · rw [hi]; rfl
    · rw [hout_in] at hp
      have : payments = [] := (Except.ok.inj hp).symm
      rw [this] at hmem
      simp at hmem
  · rw [lnd_ListTransactions_calls, hin_out, hout_out]
    rfl
  · intro tx htx
    rcases lnd_ListTransactions_mem _ _ _ _ _ _ _ _ tx htx with
      ⟨invoices, i, hi, hmem, _⟩ | ⟨_, p, _, _, hp⟩
    · rw [hin_out] at hi
      have : invoices = [] := (Except.ok.inj hi).symm
      rw [this] at hmem
      simp at hmem
    · exact paymentToTransaction_type lib p tx hp
  · intro invoices h
    rw [lnd_ListTransactions_calls, hin_both, hout_both]
    simp only [h]
    rfl
  · intro err h
    rw [lnd_ListTransactions_calls, hin_both]
    simp only [h]
  · intro invoiceType h1 h2 h3
    have hi : lnd.incomingLeg svc limit offset invoiceType = ⟨.ok [], []⟩ := by
      unfold lnd.incomingLeg
      rw [if_neg (by simp [h1, h2])]
    have ho : lnd.outgoingLeg svc limit offset unpaid invoiceType = ⟨.ok [], []⟩ := by
      unfold lnd.outgoingLeg
      rw [if_neg (by simp [h1, h3])]
    unfold lnd.ListTransactions
    simp only [hi, ho]
    rfl

/-- C29 amended, on the samples: with the empty filter `rejectingNode` is asked for invoices
and then for payments, `deafNode` for invoices only; with the filter `both` no query is issued
and the list is empty. -/
theorem ListTransactions_type_filter_witness :
    (lnd.ListTransactions ⟨rejectingNode⟩ toyLib 0 0 10 0 true "").calls
      = [wrapper.Call.ListInvoices
          { Reversed := true, NumMaxInvoices := 10, IndexOffset := 0 },
        wrapper.Call.ListPayments
          { Reversed := true, MaxPayments := 10, IndexOffset := 0,
            IncludeIncomplete := true }] ∧
    (lnd.ListTransactions ⟨deafNode⟩ toyLib 0 0 10 0 true "").calls
      = [wrapper.Call.ListInvoices
          { Reversed := true, NumMaxInvoices := 10, IndexOffset := 0 }] ∧
    lnd.ListTransactions ⟨rejectingNode⟩ toyLib 0 0 10 0 true "both" = ⟨([], none), []⟩ ∧
    ((lnd.ListTransactions ⟨rejectingNode⟩ toyLib 0 0 10 0 true "incoming").ret.1.map
      fun tx => tx.Type_) = ["incoming", "incoming"] :=
  ⟨(ListTransactions_type_filter ⟨rejectingNode⟩ toyLib 0 0 10 0 true).2.2.1.1
      sampleInvoices rfl,
    (ListTransactions_type_filter ⟨deafNode⟩ toyLib 0 0 10 0 true).2.2.1.2
      (Error.External "unavailable") rfl,
    (ListTransactions_type_filter ⟨rejectingNode⟩ toyLib 0 0 10 0 true).2.2.2 "both"
      (by decide) (by decide) (by decide),
    by decide⟩

/-! ## Listing on the ecash wallet -/

/-- C30: `ListTransactions` of the ecash adapter does not depend on its query arguments: for
one wallet state and clock, two calls that differ in `from`, `until`, `limit`, `offset`,
`unpaid` or the type filter return the same list and issue the same calls. The call never
fails. Its result is the sorted list of the normalizations of the stored quotes whose invoice
text decodes and that are settled: quotes that do not decode are skipped, and every returned
transaction has `SettledAt` set, also when `unpaid` is set. -/
theorem cashu_ListTransactions_ignores_arguments (cs : cashu.CashuService) (lib : TextLib)
    (clock : Nat → time.Time) (from_ until_ limit offset : Nat) (unpaid : Bool)
    (invoiceType : String) (from2 until2 limit2 offset2 : Nat) (unpaid2 : Bool)
    (invoiceType2 : String) :
    cashu.ListTransactions cs lib clock from_ until_ limit offset unpaid invoiceType
      = cashu.ListTransactions cs lib clock from2 until2 limit2 offset2 unpaid2 invoiceType2 ∧
    (cashu.ListTransactions cs lib clock from_ until_ limit offset unpaid invoiceType).ret.2
      = none ∧
    (cashu.ListTransactions cs lib clock from_ until_ limit offset unpaid invoiceType).ret.1
      = sort.SliceStable
        ((cs.wallet.GetAllInvoices.filterMap fun inv =>
            (cashu.cashuInvoiceToTransaction lib inv).1).filter
          (fun tx => decide (tx.SettledAt ≠ none))) createdAtLess ∧
    (∀ tx ∈ (cashu.ListTransactions cs lib clock from_ until_ limit offset unpaid
        invoiceType).ret.1, tx.SettledAt ≠ none) := by
  have hlist : (cashu.ListTransactions cs lib clock from_ until_ limit offset unpaid
      invoiceType).ret.1
      = sort.SliceStable
        ((cs.wallet.GetAllInvoices.filterMap fun inv =>
            (cashu.cashuInvoiceToTransaction lib inv).1).filter
          (fun tx => decide (tx.SettledAt ≠ none))) createdAtLess := by
    unfold cashu.ListTransactions
    simp only [cashu_listLoop_transactions, List.nil_append]
  refine ⟨rfl, rfl, hlist, ?_⟩
  intro tx htx
  rw [hlist] at htx
  have hmem := (SliceStable_perm createdAtLess _).subset htx
  have := (List.mem_filter.mp hmem).2
  simpa using this

/-- C30 on the samples: with `unpaid` set and with other arguments the wallet returns the same
two settled quotes and drops the open one; in `garbageWallet` the quote that does not decode is
skipped and the other one is returned. -/
theorem cashu_ListTransactions_ignores_arguments_witness :
    ((cashu.ListTransactions ⟨sampleWallet⟩ toyLib sampleClock 0 0 10 0 true "").ret.1.map
      fun tx => tx.SettledAt) = [some 1700000100, some 1700000400] ∧
    ((cashu.ListTransactions ⟨garbageWallet⟩ toyLib sampleClock 0 0 10 0 true "").ret.1.map
      fun tx => tx.Invoice) = ["lnbc1"] ∧
    cashu.ListTransactions ⟨sampleWallet⟩ toyLib sampleClock 0 0 10 0 true ""
      = cashu.ListTransactions ⟨sampleWallet⟩ toyLib sampleClock 5 9 1 3 false "incoming" ∧
    (∀ tx ∈ (cashu.ListTransactions ⟨sampleWallet⟩ toyLib sampleClock 0 0 10 0 true "").ret.1,
      tx.SettledAt ≠ none) :=
  ⟨by decide, by decide,
    (cashu_ListTransactions_ignores_arguments ⟨sampleWallet⟩ toyLib sampleClock 0 0 10 0 true
      "" 5 9 1 3 false "incoming").1,
    (cashu_ListTransactions_ignores_arguments ⟨sampleWallet⟩ toyLib sampleClock 0 0 10 0 true
      "" 5 9 1 3 false "incoming").2.2.2⟩
